import Mathlib

/-!
The naev mission subsystem: matcher, generator, lifecycle and state persistor.

A shallow embedding of `src/mission.c` (and of the accept paths of
`src/land.c`) together with the properties proved about it.

Conventions of the embedding

* C pointers into a global array are indices into the corresponding list;
  `NULL` is `none`.
* `unsigned int` values are natural numbers reduced modulo `2^32` where the
  code can wrap; `int` values are integers.
* `double` values are rationals.  Text conversion of Lua numbers
  (`lua_tostring`, `atof`) belongs to the Lua VM and libc and is a field of
  `Host`.
* Functions of other translation units (script entry points, the player's
  record of finished missions, the planet / system / faction catalogs) are
  fields of `Host`.
* Calls that only act on other subsystems are recorded as `Event`s.
-/

namespace Naev

/-! ## Lua values -/

/-- A Lua table key.  The persistor dispatches on `lua_type` of the key and
only tells strings and numbers apart from everything else. -/
inductive LuaKey where
  | str (s : String)
  | num (n : ℚ)
  | other (tag : Nat)
  deriving DecidableEq, Repr

/-- A Lua value as seen through `lua_type` and the userdata metatable
checks `lua_isplanet`, `lua_issystem`, `lua_isfaction`, `lua_isship`.
A planet or system userdata holds a pointer into the respective stack, a
faction userdata holds the faction id, a ship userdata holds a pointer
into `ship_stack`.  `other` stands for functions, threads and userdata of
any other kind.  A table is the list of its entries in `lua_next` order. -/
inductive LuaValue where
  | nil
  | boolean (b : Bool)
  | number (n : ℚ)
  | string (s : String)
  | table (t : List (LuaKey × LuaValue))
  | planet (p : Option Nat)
  | system (s : Option Nat)
  | faction (f : Int)
  | ship (sh : Nat)
  | other (tag : Nat)

/-- The entries of a Lua table, in iteration order. -/
abbrev LuaTable := List (LuaKey × LuaValue)

/-- Raw read `t[k]`; `nil` when the key is absent. -/
def lua_gettable : LuaTable → LuaKey → LuaValue
  | [], _ => .nil
  | (k, v) :: rest, key => if k = key then v else lua_gettable rest key

/-- String-keyed read, `lua_getfield(L, idx, name)`. -/
def lua_getfield (t : LuaTable) (name : String) : LuaValue :=
  lua_gettable t (.str name)

/-- Truthiness, `lua_toboolean`: everything but `nil` and `false`. -/
def lua_toboolean : LuaValue → Bool
  | .nil => false
  | .boolean b => b
  | _ => true

/-- Removal of a key. -/
def lua_rawremove : LuaTable → LuaKey → LuaTable
  | [], _ => []
  | (k, v) :: rest, key => if k = key then rest else (k, v) :: lua_rawremove rest key

/-- Overwrites the value of a key that is present, adds the entry at the end
otherwise. -/
def lua_rawset : LuaTable → LuaKey → LuaValue → LuaTable
  | [], key, val => [(key, val)]
  | (k, v) :: rest, key, val =>
      if k = key then (k, val) :: rest else (k, v) :: lua_rawset rest key val

/-- Assignment `t[k] = v`, `lua_settable`: assigning `nil` removes the key. -/
def lua_settable (t : LuaTable) (key : LuaKey) (val : LuaValue) : LuaTable :=
  match val with
  | .nil => lua_rawremove t key
  | v => lua_rawset t key v

/-! ## libc helpers -/

/-- Lexicographic comparison of two character sequences. -/
def strcmp_chars : List Char → List Char → Int
  | [], [] => 0
  | [], _ :: _ => -1
  | _ :: _, [] => 1
  | a :: as, b :: bs =>
      if a.toNat < b.toNat then -1
      else if b.toNat < a.toNat then 1
      else strcmp_chars as bs

/-- The libc `strcmp`, which C specifies up to its sign: `-1`, `0` or `1`
stands for the negative, zero or positive number the library returns, whose
size is left to the library. -/
def strcmp (a b : String) : Int := strcmp_chars a.data b.data

/-- Value of the leading decimal digits of a character sequence. -/
def atoi_digits : List Char → Nat → Nat
  | [], acc => acc
  | c :: cs, acc =>
      if c.isDigit then atoi_digits cs (acc * 10 + (c.toNat - 48)) else acc

/-- The libc `isspace` in the C locale. -/
def isspace (c : Char) : Bool :=
  c = ' ' || c = '\t' || c = '\n' || c = '\x0b' || c = '\x0c' || c = '\r'

/-- The text after its leading white space. -/
def skip_space : List Char → List Char
  | [] => []
  | c :: cs => if isspace c then skip_space cs else c :: cs

/-- The number a text starts with, as `strtol` in base 10 reads it before the
range of `long` comes in: white space, an optional sign, decimal digits; `0`
when there are no digits. -/
def strtol_value (s : String) : Int :=
  match skip_space s.data with
  | '-' :: cs => - (atoi_digits cs 0 : Int)
  | '+' :: cs => (atoi_digits cs 0 : Int)
  | cs => (atoi_digits cs 0 : Int)

/-- The libc `strtol(s, NULL, 10)` with a 64-bit `long`: a number outside the
range of `long` is replaced by `LONG_MIN` or `LONG_MAX`. -/
def strtol (s : String) : Int :=
  max (-9223372036854775808) (min 9223372036854775807 (strtol_value s))

/-- A `long` converted to a 32-bit `int`. -/
def int_of_long (n : Int) : Int := (n + 2147483648) % 4294967296 - 2147483648

/-- The libc `atoi`, which is `(int) strtol(s, NULL, 10)`. -/
def atoi (s : String) : Int := int_of_long (strtol s)

/-- The libc `atol`, which is `strtol(s, NULL, 10)`. -/
def atol (s : String) : Int := strtol s

/-! ## Mission data -/

/-- Availability block of a mission template, `MissionAvail_t`. -/
structure MissionAvail where
  loc : Int
  chance : Int
  planet : Option String
  system : Option String
  factions : List Int
  cond : Option String
  done : Option String
  priority : Int
  deriving DecidableEq, Repr

/-- A mission template, `MissionData`.  `unique` is
`mis_isFlag(misn, MISSION_UNIQUE)`, the only flag `mission_parse` sets. -/
structure MissionData where
  name : String
  unique : Bool
  avail : MissionAvail
  lua : Option String
  deriving DecidableEq, Repr

/-- A mission instance, `Mission`.  `data` points into `mission_stack`.
`cargo` holds the `ncargo` linked cargo ids.  `timer` and `tfunc` are the
two arrays of `MISSION_TIMER_MAX` entries.  `L` is the global table of the
instance's Lua state, `none` when there is no state. -/
structure Mission where
  id : Nat
  data : Option Nat
  accepted : Bool
  title : Option String
  desc : Option String
  reward : Option String
  portrait : Option Nat
  npc : Option String
  sys_marker : Option String
  sys_markerType : Int
  cargo : List Nat
  timer : List ℚ
  tfunc : List (Option String)
  osd : Nat
  L : Option LuaTable

/-- The all-zero instance that `memset(misn, 0, sizeof(Mission))` leaves,
with `k` timer slots. -/
def Mission.zero (k : Nat) : Mission where
  id := 0
  data := none
  accepted := false
  title := none
  desc := none
  reward := none
  portrait := none
  npc := none
  sys_marker := none
  sys_markerType := 0
  cargo := []
  timer := List.replicate k 0
  tfunc := List.replicate k none
  osd := 0
  L := none

/-- Calls into other subsystems, in the order they are made. -/
inductive Event where
  | hook_rmMisnParent (id : Nat)
  | pilot_rmMissionCargo (cargo_id : Nat)
  | gl_freeTexture (tex : Nat)
  | osd_destroy (osd : Nat)
  | lua_close
  | misn_run (id : Nat) (data : Option Nat) (func : String)
  | dialogue_alert (msg : String)
  | space_clearMarkers
  | space_clearComputerMarkers
  | space_addMarker (sys : String) (type : Int)
  | bar_genList
  | computer_genList
  | mission_menu_genList
  deriving DecidableEq, Repr

/-- Everything the mission code takes from outside `mission.c`.

* `MISSION_TIMER_MAX`: the constant of `mission.h`.
* `lua_tostring`, `atof`: number to text (Lua) and text to number (libc).
* `planet_name p` is `p->name` for the planet at address `p`,
  `planet_get` is the lookup by name of `space.c`; likewise for systems.
* `faction_name`, `faction_get`: `faction.c`.
* `ship_stack`: the names of the entries of `ship_stack` (`ship.c`).
* `player_missionAlreadyDone`: `player.c`.  `cond_check`: `cond.c`.
* `player`: whether the `player` pointer is non-null.
* `nlua_newState`: the global table of a fresh state with the libraries
  loaded, `none` on failure.  `ndata_read`: the script text of a path.
  `luaL_dobuffer`: status and the global table after running the script.
* `script`: running an entry point of an instance, the status and the
  instance as the script leaves it. -/
structure Host where
  MISSION_TIMER_MAX : Nat
  lua_tostring : ℚ → String
  atof : String → ℚ
  planet_name : Nat → String
  planet_get : String → Option Nat
  system_name : Nat → String
  system_get : String → Option Nat
  faction_name : Int → Option String
  faction_get : String → Int
  ship_stack : List String
  player_missionAlreadyDone : Int → Int
  cond_check : String → Int
  player : Bool
  nlua_newState : Option LuaTable
  ndata_read : Option String → Option String
  luaL_dobuffer : LuaTable → String → Int × LuaTable
  script : Mission → String → Int × Mission

/-! ## XML reader and writer (`nxml.h`) -/

/-- Output of a `printf` format that is given no arguments: `%%` writes `%`,
any other directive reads an argument that is not there (`none`). -/
def format_chars : List Char → Option (List Char)
  | [] => some []
  | '%' :: '%' :: rest => (format_chars rest).map (fun r => '%' :: r)
  | '%' :: _ => none
  | c :: rest => (format_chars rest).map (fun r => c :: r)

/-- Modelled from the spec: the text content the reader finds in an element
whose text was written as `s`, `xml_get` of `nxml.h`; an element written with
no text has no text node, for which `xml_get` gives `NULL`. -/
def xml_text (s : String) : Option String :=
  if s = "" then none else some s

/-- Modelled from the spec: the text of an element written by
`xmlw_elem(writer, name, str)` or `xmlw_str(writer, str)` of `nxml.h`, where
`str` stands in the place of the format (as the calls with `"%u"` and `"%f"`
show); `none` for a null `str` and for a format that reads an argument. -/
def xmlw_format (str : Option String) : Option (Option String) :=
  match str with
  | none => none
  | some s => (format_chars s.data).map (fun cs => xml_text (String.mk cs))

/-- Modelled from the spec: the value of an attribute written by
`xmlw_attr(writer, name, str)` of `nxml.h`, where `str` stands in the place of
the format (as the call with `"%u"` shows); `none` for a format that reads an
argument. -/
def xmlw_attr (str : String) : Option String :=
  (format_chars str.data).map String.mk

/-- Modelled from the spec: `xml_getLong` of `nxml.h`, `0` for an element
without text. -/
def xml_getLong (text : Option String) : Int :=
  match text with
  | none => 0
  | some s => atol s

/-- Modelled from the spec: `xml_getFloat` of `nxml.h`, `0` for an element
without text. -/
def xml_getFloat (H : Host) (text : Option String) : ℚ :=
  match text with
  | none => 0
  | some s => H.atof s

/-- Modelled from the spec: `xml_getInt` of `nxml.h`, `0` for an element
without text. -/
def xml_getInt (text : Option String) : Int :=
  match text with
  | none => 0
  | some s => atoi s

/-! ## State persistor (`mission.c`, persistence section) -/

/-- One `<data>` element of the persisted tree: the `type` and `name`
attributes, whether the `keynum` attribute is present, the text content and
the child `<data>` elements. -/
inductive DataNode where
  | mk (type : String) (name : String) (keynum : Bool) (content : String)
      (children : List DataNode)

/-- The `type` attribute. -/
def DataNode.type : DataNode → String
  | .mk t _ _ _ _ => t

/-- The `name` attribute. -/
def DataNode.name : DataNode → String
  | .mk _ n _ _ _ => n

/-- Presence of the `keynum` attribute. -/
def DataNode.keynum : DataNode → Bool
  | .mk _ _ k _ _ => k

/-- The text content. -/
def DataNode.content : DataNode → String
  | .mk _ _ _ c _ => c

/-- The child elements. -/
def DataNode.children : DataNode → List DataNode
  | .mk _ _ _ _ ch => ch

/-- Writes one leaf element, `mission_saveData`.  The key text `name` is
handed to `xmlw_attr` in the place of the format, so that the `name` attribute
holds what `printf` makes of it, and nothing is defined (`none`) when it reads
an argument; the type tags are literals without `%`, the value goes through
`"%s"`. -/
def mission_saveData (type name value : String) (keynum : Bool) : Option DataNode :=
  (xmlw_attr name).map (fun n => .mk type n keynum value [])

/-- Lookup of a ship by name, `ship_get` of `ship.c`: the address of the
first entry with that name, the address one past the end when there is
none. -/
def ship_get : List String → String → Nat
  | [], _ => 0
  | s :: rest, name => if strcmp s name = 0 then 0 else ship_get rest name + 1

/-- The key switch at the head of `mission_persistDataNode`: the text of the
key and whether it is a number key; `none` for a key of any other type. -/
def persist_key (H : Host) : LuaKey → Option (String × Bool)
  | .str s => some (s, false)
  | .num n => some (H.lua_tostring n, true)
  | .other _ => none

mutual
/-- Persists one key / value pair, `mission_persistDataNode`.  The result is
the list of elements written (none or one); `none` stands for a read
through a null or out-of-range pointer and for a key text that, taken as the
format of `xmlw_attr`, reads an argument. -/
def mission_persistDataNode (H : Host) (intable : Bool) (k : LuaKey) :
    LuaValue → Option (List DataNode)
  | .table t =>
      match persist_key H k with
      | none => some []
      | some (name, keynum) =>
          if !intable && !lua_toboolean (lua_getfield t "__save") then some []
          else
            match xmlw_attr name with
            | none => none
            | some n =>
                match persist_loop H true t with
                | none => none
                | some ch => some [DataNode.mk "table" n keynum "" ch]
  | .number n =>
      match persist_key H k with
      | none => some []
      | some (name, keynum) =>
          (mission_saveData "number" name (H.lua_tostring n) keynum).map (fun e => [e])
  | .boolean b =>
      match persist_key H k with
      | none => some []
      | some (name, keynum) =>
          (mission_saveData "bool" name (if b then "1" else "0") keynum).map (fun e => [e])
  | .string s =>
      match persist_key H k with
      | none => some []
      | some (name, keynum) => (mission_saveData "string" name s keynum).map (fun e => [e])
  | .planet p =>
      match persist_key H k with
      | none => some []
      | some (name, keynum) =>
          match p with
          | none => none
          | some a =>
              (mission_saveData "planet" name (H.planet_name a) keynum).map (fun e => [e])
  | .system s =>
      match persist_key H k with
      | none => some []
      | some (name, keynum) =>
          match s with
          | none => none
          | some a =>
              (mission_saveData "system" name (H.system_name a) keynum).map (fun e => [e])
  | .faction f =>
      match persist_key H k with
      | none => some []
      | some (name, keynum) =>
          match H.faction_name f with
          | none => some []
          | some str => (mission_saveData "faction" name str keynum).map (fun e => [e])
  | .ship sh =>
      match persist_key H k with
      | none => some []
      | some (name, keynum) =>
          match H.ship_stack[sh]? with
          | none => none
          | some str => (mission_saveData "ship" name str keynum).map (fun e => [e])
  | .nil => some []
  | .other _ => some []
/-- The `while (lua_next(...))` loop over the entries of a table, calling
`mission_persistDataNode` on each. -/
def persist_loop (H : Host) (intable : Bool) : LuaTable → Option (List DataNode)
  | [] => some []
  | (k, v) :: rest =>
      match mission_persistDataNode H intable k v with
      | none => none
      | some a =>
          match persist_loop H intable rest with
          | none => none
          | some b => some (a ++ b)
end

/-- Persists the globals of a Lua state, `mission_persistData`: the loop over
`LUA_GLOBALSINDEX` with `intable = 0`. -/
def mission_persistData (H : Host) (L : LuaTable) : Option (List DataNode) :=
  persist_loop H false L

mutual
/-- The value an element stands for, the type dispatch of
`mission_unpersistDataNode`; `none` for an unknown type.  The text is read
with `xml_getFloat`, `xml_getInt` and `xml_get`; for a `string` element
without text `xml_get` gives `NULL`, for which `lua_pushstring` pushes nil.
The text of a reference is handed to the lookup as it is; for a reference
element without text the lookup is called with `NULL`, which stands here as
the empty text. -/
def unpersist_value (H : Host) : DataNode → Option LuaValue
  | .mk type _ _ content children =>
      if type = "table" then
        some (.table (mission_unpersistDataNode H children []).1)
      else if type = "number" then some (.number (xml_getFloat H (xml_text content)))
      else if type = "bool" then some (.boolean (xml_getInt (xml_text content) != 0))
      else if type = "string" then
        some
          (match xml_text content with
            | none => .nil
            | some str => .string str)
      else if type = "planet" then some (.planet (H.planet_get content))
      else if type = "system" then some (.system (H.system_get content))
      else if type = "faction" then some (.faction (H.faction_get content))
      else if type = "ship" then some (.ship (ship_get H.ship_stack content))
      else none
/-- Restores the `<data>` children of an element into the table on top of the
stack, `mission_unpersistDataNode`: the table afterwards and the return
code. -/
def mission_unpersistDataNode (H : Host) : List DataNode → LuaTable → LuaTable × Int
  | [], t => (t, 0)
  | n :: rest, t =>
      match unpersist_value H n with
      | none => (t, -1)
      | some v =>
          mission_unpersistDataNode H rest
            (lua_settable t (if n.keynum then .num (H.atof n.name) else .str n.name) v)
end

/-- Restores the globals of a Lua state, `mission_unpersistData`. -/
def mission_unpersistData (H : Host) (nodes : List DataNode) (L : LuaTable) :
    LuaTable × Int :=
  mission_unpersistDataNode H nodes L

/-- A key the persistor writes and reads back unchanged: a string that
`xmlw_attr` writes as it is, or a number with such a text that converts back
to the number. -/
def persistable_key (H : Host) : LuaKey → Bool
  | .str s => decide (xmlw_attr s = some s)
  | .num n =>
      decide (xmlw_attr (H.lua_tostring n) = some (H.lua_tostring n)) &&
        decide (H.atof (H.lua_tostring n) = n)
  | .other _ => false

mutual
/-- A value the persistor writes and reads back unchanged: a number whose
text converts back to it, a boolean, a string that is not empty, a reference
that the lookup by name resolves to itself, or a table of such entries. -/
def persistable_value (H : Host) : LuaValue → Bool
  | .number n => decide (xml_getFloat H (xml_text (H.lua_tostring n)) = n)
  | .boolean _ => true
  | .string s => decide (s ≠ "")
  | .planet p =>
      match p with
      | none => false
      | some a => decide (H.planet_get (H.planet_name a) = some a)
  | .system s =>
      match s with
      | none => false
      | some a => decide (H.system_get (H.system_name a) = some a)
  | .faction f =>
      match H.faction_name f with
      | none => false
      | some str => decide (H.faction_get str = f)
  | .ship sh =>
      match H.ship_stack[sh]? with
      | none => false
      | some str => decide (ship_get H.ship_stack str = sh)
  | .table t => persistable_entries H t
  | .nil => false
  | .other _ => false
/-- Every entry has a persistable key and value, and no two entries have the
same key. -/
def persistable_entries (H : Host) : LuaTable → Bool
  | [] => true
  | (k, v) :: rest =>
      persistable_key H k && persistable_value H v
        && decide (k ∉ rest.map Prod.fst) && persistable_entries H rest
end

/-- The globals the round trip is stated for: persistable entries, and every
table bound at the top level carries a truthy `__save` field. -/
def persistable_globals (H : Host) (L : LuaTable) : Bool :=
  persistable_entries H L &&
    L.all (fun kv =>
      match kv.2 with
      | .table t => lua_toboolean (lua_getfield t "__save")
      | _ => true)

/-! ## Catalog lookup -/

/-- The loop of `mission_getID` from index `i` on. -/
def mission_getID_loop : List MissionData → String → Int → Int
  | [], _, _ => -1
  | d :: rest, name, i =>
      if strcmp name d.name = 0 then i else mission_getID_loop rest name (i + 1)

/-- Index of the first template with the given name, `-1` when there is none,
`mission_getID`. -/
def mission_getID (mission_stack : List MissionData) (name : String) : Int :=
  mission_getID_loop mission_stack name 0

/-- The template at an index, `mission_get`; the pointer it returns is the
index itself. -/
def mission_get (mission_stack : List MissionData) (id : Int) : Option MissionData :=
  if id < 0 ∨ id ≥ (mission_stack.length : Int) then none
  else mission_stack[id.toNat]?

/-! ## Matching -/

/-- Whether a slot of the active table points to the template,
`mission_alreadyRunning`. -/
def mission_alreadyRunning : List Mission → Nat → Int
  | [], _ => 0
  | m :: rest, misn => if m.data = some misn then 1 else mission_alreadyRunning rest misn

/-- The loop of `mission_matchFaction` over the faction array. -/
def mission_matchFaction_loop : List Int → Int → Int
  | [], _ => 0
  | f :: rest, faction => if faction = f then 1 else mission_matchFaction_loop rest faction

/-- Faction requirement, `mission_matchFaction`. -/
def mission_matchFaction (misn : MissionData) (faction : Int) : Int :=
  if (misn.avail.factions.length : Int) ≤ 0 then 1
  else mission_matchFaction_loop misn.avail.factions faction

/-- Whether template number `mission` meets its requirements,
`mission_meetReq`. -/
def mission_meetReq (H : Host) (mission_stack : List MissionData)
    (player_missions : List Mission) (mission : Int) (faction : Int)
    (planet sysname : String) : Int :=
  match mission_get mission_stack mission with
  | none => 0
  | some misn =>
      if (match misn.avail.planet with
          | some p => strcmp p planet != 0
          | none => false) then 0
      else if (match misn.avail.system with
          | some s => strcmp s sysname != 0
          | none => false) then 0
      else if mission_matchFaction misn faction = 0 then 0
      else if misn.unique &&
          (H.player_missionAlreadyDone mission != 0 ||
            mission_alreadyRunning player_missions mission.toNat != 0) then 0
      else if (match misn.avail.cond with
          | some c => H.cond_check c == 0
          | none => false) then 0
      else if (match misn.avail.done with
          | some d => H.player_missionAlreadyDone (mission_getID mission_stack d) == 0
          | none => false) then 0
      else 1

/-! ## Instances: ids, cargo, cleanup, initialisation -/

/-- The recursion of `mission_genID` over the ids of the active table:
advance the counter, retry on a collision.  Returns the id and the counter;
`none` when the fuel runs out. -/
def mission_genID_loop (ids : List Nat) : Nat → Nat → Option (Nat × Nat)
  | 0, _ => none
  | fuel + 1, mission_id =>
      if (mission_id + 1) % 2 ^ 32 ∈ ids then
        mission_genID_loop ids fuel ((mission_id + 1) % 2 ^ 32)
      else some ((mission_id + 1) % 2 ^ 32, (mission_id + 1) % 2 ^ 32)

/-- A new id, `mission_genID`, with one retry more than there are slots. -/
def mission_genID (player_missions : List Mission) (mission_id : Nat) :
    Option (Nat × Nat) :=
  mission_genID_loop (player_missions.map (fun m => m.id)) (player_missions.length + 1)
    mission_id

/-- Links a cargo id to the instance, `mission_linkCargo`. -/
def mission_linkCargo (misn : Mission) (cargo_id : Nat) : Mission × Int :=
  ({ misn with cargo := misn.cargo ++ [cargo_id] }, 0)

/-- Unlinks the first occurrence of a cargo id, `mission_unlinkCargo`;
returns `1` when the id is not linked. -/
def mission_unlinkCargo (misn : Mission) (cargo_id : Nat) : Mission × Int :=
  if cargo_id ∈ misn.cargo then ({ misn with cargo := misn.cargo.erase cargo_id }, 0)
  else (misn, 1)

/-- The cargo loop of `mission_cleanup` from index `i` on: remove
`cargo[i]` from the player when there is one, unlink it, go to `i + 1`. -/
def mission_cleanup_cargo (H : Host) : Nat → Nat → Mission → List Event
  | 0, _, _ => []
  | fuel + 1, i, misn =>
      match misn.cargo[i]? with
      | none => []
      | some c =>
          (if H.player then [Event.pilot_rmMissionCargo c] else []) ++
            mission_cleanup_cargo H fuel (i + 1) (mission_unlinkCargo misn c).1

/-- Cleans up an instance, `mission_cleanup`: the zeroed instance and the
calls made on the way. -/
def mission_cleanup (H : Host) (misn : Mission) : Mission × List Event :=
  (Mission.zero H.MISSION_TIMER_MAX,
    (if misn.id ≠ 0 then [Event.hook_rmMisnParent misn.id] else []) ++
    (match misn.portrait with
      | some tex => [Event.gl_freeTexture tex]
      | none => []) ++
    mission_cleanup_cargo H misn.cargo.length 0 misn ++
    (if misn.osd > 0 then [Event.osd_destroy misn.osd] else []) ++
    (match misn.L with
      | some _ => [Event.lua_close]
      | none => []))

/-- Runs an entry point of the instance's script, `misn_run` of
`nlua_misn.c`.  The script sets fields of the instance through the `misn`
library; the id and the template pointer are not among them.  What the
script does to other subsystems through that library (taking a slot of the
active table, registering hooks) is not part of this embedding. -/
def misn_run (H : Host) (misn : Mission) (func : String) :
    Int × Mission × List Event :=
  ((H.script misn func).1,
    { (H.script misn func).2 with id := misn.id, data := misn.data },
    [Event.misn_run misn.id misn.data func])

/-- Small wrapper, `mission_accept`. -/
def mission_accept (H : Host) (mission : Mission) : Int × Mission × List Event :=
  misn_run H mission "accept"

/-- An `unsigned int` returned through `int`. -/
def int_of_uint (n : Nat) : Int :=
  if n < 2 ^ 31 then (n : Int) else (n : Int) - 2 ^ 32

/-- The part of `mission_init` after the id is set: create the Lua state,
load the script, run `create` when asked to.  Returns the return code, the
instance and the calls made. -/
def mission_init_script (H : Host) (mission : Mission) (misn : MissionData)
    (create : Bool) : Int × Mission × List Event :=
  match H.nlua_newState with
  | none => (-1, mission, [])
  | some L =>
      match H.ndata_read misn.lua with
      | none => (-1, { mission with L := some L }, [])
      | some buf =>
          if (H.luaL_dobuffer L buf).1 ≠ 0 then
            (-1, { mission with L := some (H.luaL_dobuffer L buf).2 }, [])
          else if create then
            if (misn_run H { mission with L := some (H.luaL_dobuffer L buf).2 } "create").1
                ≠ 0 then
              (-1,
                (mission_cleanup H
                  (misn_run H { mission with L := some (H.luaL_dobuffer L buf).2 }
                    "create").2.1).1,
                (misn_run H { mission with L := some (H.luaL_dobuffer L buf).2 }
                    "create").2.2 ++
                  (mission_cleanup H
                    (misn_run H { mission with L := some (H.luaL_dobuffer L buf).2 }
                      "create").2.1).2)
            else
              (int_of_uint mission.id,
                (misn_run H { mission with L := some (H.luaL_dobuffer L buf).2 }
                  "create").2.1,
                (misn_run H { mission with L := some (H.luaL_dobuffer L buf).2 }
                  "create").2.2)
          else
            (int_of_uint mission.id,
              { mission with L := some (H.luaL_dobuffer L buf).2 }, [])

/-- The instance after the head of `mission_init`: cleared, with the id and
the template pointer set and the timers initialised. -/
def mission_init_head (H : Host) (id data : Nat) : Mission :=
  { Mission.zero H.MISSION_TIMER_MAX with id := id, data := some data }

/-- Initialises an instance of template `misn` (at index `data`),
`mission_init`: clear the instance, set the id (a new one when `genid`) and
the template pointer, then the script part.  Returns the return code, the
instance, the id counter and the calls made; `none` only when `mission_genID`
does not return. -/
def mission_init (H : Host) (player_missions : List Mission) (mission_id : Nat)
    (data : Nat) (misn : MissionData) (genid create : Bool) :
    Option (Int × Mission × Nat × List Event) :=
  match (if genid then mission_genID player_missions mission_id
         else some (0, mission_id)) with
  | none => none
  | some (id, mission_id1) =>
      some
        ((mission_init_script H (mission_init_head H id data) misn create).1,
          (mission_init_script H (mission_init_head H id data) misn create).2.1,
          mission_id1,
          (mission_init_script H (mission_init_head H id data) misn create).2.2)

/-- Starts a mission by name, `mission_start`: the return code, the id
counter and the calls made. -/
def mission_start (H : Host) (mission_stack : List MissionData)
    (player_missions : List Mission) (mission_id : Nat) (name : String) :
    Option (Int × Nat × List Event) :=
  match mission_get mission_stack (mission_getID mission_stack name) with
  | none => some (-1, mission_id, [])
  | some mdat =>
      match mission_init H player_missions mission_id
          (mission_getID mission_stack name).toNat mdat true true with
      | none => none
      | some (_, mission, mission_id1, ev) =>
          some (0, mission_id1, ev ++ (mission_cleanup H mission).2)

/-- The loop of `mission_sysMark` over the active table. -/
def mission_sysMark_loop : List Mission → List Event
  | [] => []
  | m :: rest =>
      (match m.sys_marker with
        | some sys => if m.id ≠ 0 then [Event.space_addMarker sys m.sys_markerType] else []
        | none => []) ++ mission_sysMark_loop rest

/-- Marks the systems of the active instances, `mission_sysMark`. -/
def mission_sysMark (player_missions : List Mission) : List Event :=
  [Event.space_clearMarkers, Event.space_clearComputerMarkers] ++
    mission_sysMark_loop player_missions

/-! ## Generation -/

/-- Priority of the template an instance points to,
`m->data->avail.priority`; `0` where the pointer does not lead to a
template. -/
def mission_priority (mission_stack : List MissionData) (m : Mission) : Int :=
  match m.data with
  | none => 0
  | some i =>
      match mission_stack[i]? with
      | none => 0
      | some d => d.avail.priority

/-- Comparison function handed to `qsort`, `mission_compare`. -/
def mission_compare (mission_stack : List MissionData) (m1 m2 : Mission) : Int :=
  if mission_priority mission_stack m1 < mission_priority mission_stack m2 then 1
  else if mission_priority mission_stack m1 > mission_priority mission_stack m2 then -1
  else
    match m1.npc, m2.npc with
    | some n1, some n2 => strcmp n1 n2
    | _, _ =>
        match m1.title, m2.title with
        | some t1, some t2 => strcmp t1 t2
        | _, _ => 0

/-- The libc `qsort` with `mission_compare`, as an insertion sort: `a` may
stand before `b` when the comparison is not positive. -/
def qsort (mission_stack : List MissionData) (tmp : List Mission) : List Mission :=
  tmp.insertionSort (fun a b => mission_compare mission_stack a b ≤ 0)

/-- The chance of one trial: `(double)(chance % 100)/100.`, with `0`
replaced by `1`. -/
def mission_chance (chance : Int) : ℚ :=
  if mkRat (Int.tmod chance 100) 100 = 0 then 1 else mkRat (Int.tmod chance 100) 100

/-- The number of trials, `MAX(1, chance / 100)`. -/
def mission_rep (chance : Int) : Nat :=
  (max 1 (Int.tdiv chance 100)).toNat

/-- The state the loops of `missions_genList` work on: the id counter, the
number of `RNGF()` draws taken so far, the `m` candidates of `tmp`, and the
calls made. -/
structure GenState where
  mission_id : Nat
  nrng : Nat
  tmp : List Mission
  events : List Event

/-- One pass of the inner loop of `missions_genList`: draw, and on a hit
initialise a candidate, which is kept unless `mission_init` returns a
negative code. -/
def genList_trial (H : Host) (RNGF : Nat → ℚ) (player_missions : List Mission)
    (i : Nat) (misn : MissionData) (chance : ℚ) (st : GenState) : Option GenState :=
  if RNGF st.nrng < chance then
    match mission_init H player_missions st.mission_id i misn true true with
    | none => none
    | some (ret, m, mission_id1, ev) =>
        some { mission_id := mission_id1, nrng := st.nrng + 1,
               tmp := if ret < 0 then st.tmp else st.tmp ++ [m],
               events := st.events ++ ev }
  else some { st with nrng := st.nrng + 1 }

/-- The inner loop `for (j=0; j<rep; j++)`. -/
def genList_trials (H : Host) (RNGF : Nat → ℚ) (player_missions : List Mission)
    (i : Nat) (misn : MissionData) (chance : ℚ) : Nat → GenState → Option GenState
  | 0, st => some st
  | rep + 1, st =>
      match genList_trial H RNGF player_missions i misn chance st with
      | none => none
      | some st1 => genList_trials H RNGF player_missions i misn chance rep st1

/-- The body of the outer loop of `missions_genList` for template `i`. -/
def genList_template (H : Host) (RNGF : Nat → ℚ) (mission_stack : List MissionData)
    (player_missions : List Mission) (faction : Int) (planet sysname : String)
    (loc : Int) (i : Nat) (misn : MissionData) (st : GenState) : Option GenState :=
  if misn.avail.loc = loc then
    if mission_meetReq H mission_stack player_missions i faction planet sysname = 0 then
      some st
    else
      genList_trials H RNGF player_missions i misn (mission_chance misn.avail.chance)
        (mission_rep misn.avail.chance) st
  else some st

/-- The outer loop of `missions_genList` over the templates from index `i`
on. -/
def genList_loop (H : Host) (RNGF : Nat → ℚ) (mission_stack : List MissionData)
    (player_missions : List Mission) (faction : Int) (planet sysname : String)
    (loc : Int) : List MissionData → Nat → GenState → Option GenState
  | [], _, st => some st
  | misn :: rest, i, st =>
      match genList_template H RNGF mission_stack player_missions faction planet sysname
          loc i misn st with
      | none => none
      | some st1 =>
          genList_loop H RNGF mission_stack player_missions faction planet sysname loc
            rest (i + 1) st1

/-- Generates the mission list of a place, `missions_genList`: the final
state, whose `tmp` is the sorted list returned and whose length is `*n`.
`RNGF k` is the outcome of the `k`-th draw. -/
def missions_genList (H : Host) (RNGF : Nat → ℚ) (mission_stack : List MissionData)
    (player_missions : List Mission) (mission_id : Nat) (faction : Int)
    (planet sysname : String) (loc : Int) : Option GenState :=
  match genList_loop H RNGF mission_stack player_missions faction planet sysname loc
      mission_stack 0 { mission_id := mission_id, nrng := 0, tmp := [], events := [] } with
  | none => none
  | some st => some { st with tmp := qsort mission_stack st.tmp }

/-- An upper bound on the number of trials of one `missions_genList` call:
the sum of `rep` over the templates of the location. -/
def genList_maxTrials (loc : Int) : List MissionData → Nat
  | [] => 0
  | misn :: rest =>
      (if misn.avail.loc = loc then mission_rep misn.avail.chance else 0) +
        genList_maxTrials loc rest

/-! ## Accepting missions (`land.c`) -/

/-- The mission state `land.c` works on: the active table and the two
candidate lists with their counts `mission_nbar`, `mission_ncomputer`. -/
structure Land where
  player_missions : List Mission
  mission_bar : List Mission
  mission_computer : List Mission

/-- The loop `for (i=0; i<MISSION_MAX; i++) if (player_missions[i].data ==
NULL) break;`: the value of `i` after it. -/
def land_freeSlot : List Mission → Nat
  | [] => 0
  | m :: rest => if m.data = none then 0 else land_freeSlot rest + 1

/-- Approaches the selected entry of the bar, `spaceport_bar_approach`;
`pos` is what `toolkit_getImageArrayPos` returns.  `none` stands for an
access outside `mission_bar`. -/
def spaceport_bar_approach (H : Host) (g : Land) (pos : Int) :
    Option (Land × List Event) :=
  if pos = 0 then some (g, [])
  else if land_freeSlot g.player_missions ≥ g.player_missions.length then
    some (g, [Event.dialogue_alert "You have too many active missions."])
  else if pos - 1 < 0 then none
  else
    match g.mission_bar[(pos - 1).toNat]? with
    | none => none
    | some misn =>
        if (mission_accept H misn).1 = 0 ∨ (mission_accept H misn).1 = 2 ∨
            (mission_accept H misn).1 = -1 then
          some ({ g with mission_bar :=
                    ((g.mission_bar.set (pos - 1).toNat
                      (if (mission_accept H misn).1 = -1 then
                        (mission_cleanup H (mission_accept H misn).2.1).1
                       else (mission_accept H misn).2.1)).eraseIdx (pos - 1).toNat) },
            (mission_accept H misn).2.2 ++
              (if (mission_accept H misn).1 = -1 then
                (mission_cleanup H (mission_accept H misn).2.1).2 else []) ++
              [Event.bar_genList] ++ mission_sysMark g.player_missions)
        else
          some ({ g with mission_bar :=
                    g.mission_bar.set (pos - 1).toNat (mission_accept H misn).2.1 },
            (mission_accept H misn).2.2 ++ mission_sysMark g.player_missions)

/-- Accepts the selected entry of the mission computer, `misn_accept`;
`misn_name` is what `toolkit_getList` returns, `yes` the answer to
`dialogue_YesNo`, `pos` what `toolkit_getListPos` returns.  `none` stands
for an access outside `mission_computer` or `mission_bar`. -/
def misn_accept (H : Host) (g : Land) (misn_name : String) (yes : Bool) (pos : Int) :
    Option (Land × List Event) :=
  if strcmp misn_name "No Missions" = 0 then some (g, [])
  else if land_freeSlot g.player_missions ≥ g.player_missions.length then
    some (g, [Event.dialogue_alert "You have too many active missions."])
  else if yes then
    if pos < 0 then none
    else
      match g.mission_computer[pos.toNat]? with
      | none => none
      | some misn =>
          if (mission_accept H misn).1 = 0 ∨ (mission_accept H misn).1 = 2 ∨
              (mission_accept H misn).1 = -1 then
            if (mission_accept H misn).1 = -1 then
              match g.mission_bar[pos.toNat]? with
              | none => none
              | some b =>
                  some ({ g with
                      mission_bar := g.mission_bar.set pos.toNat (mission_cleanup H b).1,
                      mission_computer :=
                        (g.mission_computer.set pos.toNat
                          (mission_accept H misn).2.1).eraseIdx pos.toNat },
                    (mission_accept H misn).2.2 ++ (mission_cleanup H b).2 ++
                      [Event.computer_genList] ++ mission_sysMark g.player_missions)
            else
              some ({ g with
                  mission_computer :=
                    (g.mission_computer.set pos.toNat
                      (mission_accept H misn).2.1).eraseIdx pos.toNat },
                (mission_accept H misn).2.2 ++ [Event.computer_genList] ++
                  mission_sysMark g.player_missions)
          else
            some ({ g with
                mission_computer :=
                  g.mission_computer.set pos.toNat (mission_accept H misn).2.1 },
              (mission_accept H misn).2.2 ++ mission_sysMark g.player_missions)
  else some (g, [])

/-! ## Sample data -/

/-- Number text of the sample host: decimal digits for integers. -/
def sample_tostring (q : ℚ) : String :=
  if q.den = 1 then
    (if q.num < 0 then "-" ++ Nat.repr q.num.natAbs else Nat.repr q.num.natAbs)
  else "nan"

/-- Text to number of the sample host: the integer the text starts with. -/
def sample_atof (s : String) : ℚ := ((atoi s : Int) : ℚ)

/-- A host with two planets, two systems, two factions and two ships, no
finished missions, and scripts that load and run without changing the
instance. -/
def sampleHost : Host where
  MISSION_TIMER_MAX := 4
  lua_tostring := sample_tostring
  atof := sample_atof
  planet_name := fun p => if p = 0 then "PlanetX" else "PlanetY"
  planet_get := fun s =>
    if s = "PlanetX" then some 0 else if s = "PlanetY" then some 1 else none
  system_name := fun p => if p = 0 then "SysY" else "SysZ"
  system_get := fun s =>
    if s = "SysY" then some 0 else if s = "SysZ" then some 1 else none
  faction_name := fun f => if f = 0 then some "F" else if f = 1 then some "G" else none
  faction_get := fun s => if s = "F" then 0 else if s = "G" then 1 else -1
  ship_stack := ["Llama", "Hyena"]
  player_missionAlreadyDone := fun _ => 0
  cond_check := fun _ => 1
  player := true
  nlua_newState := some []
  ndata_read := fun _ => some ""
  luaL_dobuffer := fun L _ => (0, L)
  script := fun m _ => (0, m)

/-- Globals with a marked table holding the number key `3` next to the string
key `"3"`, a nested table, and one reference of each of the four kinds. -/
def sampleGlobals : LuaTable :=
  [ (.str "mem", .table
      [ (.str "__save", .boolean true),
        (.num 3, .string "three"),
        (.str "3", .number (-7)),
        (.str "flag", .boolean false),
        (.str "nested", .table [(.num 1, .planet (some 1)), (.num 2, .ship 1)]) ]),
    (.str "count", .number 42),
    (.str "dest", .planet (some 0)),
    (.str "sys", .system (some 1)),
    (.str "fac", .faction 1),
    (.str "shp", .ship 0),
    (.num 10, .string "ten") ]

/-- The table bound to `mem` in `sampleGlobals`. -/
def sampleMem : LuaTable :=
  [ (.str "__save", .boolean true),
    (.num 3, .string "three"),
    (.str "3", .number (-7)),
    (.str "flag", .boolean false),
    (.str "nested", .table [(.num 1, .planet (some 1)), (.num 2, .ship 1)]) ]

/-- The template of scenario A: at the bar (location `2`), chance `100`,
faction `0` only, unique. -/
def scenarioT : MissionData where
  name := "T"
  unique := true
  avail :=
    { loc := 2, chance := 100, planet := none, system := none, factions := [0],
      cond := none, done := none, priority := 5 }
  lua := some "dat/missions/T.lua"

/-- An active table of two slots, the first holding the accepted instance of
template `0` with id `1`, the second empty. -/
def scenarioActive : List Mission :=
  [ { Mission.zero 4 with id := 1, data := some 0, accepted := true, L := some [] },
    Mission.zero 4 ]

/-- A draw that is always `3/5`. -/
def sampleRNGF : Nat → ℚ := fun _ => mkRat 3 5

/-- An active table of two empty slots. -/
def emptyActive : List Mission := [Mission.zero 4, Mission.zero 4]

/-- A template like `scenarioT` but not unique and with chance `250`. -/
def sampleT250 : MissionData :=
  { scenarioT with
      name := "R", unique := false, avail := { scenarioT.avail with chance := 250 } }

/-- The generator state at the start of a call with the id counter at `0`. -/
def sampleStart : GenState := { mission_id := 0, nrng := 0, tmp := [], events := [] }

/-- A catalog of two templates, the first of priority `1`, the second of
priority `5`. -/
def samplePriorities : List MissionData :=
  [ { scenarioT with name := "P1", avail := { scenarioT.avail with priority := 1 } },
    { scenarioT with name := "P5", avail := { scenarioT.avail with priority := 5 } } ]

/-- A candidate of the priority `1` template of `samplePriorities`. -/
def sampleFirst : Mission := { Mission.zero 4 with id := 1, data := some 0 }

/-- A candidate of the priority `5` template of `samplePriorities`. -/
def sampleSecond : Mission := { Mission.zero 4 with id := 2, data := some 1 }

/-- A full active table of two slots. -/
def fullActive : List Mission :=
  [ { Mission.zero 4 with id := 1, data := some 0, accepted := true },
    { Mission.zero 4 with id := 2, data := some 0, accepted := true } ]

/-- The `land.c` state with `fullActive` and one candidate in each list. -/
def fullLand : Land where
  player_missions := fullActive
  mission_bar := [sampleFirst]
  mission_computer := [sampleSecond]

/-- An instance with id `7`, a Lua state and the three cargo ids `10`, `11`,
`12` linked. -/
def sampleCargoMission : Mission :=
  { Mission.zero 4 with id := 7, data := some 0, accepted := true, cargo := [10, 11, 12], L := some [] }

/-- An instance with the cargo id `5` linked twice. -/
def sampleTwiceLinked : Mission :=
  { Mission.zero 4 with id := 8, data := some 0, accepted := true, cargo := [5, 5] }

/-- The type tags `mission_unpersistDataNode` recognises. -/
def data_types : List String :=
  ["table", "number", "bool", "string", "planet", "system", "faction", "ship"]

/-- Persisted references to a planet, a system, a faction and a ship of which
`sampleHost` knows none, followed by a number. -/
def sampleDangling : List DataNode :=
  [ .mk "planet" "dest" false "Nowhere" [],
    .mk "system" "sys" false "Void" [],
    .mk "faction" "fac" false "Nobody" [],
    .mk "ship" "shp" false "Ghost" [],
    .mk "number" "count" false "42" [] ]

/-- Three sibling elements, the second of an unknown type. -/
def sampleUnknown : List DataNode :=
  [ .mk "number" "a" false "1" [],
    .mk "colour" "b" false "red" [],
    .mk "number" "c" false "3" [] ]

/-! ## Aborting missions (`info.c`) -/

/-- Aborts the mission selected in the mission menu, `mission_menu_abort`:
the active table afterwards and the calls made.  `yes` is the answer to
`dialogue_YesNo`, `pos` what `toolkit_getListPos` returns.  `misn_tryRun` of
`nlua_misn.c` is a parameter: it is handed the address of slot `pos` of the
active table, which it can change as a whole, and gives for the table, the
slot and the entry point the return code and the table afterwards; the call
is logged with the id and the template of the instance.  `none` stands for an
access outside `player_missions`. -/
def mission_menu_abort (H : Host)
    (misn_tryRun : List Mission → Nat → String → Int × List Mission)
    (player_missions : List Mission) (yes : Bool) (pos : Int) :
    Option (List Mission × List Event) :=
  if yes then
    if pos < 0 then none
    else
      match player_missions[pos.toNat]? with
      | none => none
      | some misn =>
          if (misn_tryRun player_missions pos.toNat "abort").1 ≠ 2 then
            match (misn_tryRun player_missions pos.toNat "abort").2[pos.toNat]? with
            | none => none
            | some m1 =>
                some
                  ((misn_tryRun player_missions pos.toNat "abort").2.eraseIdx pos.toNat ++
                      [Mission.zero H.MISSION_TIMER_MAX],
                    [Event.misn_run misn.id misn.data "abort"] ++ (mission_cleanup H m1).2 ++
                      mission_sysMark
                        ((misn_tryRun player_missions pos.toNat "abort").2.eraseIdx
                            pos.toNat ++ [Mission.zero H.MISSION_TIMER_MAX]) ++
                      [Event.mission_menu_genList])
          else
            some ((misn_tryRun player_missions pos.toNat "abort").2,
              [Event.misn_run misn.id misn.data "abort"] ++
                mission_sysMark (misn_tryRun player_missions pos.toNat "abort").2 ++
                [Event.mission_menu_genList])
  else some (player_missions, [])

/-- An entry-point runner that returns `code` and leaves the active table as
it is. -/
def tryRun_keep (code : Int) : List Mission → Nat → String → Int × List Mission :=
  fun player_missions _ _ => (code, player_missions)

/-- An entry-point runner that returns `2` in the meaning the comment of
`mission_accept` in `mission.c` gives that code, "mission got deleted": the
slot it was called for is removed from the active table, the later slots
moved up and the last slot zeroed. -/
def tryRun_deleted : List Mission → Nat → String → Int × List Mission :=
  fun player_missions pos _ => (2, player_missions.eraseIdx pos ++ [Mission.zero 4])

/-! ## Catalog loading -/

/-- Modelled from the spec: the enum of `mission.h`, which is not among the
sources, numbered in the order in which the spec lists the locations (None,
Computer, Bar, Outfit, Shipyard, Land, Commodity). -/
def MIS_AVAIL_NONE : Int := 0

/-- Modelled from the spec: see `MIS_AVAIL_NONE`. -/
def MIS_AVAIL_COMPUTER : Int := 1

/-- Modelled from the spec: see `MIS_AVAIL_NONE`. -/
def MIS_AVAIL_BAR : Int := 2

/-- Modelled from the spec: see `MIS_AVAIL_NONE`. -/
def MIS_AVAIL_OUTFIT : Int := 3

/-- Modelled from the spec: see `MIS_AVAIL_NONE`. -/
def MIS_AVAIL_SHIPYARD : Int := 4

/-- Modelled from the spec: see `MIS_AVAIL_NONE`. -/
def MIS_AVAIL_LAND : Int := 5

/-- Modelled from the spec: see `MIS_AVAIL_NONE`. -/
def MIS_AVAIL_COMMODITY : Int := 6

/-- Location of a human readable name, `mission_location`; `-1` for an
unknown name. -/
def mission_location (loc : String) : Int :=
  if strcmp loc "None" = 0 then MIS_AVAIL_NONE
  else if strcmp loc "Computer" = 0 then MIS_AVAIL_COMPUTER
  else if strcmp loc "Bar" = 0 then MIS_AVAIL_BAR
  else if strcmp loc "Outfit" = 0 then MIS_AVAIL_OUTFIT
  else if strcmp loc "Shipyard" = 0 then MIS_AVAIL_SHIPYARD
  else if strcmp loc "Land" = 0 then MIS_AVAIL_LAND
  else if strcmp loc "Commodity" = 0 then MIS_AVAIL_COMMODITY
  else -1

/-- A child of an `<avail>` element of the mission data file, with its text. -/
inductive AvailNode where
  | location (text : String)
  | chance (text : String)
  | planet (text : String)
  | system (text : String)
  | faction (text : String)
  | cond (text : String)
  | done (text : String)
  | priority (text : String)
  | other (name : String)
  deriving DecidableEq, Repr

/-- A child of a `<flags>` element. -/
inductive FlagNode where
  | unique
  | other (name : String)
  deriving DecidableEq, Repr

/-- A child of a `<mission>` element of the mission data file. -/
inductive MissionNode where
  | lua (text : String)
  | flags (children : List FlagNode)
  | avail (children : List AvailNode)
  | other (name : String)
  deriving DecidableEq, Repr

/-- A `<mission>` element of the mission data file: its `name` attribute and
its children. -/
structure MissionEntry where
  name : String
  children : List MissionNode
  deriving DecidableEq, Repr

/-- A child of the root element of the mission data file. -/
inductive CatalogNode where
  | mission (entry : MissionEntry)
  | other (name : String)
  deriving DecidableEq, Repr

/-- The loop of `mission_parse` over the children of an `<avail>` element. -/
def mission_parse_avail (H : Host) : List AvailNode → MissionAvail → MissionAvail
  | [], avail => avail
  | .location text :: rest, avail =>
      mission_parse_avail H rest { avail with loc := mission_location text }
  | .chance text :: rest, avail =>
      mission_parse_avail H rest { avail with chance := atoi text }
  | .planet text :: rest, avail =>
      mission_parse_avail H rest { avail with planet := some text }
  | .system text :: rest, avail =>
      mission_parse_avail H rest { avail with system := some text }
  | .faction text :: rest, avail =>
      mission_parse_avail H rest
        { avail with factions := avail.factions ++ [H.faction_get text] }
  | .cond text :: rest, avail =>
      mission_parse_avail H rest { avail with cond := some text }
  | .done text :: rest, avail =>
      mission_parse_avail H rest { avail with done := some text }
  | .priority text :: rest, avail =>
      mission_parse_avail H rest { avail with priority := atoi text }
  | .other _ :: rest, avail => mission_parse_avail H rest avail

/-- The loop of `mission_parse` over the children of a `<flags>` element. -/
def mission_parse_flags : List FlagNode → MissionData → MissionData
  | [], temp => temp
  | .unique :: rest, temp => mission_parse_flags rest { temp with unique := true }
  | .other _ :: rest, temp => mission_parse_flags rest temp

/-- The loop of `mission_parse` over the children of a `<mission>` element. -/
def mission_parse_nodes (H : Host) : List MissionNode → MissionData → MissionData
  | [], temp => temp
  | .lua text :: rest, temp =>
      mission_parse_nodes H rest
        { temp with lua := some ("dat/missions/" ++ text ++ ".lua") }
  | .flags children :: rest, temp =>
      mission_parse_nodes H rest (mission_parse_flags children temp)
  | .avail children :: rest, temp =>
      mission_parse_nodes H rest
        { temp with avail := mission_parse_avail H children temp.avail }
  | .other _ :: rest, temp => mission_parse_nodes H rest temp

/-- The elements the `MELEMENT` checks at the end of `mission_parse` warn
about. -/
def mission_parse_missing (temp : MissionData) : List String :=
  (if temp.lua = none then ["lua"] else []) ++
  (if temp.avail.loc = -1 then ["location"] else []) ++
  (if temp.avail.chance = 0 then ["chance"] else [])

/-- Parses a `<mission>` element, `mission_parse`: the template, the elements
warned about, and the return code. -/
def mission_parse (H : Host) (parent : MissionEntry) : MissionData × List String × Int :=
  (mission_parse_nodes H parent.children
      { name := parent.name, unique := false,
        avail := { loc := 0, chance := 0, planet := none, system := none, factions := [],
                   cond := none, done := none, priority := 5 },
        lua := none },
    mission_parse_missing
      (mission_parse_nodes H parent.children
        { name := parent.name, unique := false,
          avail := { loc := 0, chance := 0, planet := none, system := none, factions := [],
                     cond := none, done := none, priority := 5 },
          lua := none }),
    0)

/-- The loop of `missions_load` over the children of the root element: every
`<mission>` element grows `mission_stack` by one and is parsed into the new
entry. -/
def missions_load_loop (H : Host) : List CatalogNode → List MissionData → List MissionData
  | [], mission_stack => mission_stack
  | .mission entry :: rest, mission_stack =>
      missions_load_loop H rest (mission_stack ++ [(mission_parse H entry).1])
  | .other _ :: rest, mission_stack => missions_load_loop H rest mission_stack

/-- Loads the mission data, `missions_load`, into an empty `mission_stack`:
the return code and the stack.  `root` is the name of the root element,
`nodes` are its children. -/
def missions_load (H : Host) (root : String) (nodes : List CatalogNode) :
    Int × List MissionData :=
  if strcmp root "Missions" ≠ 0 then (-1, [])
  else
    match nodes with
    | [] => (-1, [])
    | n :: rest => (0, missions_load_loop H (n :: rest) [])

/-- The `<mission>` elements among the children of the root, in file order. -/
def catalog_entries : List CatalogNode → List MissionEntry
  | [] => []
  | .mission entry :: rest => entry :: catalog_entries rest
  | .other _ :: rest => catalog_entries rest

/-- A data file with three missions: `A` has no script, `B` has an unknown
location and a chance of `0`, `C` has all three. -/
def sampleCatalog : List CatalogNode :=
  [ .mission { name := "A", children := [.avail [.location "Bar", .chance "50"]] },
    .other "comment",
    .mission { name := "B", children := [.lua "b", .avail [.location "Moon", .chance "0"]] },
    .mission { name := "C", children := [.lua "c", .flags [.unique], .avail [.location "Bar", .chance "100", .faction "F"]] } ]

/-! ## Saving and loading the active table -/

/-- Text that `printf` writes for `%u` and an `unsigned int`. -/
def printf_u (n : Nat) : String := Nat.repr (n % 2 ^ 32)

/-- Text that `printf` writes for `%d`. -/
def printf_d (n : Int) : String :=
  if n < 0 then "-" ++ Nat.repr n.natAbs else Nat.repr n.toNat

/-- A `long` stored into an `unsigned int`. -/
def uint_of_long (n : Int) : Nat := (n % 2 ^ 32).toNat

/-- A `timer` element of a saved mission: the `id` and `func` attributes
(`none` when the attribute is absent) and the text. -/
structure TimerNode where
  id : Option String
  func : Option String
  text : Option String

/-- A child element of a saved `mission` element, as `missions_parseActive`
tells them apart.  Attributes are `none` when absent, texts are `none` for an
element without text.  `cargos`, `timers` and `osd` carry their `cargo`,
`timer` and `msg` children in order; their other children pass every
`xml_isNode` test unnoticed. -/
inductive MissionChild where
  | title (text : Option String)
  | desc (text : Option String)
  | reward (text : Option String)
  | marker (type : Option String) (text : Option String)
  | cargos (cargo : List (Option String))
  | timers (timer : List TimerNode)
  | osd (nitems : Option String) (title : Option String) (msg : List (Option String))
  | lua (data : List DataNode)
  | other (name : String)

/-- A `mission` element of the save: the `data` and `id` attributes and the
children. -/
structure SavedMission where
  data : Option String
  id : Option String
  children : List MissionChild

/-- A child of the `missions` element. -/
inductive MissionsNode where
  | mission (e : SavedMission)
  | other (name : String)

/-- A child of the element handed to `missions_loadActive`. -/
inductive SaveNode where
  | missions (children : List MissionsNode)
  | other (name : String)

/-- What saving and loading take from outside `mission.c` beyond `Host`.

* `printf_f`: the text `printf` writes for `%f`.
* `osd_create`, `osd_getTitle`, `osd_getItems`: the on-screen display of
  `gui_osd.c` in the version `mission.c` calls (three arguments to
  `osd_create`, the item count returned through a pointer): the id of the
  display created, and the title and the items of a display, `none` for an id
  that has no display. -/
structure SaveHost where
  printf_f : ℚ → String
  osd_create : Option String → Int → List (Option String) → Nat
  osd_getTitle : Nat → Option String
  osd_getItems : Nat → Option (List String)

/-- The `timer` elements `missions_saveActive` writes for the slots `j`,
`j + 1`, ... of the timer arrays (`n` of them): one for every slot with a
positive time.  `none` for a null callback name passed to `%s` and for a slot
outside the arrays. -/
def saveActive_timers (S : SaveHost) (misn : Mission) : Nat → Nat → Option (List TimerNode)
  | 0, _ => some []
  | n + 1, j =>
      match misn.timer[j]?, misn.tfunc[j]? with
      | some t, some f =>
          if t > 0 then
            match f, saveActive_timers S misn n (j + 1) with
            | some func, some rest =>
                some ({ id := some (printf_d j), func := some func,
                        text := xml_text (S.printf_f t) } :: rest)
            | _, _ => none
          else saveActive_timers S misn n (j + 1)
      | _, _ => none

/-- The `msg` elements `missions_saveActive` writes for the items of a
display. -/
def saveActive_msgs : List String → Option (List (Option String))
  | [] => some []
  | s :: rest =>
      match xmlw_format (some s), saveActive_msgs rest with
      | some t, some r => some (t :: r)
      | _, _ => none

/-- The `marker` element, written when the instance has a system marker. -/
def saveActive_marker (misn : Mission) : Option (List MissionChild) :=
  match misn.sys_marker with
  | none => some []
  | some sys =>
      (xmlw_format (some sys)).map
        (fun t => [MissionChild.marker (some (printf_d misn.sys_markerType)) t])

/-- The `osd` element, written when the instance has a display. -/
def saveActive_osd (S : SaveHost) (misn : Mission) : Option (List MissionChild) :=
  if misn.osd > 0 then
    match S.osd_getItems misn.osd, S.osd_getTitle misn.osd with
    | some items, some title =>
        (saveActive_msgs items).map
          (fun msgs => [MissionChild.osd (some (printf_d items.length)) (some title) msgs])
    | _, _ => none
  else some []

/-- The `mission` element `missions_saveActive` writes for one slot; `none`
when writing it reads through a null or dangling pointer or passes a null
text to the writer. -/
def saveActive_mission (H : Host) (S : SaveHost) (mission_stack : List MissionData)
    (misn : Mission) : Option SavedMission :=
  match misn.data with
  | none => none
  | some d =>
      match mission_stack[d]? with
      | none => none
      | some data =>
          match xmlw_format misn.title, xmlw_format misn.desc, xmlw_format misn.reward,
            saveActive_marker misn, saveActive_timers S misn H.MISSION_TIMER_MAX 0,
            saveActive_osd S misn, misn.L with
          | some title, some desc, some reward, some marker, some timers, some osd,
            some L =>
              match xmlw_attr data.name, mission_persistData H L with
              | some name, some lua =>
                  some
                    { data := some name
                      id := some (printf_u misn.id)
                      children :=
                        [MissionChild.title title, MissionChild.desc desc,
                          MissionChild.reward reward] ++ marker ++
                        [MissionChild.cargos (misn.cargo.map (fun c => some (printf_u c))),
                          MissionChild.timers timers] ++ osd ++ [MissionChild.lua lua] }
              | _, _ => none
          | _, _, _, _, _, _, _ => none

/-- The loop of `missions_saveActive` over the slots: one `mission` element
for every slot with a nonzero id. -/
def saveActive_loop (H : Host) (S : SaveHost) (mission_stack : List MissionData) :
    List Mission → Option (List MissionsNode)
  | [] => some []
  | m :: rest =>
      if m.id ≠ 0 then
        match saveActive_mission H S mission_stack m,
          saveActive_loop H S mission_stack rest with
        | some e, some r => some (MissionsNode.mission e :: r)
        | _, _ => none
      else saveActive_loop H S mission_stack rest

/-- Saves the active table, `missions_saveActive`: the return code and the
`missions` element written. -/
def missions_saveActive (H : Host) (S : SaveHost) (mission_stack : List MissionData)
    (player_missions : List Mission) : Option (Int × SaveNode) :=
  (saveActive_loop H S mission_stack player_missions).map
    (fun ch => (0, SaveNode.missions ch))

/-- The `cargo` children of `cargos`: each is linked to the instance. -/
def parseActive_cargos : List (Option String) → Mission → Mission
  | [], misn => misn
  | c :: rest, misn =>
      parseActive_cargos rest (mission_linkCargo misn (uint_of_long (xml_getLong c))).1

/-- The `timer` children of `timers`: slot `atoi(id)` of the two timer arrays
is set.  `none` for a missing `id` attribute and for a slot outside the
arrays. -/
def parseActive_timers (H : Host) : List TimerNode → Mission → Option Mission
  | [], misn => some misn
  | t :: rest, misn =>
      match t.id with
      | none => none
      | some buf =>
          if 0 ≤ atoi buf ∧ atoi buf < (H.MISSION_TIMER_MAX : Int) then
            parseActive_timers H rest
              { misn with
                  timer := misn.timer.set (atoi buf).toNat (xml_getFloat H t.text)
                  tfunc := misn.tfunc.set (atoi buf).toNat t.func }
          else none

/-- The loop over the `msg` children of `osd` from item index `i` on: the
stores `items[i] = xml_get(nest)` it makes, as pairs of index and text.  The
loop stops at the first `msg` for which `i > nitems`. -/
def parseActive_msgs : List (Option String) → Int → Int → List (Int × Option String)
  | [], _, _ => []
  | msg :: rest, nitems, i =>
      if i > nitems then [] else (i, msg) :: parseActive_msgs rest nitems (i + 1)

/-- The `osd` child: nothing without the `nitems` attribute; otherwise the
item array of `nitems` entries is filled by `parseActive_msgs` and handed to
`osd_create`.  `none` when a store falls outside the array and when
`osd_create` reads an entry that was not stored. -/
def parseActive_osd (S : SaveHost) (nitems title : Option String)
    (msg : List (Option String)) (misn : Mission) : Option Mission :=
  match nitems with
  | none => some misn
  | some buf =>
      if (parseActive_msgs msg (atoi buf) 0).all (fun st => decide (st.1 < atoi buf)) ∧
          atoi buf ≤ ((parseActive_msgs msg (atoi buf) 0).length : Int) then
        some
          { misn with
              osd := S.osd_create title (atoi buf)
                ((parseActive_msgs msg (atoi buf) 0).map Prod.snd) }
      else none

/-- One child of a saved `mission` element, the body of the inner loop of
`missions_parseActive`.  `none` for the `lua` child of an instance without a
Lua state. -/
def parseActive_child (H : Host) (S : SaveHost) (misn : Mission) :
    MissionChild → Option Mission
  | .title text => some { misn with title := text }
  | .desc text => some { misn with desc := text }
  | .reward text => some { misn with reward := text }
  | .marker type text =>
      some
        { misn with
            sys_markerType :=
              (match type with
                | some buf => atoi buf
                | none => 0)
            sys_marker := text }
  | .cargos cargo => some (parseActive_cargos cargo misn)
  | .timers timer => parseActive_timers H timer misn
  | .osd nitems title msg => parseActive_osd S nitems title msg misn
  | .lua data =>
      match misn.L with
      | none => none
      | some L => some { misn with L := some (mission_unpersistData H data L).1 }
  | .other _ => some misn

/-- The inner loop of `missions_parseActive` over the children of a saved
`mission` element. -/
def parseActive_children (H : Host) (S : SaveHost) :
    List MissionChild → Mission → Option Mission
  | [], misn => some misn
  | c :: rest, misn =>
      match parseActive_child H S misn c with
      | none => none
      | some m1 => parseActive_children H S rest m1

/-- The instance `missions_parseActive` builds from a saved `mission` element
whose template `data` (at index `idx`) was found: `mission_init` without new
id and without `create`, `accepted = 1`, the id from the `id` attribute, then
the children.  `none` for a missing `id` attribute. -/
def parseActive_mission (H : Host) (S : SaveHost) (player_missions : List Mission)
    (mission_id idx : Nat) (data : MissionData) (e : SavedMission) : Option Mission :=
  match mission_init H player_missions mission_id idx data false false with
  | none => none
  | some (_, misn, _, _) =>
      match e.id with
      | none => none
      | some buf =>
          parseActive_children H S e.children
            { misn with accepted := true, id := uint_of_long (atol buf) }

/-- What `missions_parseActive` does with one saved `mission` element:
`some none` when the element is skipped because its template name is not in the
catalog, `some (some misn)` for the instance it stores.  `none` for a missing
`data` attribute compared against the names of a catalog that is not
empty. -/
def parseActive_entry (H : Host) (S : SaveHost) (mission_stack : List MissionData)
    (player_missions : List Mission) (mission_id : Nat) (e : SavedMission) :
    Option (Option Mission) :=
  match e.data with
  | none => if mission_stack.isEmpty then some none else none
  | some buf =>
      match mission_get mission_stack (mission_getID mission_stack buf) with
      | none => some none
      | some data =>
          (parseActive_mission H S player_missions mission_id
            (mission_getID mission_stack buf).toNat data e).map some

/-- The outer loop of `missions_parseActive` from slot `m` on.  `none` also
for a store outside `player_missions`. -/
def parseActive_loop (H : Host) (S : SaveHost) (mission_stack : List MissionData)
    (mission_id : Nat) : List MissionsNode → Nat → List Mission → Option (List Mission)
  | [], _, player_missions => some player_missions
  | .other _ :: rest, m, player_missions =>
      parseActive_loop H S mission_stack mission_id rest m player_missions
  | .mission e :: rest, m, player_missions =>
      match parseActive_entry H S mission_stack player_missions mission_id e with
      | none => none
      | some none => parseActive_loop H S mission_stack mission_id rest m player_missions
      | some (some misn) =>
          if m < player_missions.length then
            if m + 1 ≥ player_missions.length then some (player_missions.set m misn)
            else
              parseActive_loop H S mission_stack mission_id rest (m + 1)
                (player_missions.set m misn)
          else none

/-- Parses the `mission` children of a `missions` element into the active
table, `missions_parseActive`: the return code and the table. -/
def missions_parseActive (H : Host) (S : SaveHost) (mission_stack : List MissionData)
    (player_missions : List Mission) (mission_id : Nat) (parent : List MissionsNode) :
    Option (Int × List Mission) :=
  (parseActive_loop H S mission_stack mission_id parent 0 player_missions).map
    (fun pm => (0, pm))

/-- Cleans up every slot of the active table, `missions_cleanup`. -/
def missions_cleanup (H : Host) (player_missions : List Mission) :
    List Mission × List Event :=
  (player_missions.map (fun m => (mission_cleanup H m).1),
    (player_missions.map (fun m => (mission_cleanup H m).2)).flatten)

/-- The loop of `missions_loadActive` over the children of `parent`. -/
def loadActive_loop (H : Host) (S : SaveHost) (mission_stack : List MissionData)
    (mission_id : Nat) : List SaveNode → List Mission → Option (Int × List Mission)
  | [], player_missions => some (0, player_missions)
  | .other _ :: rest, player_missions =>
      loadActive_loop H S mission_stack mission_id rest player_missions
  | .missions ch :: rest, player_missions =>
      match missions_parseActive H S mission_stack player_missions mission_id ch with
      | none => none
      | some (ret, pm) =>
          if ret < 0 then some (-1, pm)
          else loadActive_loop H S mission_stack mission_id rest pm

/-- Loads the active table from a save, `missions_loadActive`: the return
code, the table and the calls made by the cleanup of the old table. -/
def missions_loadActive (H : Host) (S : SaveHost) (mission_stack : List MissionData)
    (player_missions : List Mission) (mission_id : Nat) (parent : List SaveNode) :
    Option (Int × List Mission × List Event) :=
  (loadActive_loop H S mission_stack mission_id parent
      (missions_cleanup H player_missions).1).map
    (fun r => (r.1, r.2, (missions_cleanup H player_missions).2))

/-- The `mission` elements among the children of a `missions` element. -/
def saved_missions : List MissionsNode → List SavedMission
  | [] => []
  | .mission e :: rest => e :: saved_missions rest
  | .other _ :: rest => saved_missions rest

/-- Whether the template name of a saved `mission` element is in the
catalog. -/
def saved_found (mission_stack : List MissionData) (e : SavedMission) : Bool :=
  match e.data with
  | none => false
  | some buf => (mission_get mission_stack (mission_getID mission_stack buf)).isSome

/-- A `timer` element with an `id` attribute that names a slot of the timer
arrays. -/
def loadable_timer (H : Host) (t : TimerNode) : Bool :=
  match t.id with
  | none => false
  | some buf => decide (0 ≤ atoi buf ∧ atoi buf < (H.MISSION_TIMER_MAX : Int))

/-- A child that `missions_parseActive` reads without leaving its arrays:
timers that name slots of the timer arrays, a display whose `msg` children
fill the declared item array and stay inside it, and a Lua state to restore
the `lua` child into. -/
def loadable_child (H : Host) : MissionChild → Bool
  | .timers timer => timer.all (loadable_timer H)
  | .osd nitems _ msg =>
      match nitems with
      | none => true
      | some buf =>
          (parseActive_msgs msg (atoi buf) 0).all (fun st => decide (st.1 < atoi buf)) &&
            decide (atoi buf ≤ ((parseActive_msgs msg (atoi buf) 0).length : Int))
  | .lua _ => H.nlua_newState.isSome
  | _ => true

/-- A saved `mission` element with both attributes and loadable children. -/
def loadable (H : Host) (e : SavedMission) : Bool :=
  e.data.isSome && e.id.isSome && e.children.all (loadable_child H)

/-- The oracles of the samples: `%f` written as the integer part, no
display. -/
def sampleSaveHost : SaveHost where
  printf_f := fun q => sample_tostring q
  osd_create := fun _ _ _ => 1
  osd_getTitle := fun _ => none
  osd_getItems := fun _ => none

/-- A catalog with the unique template of scenario C and a second
template. -/
def scenarioCatalog : List MissionData := [scenarioT, sampleT250]

/-- The active table of scenario C: the accepted instance of `scenarioT` with
id `9` in the second slot, a cargo id and an armed timer. -/
def scenarioSaved : List Mission :=
  [ Mission.zero 4,
    { Mission.zero 4 with id := 9, data := some 0, accepted := true, title := some "Haul", desc := some "Bring it.", reward := some "100 credits", cargo := [3], timer := [0, 5, 0, 0], tfunc := [none, some "late", none, none], L := some [(.str "count", .number 42)] } ]

/-- A saved section of three missions, the second of a template `Gone` that
is not in `scenarioCatalog`, between two children that are not missions. -/
def sampleSection : List MissionsNode :=
  [ .other "text",
    .mission { data := some "R", id := some "4", children := [.title (some "First"), .lua []] },
    .mission { data := some "Gone", id := some "5", children := [.title (some "Lost")] },
    .other "text",
    .mission { data := some "T", id := some "6", children := [.title (some "Third"), .cargos [some "8"]] } ]

/-- An empty active table of three slots. -/
def emptyActive3 : List Mission := [Mission.zero 4, Mission.zero 4, Mission.zero 4]

/-- The `missions` element that saving `scenarioSaved` writes. -/
def scenarioSection : SaveNode :=
  .missions
    [ .mission
        { data := some "T"
          id := some "9"
          children :=
            [ .title (some "Haul"), .desc (some "Bring it."), .reward (some "100 credits"),
              .cargos [some "3"],
              .timers [{ id := some "1", func := some "late", text := some "5" }],
              .lua [.mk "number" "count" false "42" []] ] } ]

/-! ## One-shot missions -/

/-- The state the loop of `missions_run` works on: the id counter, the number
of `RNGF()` draws taken so far, and the calls made. -/
structure RunState where
  mission_id : Nat
  nrng : Nat
  events : List Event

/-- The body of the loop of `missions_run` for template `i`: when the location
matches and the Matcher accepts, one draw, and on a hit the instance is
initialised and cleaned up at once. -/
def run_template (H : Host) (RNGF : Nat → ℚ) (mission_stack : List MissionData)
    (player_missions : List Mission) (faction : Int) (planet sysname : String)
    (loc : Int) (i : Nat) (misn : MissionData) (st : RunState) : Option RunState :=
  if misn.avail.loc = loc then
    if mission_meetReq H mission_stack player_missions i faction planet sysname = 0 then
      some st
    else if RNGF st.nrng < mission_chance misn.avail.chance then
      match mission_init H player_missions st.mission_id i misn true true with
      | none => none
      | some (_, mission, mission_id1, ev) =>
          some { mission_id := mission_id1, nrng := st.nrng + 1,
                 events := st.events ++ ev ++ (mission_cleanup H mission).2 }
    else some { st with nrng := st.nrng + 1 }
  else some st

/-- The loop of `missions_run` over the templates from index `i` on. -/
def run_loop (H : Host) (RNGF : Nat → ℚ) (mission_stack : List MissionData)
    (player_missions : List Mission) (faction : Int) (planet sysname : String)
    (loc : Int) : List MissionData → Nat → RunState → Option RunState
  | [], _, st => some st
  | misn :: rest, i, st =>
      match run_template H RNGF mission_stack player_missions faction planet sysname loc
          i misn st with
      | none => none
      | some st1 =>
          run_loop H RNGF mission_stack player_missions faction planet sysname loc rest
            (i + 1) st1

/-- Runs the missions of a location, `missions_run`: the final state.
`RNGF k` is the outcome of the `k`-th draw. -/
def missions_run (H : Host) (RNGF : Nat → ℚ) (mission_stack : List MissionData)
    (player_missions : List Mission) (mission_id : Nat) (loc : Int) (faction : Int)
    (planet sysname : String) : Option RunState :=
  run_loop H RNGF mission_stack player_missions faction planet sysname loc mission_stack 0
    { mission_id := mission_id, nrng := 0, events := [] }

/-- The number of draws below `chance` among the `rep` draws from number `n`
on. -/
def trial_hits (RNGF : Nat → ℚ) (chance : ℚ) : Nat → Nat → Nat
  | 0, _ => 0
  | rep + 1, n => (if RNGF n < chance then 1 else 0) + trial_hits RNGF chance rep (n + 1)

/-! ## Timers -/

/-- The branch of `missions_update` for a timer that is up: the callback is
run, then slot `j` is cleared in both timer arrays.  The instance and the
calls made. -/
def timer_fire (H : Host) (misn : Mission) (j : Nat) (func : String) :
    Mission × List Event :=
  ({ (misn_run H misn func).2.1 with
      timer := (misn_run H misn func).2.1.timer.set j 0
      tfunc := (misn_run H misn func).2.1.tfunc.set j none },
    (misn_run H misn func).2.2)

/-- The body of the inner loop of `missions_update` for timer slot `j`.
`none` for a slot outside the timer arrays and for a null callback name handed
to `misn_run`. -/
def update_timer (H : Host) (dt : ℚ) (j : Nat) (misn : Mission) :
    Option (Mission × List Event) :=
  match misn.timer[j]? with
  | none => none
  | some r =>
      if r > 0 then
        if r - dt < 0 then
          match misn.tfunc[j]? with
          | some (some func) =>
              some (timer_fire H { misn with timer := misn.timer.set j (r - dt) } j func)
          | _ => none
        else some ({ misn with timer := misn.timer.set j (r - dt) }, [])
      else some (misn, [])

/-- The inner loop of `missions_update` over the `n` timer slots from `j`
on. -/
def update_timers (H : Host) (dt : ℚ) : Nat → Nat → Mission → Option (Mission × List Event)
  | 0, _, misn => some (misn, [])
  | n + 1, j, misn =>
      match update_timer H dt j misn with
      | none => none
      | some (m1, ev1) =>
          match update_timers H dt n (j + 1) m1 with
          | none => none
          | some (m2, ev2) => some (m2, ev1 ++ ev2)

/-- The outer loop of `missions_update` over the slots of the active table:
only instances with a nonzero id are looked at. -/
def update_loop (H : Host) (dt : ℚ) : List Mission → Option (List Mission × List Event)
  | [] => some ([], [])
  | m :: rest =>
      match (if m.id ≠ 0 then update_timers H dt H.MISSION_TIMER_MAX 0 m else some (m, [])),
        update_loop H dt rest with
      | some (m1, ev1), some (pm, ev2) => some (m1 :: pm, ev1 ++ ev2)
      | _, _ => none

/-- Advances the timers by `dt`, `missions_update`: the active table and the
calls made.  Nothing happens without a player and when `destroyed`, the flag
`PLAYER_DESTROYED`, is set. -/
def missions_update (H : Host) (destroyed : Bool) (dt : ℚ)
    (player_missions : List Mission) : Option (List Mission × List Event) :=
  if !H.player || destroyed then some (player_missions, [])
  else update_loop H dt player_missions

/-- A host like `sampleHost` whose entry points fail with `-1` and leave the
instance as it is. -/
def sampleHostFailing : Host :=
  { sampleHost with script := fun m _ => (-1, m) }

/-- The `land.c` state with a free slot in the active table, `sampleFirst` at
the bar and `sampleSecond` at the mission computer. -/
def sampleLand : Land where
  player_missions := emptyActive
  mission_bar := [sampleFirst]
  mission_computer := [sampleSecond]

/-- A candidate of template `0` with the NPC name `Bob` and no title. -/
def sampleNpcB : Mission := { Mission.zero 4 with id := 1, data := some 0, npc := some "Bob" }

/-- A candidate of template `0` with neither NPC name nor title. -/
def sampleBare : Mission := { Mission.zero 4 with id := 2, data := some 0 }

/-- A candidate of template `0` with the NPC name `Al` and no title. -/
def sampleNpcA : Mission := { Mission.zero 4 with id := 3, data := some 0, npc := some "Al" }

/-- A candidate of template `0` with the NPC name `Bob` and the title
`Zeta`. -/
def sampleNpcTitled : Mission :=
  { Mission.zero 4 with id := 4, data := some 0, npc := some "Bob", title := some "Zeta" }

/-- A candidate of template `0` with no NPC name and the title `Alpha`. -/
def sampleTitled : Mission := { Mission.zero 4 with id := 5, data := some 0, title := some "Alpha" }

/-- An active table whose first slot is empty (id `0`) although its timer
array holds a positive time, and whose second slot holds an instance with the
armed timers `7` (`soon`), `5` (`late`) and `2` (`now`). -/
def sampleTimers : List Mission :=
  [ { Mission.zero 4 with timer := [3, 0, 0, 0], tfunc := [some "never", none, none, none] },
    { Mission.zero 4 with id := 9, data := some 0, accepted := true, timer := [7, 5, 0, 2], tfunc := [some "soon", some "late", none, some "now"], L := some [] } ]

/-- Globals with an empty string, a number under a key that holds `%%`, and
a number under a plain key. -/
def sampleLossy : LuaTable :=
  [(.str "note", .string ""), (.str "50%% off", .number 1), (.str "count", .number 42)]

/-- The elements `mission_persistData` writes for `sampleLossy`. -/
def sampleLossyNodes : List DataNode :=
  [ .mk "string" "note" false "" [],
    .mk "number" "50% off" false "1" [],
    .mk "number" "count" false "42" [] ]

/-- A unique template like `scenarioT` whose name holds `%%`. -/
def samplePercent : MissionData := { scenarioT with name := "50%% off" }

/-- An active table of two slots, the first holding the accepted instance with
id `9` of the template at index `0`. -/
def percentSaved : List Mission :=
  [ { Mission.zero 4 with id := 9, data := some 0, accepted := true, title := some "Haul", desc := some "Bring it.", reward := some "100 credits", L := some [] },
    Mission.zero 4 ]

/-- The `missions` element that saving `percentSaved` with the catalog
`[samplePercent]` writes. -/
def percentSection : SaveNode :=
  .missions
    [ .mission
        { data := some "50% off"
          id := some "9"
          children :=
            [ .title (some "Haul"), .desc (some "Bring it."), .reward (some "100 credits"),
              .cargos [], .timers [], .lua [] ] } ]

/-! ## Properties -/

/-! ### Persistor -/

theorem atoi_one : atoi "1" = 1 := by decide

theorem atoi_zero : atoi "0" = 0 := by decide

theorem lua_rawset_append (t : LuaTable) (k : LuaKey) (v : LuaValue)
    (h : k ∉ t.map Prod.fst) : lua_rawset t k v = t ++ [(k, v)] := by
  induction t with
  | nil => rfl
  | cons e rest ih =>
      obtain ⟨k', v'⟩ := e
      simp only [List.map_cons, List.mem_cons, not_or] at h
      have hne : ¬ k' = k := fun e => h.1 e.symm
      simp [lua_rawset, hne, ih h.2]

theorem persist_key_restore (H : Host) (k : LuaKey) (hk : persistable_key H k = true) :
    ∃ name keynum, persist_key H k = some (name, keynum) ∧ xmlw_attr name = some name ∧
      (if keynum then LuaKey.num (H.atof name) else LuaKey.str name) = k := by
  cases k with
  | str s => exact ⟨s, false, rfl, by simpa [persistable_key] using hk, by simp⟩
  | num q =>
      simp only [persistable_key, Bool.and_eq_true, decide_eq_true_eq] at hk
      exact ⟨H.lua_tostring q, true, rfl, hk.1, by simp [hk.2]⟩
  | other tag => simp [persistable_key] at hk

mutual
theorem roundtrip_value (H : Host) (intable : Bool) (k : LuaKey) :
    ∀ v : LuaValue, persistable_key H k = true → persistable_value H v = true →
      (intable = false →
        ∀ t, v = .table t → lua_toboolean (lua_getfield t "__save") = true) →
      ∃ n, mission_persistDataNode H intable k v = some [n] ∧
        unpersist_value H n = some v ∧
        (if n.keynum then LuaKey.num (H.atof n.name) else LuaKey.str n.name) = k ∧
        persist_key H k = some (n.name, n.keynum)
  | .table t, hk, hv, hm => by
      obtain ⟨ns, hns, hback⟩ :=
        roundtrip_entries H t (by simpa [persistable_value] using hv)
      have hb := hback [] (by simp)
      have hmark : (!intable && !lua_toboolean (lua_getfield t "__save")) = false := by
        cases intable with
        | true => simp
        | false => simp [hm rfl t rfl]
      obtain ⟨name, keynum, hpk, hattr, hkey⟩ := persist_key_restore H k hk
      refine ⟨.mk "table" name keynum "" ns, ?_, ?_, hkey, hpk⟩
      · simp [mission_persistDataNode, hpk, hmark, hns, hattr]
      · simp [unpersist_value, hb]
  | .number n, hk, hv, _ => by
      have hn : xml_getFloat H (xml_text (H.lua_tostring n)) = n := by
        simpa [persistable_value] using hv
      obtain ⟨name, keynum, hpk, hattr, hkey⟩ := persist_key_restore H k hk
      refine ⟨.mk "number" name keynum (H.lua_tostring n) [], ?_, ?_, hkey, hpk⟩
      · simp [mission_persistDataNode, hpk, mission_saveData, hattr]
      · simp [unpersist_value, hn]
  | .boolean b, hk, _, _ => by
      have hb : (xml_getInt (xml_text (if b then "1" else "0")) != 0) = b := by
        cases b <;> decide
      obtain ⟨name, keynum, hpk, hattr, hkey⟩ := persist_key_restore H k hk
      refine ⟨.mk "bool" name keynum (if b then "1" else "0") [], ?_, ?_, hkey, hpk⟩
      · simp [mission_persistDataNode, hpk, mission_saveData, hattr]
      · simp only [unpersist_value]; simp [hb]
  | .string s, hk, hv, _ => by
      have hs : xml_text s = some s := by
        have hne : s ≠ "" := by simpa [persistable_value] using hv
        simp [xml_text, hne]
      obtain ⟨name, keynum, hpk, hattr, hkey⟩ := persist_key_restore H k hk
      refine ⟨.mk "string" name keynum s [], ?_, ?_, hkey, hpk⟩
      · simp [mission_persistDataNode, hpk, mission_saveData, hattr]
      · simp [unpersist_value, hs]
  | .planet p, hk, hv, _ => by
      cases p with
      | none => simp [persistable_value] at hv
      | some a =>
        have hp : H.planet_get (H.planet_name a) = some a := by
          simpa [persistable_value] using hv
        obtain ⟨name, keynum, hpk, hattr, hkey⟩ := persist_key_restore H k hk
        refine ⟨.mk "planet" name keynum (H.planet_name a) [], ?_, ?_, hkey, hpk⟩
        · simp [mission_persistDataNode, hpk, mission_saveData, hattr]
        · simp [unpersist_value, hp]
  | .system p, hk, hv, _ => by
      cases p with
      | none => simp [persistable_value] at hv
      | some a =>
        have hp : H.system_get (H.system_name a) = some a := by
          simpa [persistable_value] using hv
        obtain ⟨name, keynum, hpk, hattr, hkey⟩ := persist_key_restore H k hk
        refine ⟨.mk "system" name keynum (H.system_name a) [], ?_, ?_, hkey, hpk⟩
        · simp [mission_persistDataNode, hpk, mission_saveData, hattr]
        · simp [unpersist_value, hp]
  | .faction f, hk, hv, _ => by
      cases hf : H.faction_name f with
      | none => simp [persistable_value, hf] at hv
      | some str =>
        have hp : H.faction_get str = f := by
          simpa [persistable_value, hf] using hv
        obtain ⟨name, keynum, hpk, hattr, hkey⟩ := persist_key_restore H k hk
        refine ⟨.mk "faction" name keynum str [], ?_, ?_, hkey, hpk⟩
        · simp [mission_persistDataNode, hpk, hf, mission_saveData, hattr]
        · simp [unpersist_value, hp]
  | .ship sh, hk, hv, _ => by
      cases hf : H.ship_stack[sh]? with
      | none => simp [persistable_value, hf] at hv
      | some str =>
        have hp : ship_get H.ship_stack str = sh := by
          simpa [persistable_value, hf] using hv
        obtain ⟨name, keynum, hpk, hattr, hkey⟩ := persist_key_restore H k hk
        refine ⟨.mk "ship" name keynum str [], ?_, ?_, hkey, hpk⟩
        · simp [mission_persistDataNode, hpk, hf, mission_saveData, hattr]
        · simp [unpersist_value, hp]
  | .nil, _, hv, _ => by simp [persistable_value] at hv
  | .other _, _, hv, _ => by simp [persistable_value] at hv
theorem roundtrip_entries (H : Host) :
    ∀ t : LuaTable, persistable_entries H t = true →
      ∃ ns, persist_loop H true t = some ns ∧
        ∀ acc : LuaTable, (∀ k ∈ t.map Prod.fst, k ∉ acc.map Prod.fst) →
          mission_unpersistDataNode H ns acc = (acc ++ t, 0)
  | [], _ => ⟨[], by simp [persist_loop], by intro acc _; simp [mission_unpersistDataNode]⟩
  | (k, v) :: rest, h => by
      simp only [persistable_entries, Bool.and_eq_true, decide_eq_true_eq] at h
      obtain ⟨⟨⟨hk, hv⟩, hnd⟩, hrest⟩ := h
      obtain ⟨n, hn, hval, hkey, _⟩ := roundtrip_value H true k v hk hv (by simp)
      obtain ⟨ns, hns, hback⟩ := roundtrip_entries H rest hrest
      refine ⟨n :: ns, by simp [persist_loop, hn, hns], ?_⟩
      intro acc hacc
      have hkacc : k ∉ acc.map Prod.fst := hacc k (by simp)
      have hvnil : lua_settable acc k v = acc ++ [(k, v)] := by
        cases v <;> first
          | (simp [persistable_value] at hv; done)
          | simp [lua_settable, lua_rawset_append acc k _ hkacc]
      simp only [mission_unpersistDataNode, hval, hkey, hvnil]
      rw [hback]
      · simp
      · intro k' hk'
        simp only [List.map_append, List.map_cons, List.map_nil, List.mem_append,
          List.mem_singleton, not_or]
        refine ⟨hacc k' (by simp [hk']), ?_⟩
        rintro rfl
        exact hnd hk'
end

theorem roundtrip_globals (H : Host) :
    ∀ L : LuaTable, persistable_globals H L = true →
      ∃ ns, persist_loop H false L = some ns ∧
        ∀ acc : LuaTable, (∀ k ∈ L.map Prod.fst, k ∉ acc.map Prod.fst) →
          mission_unpersistDataNode H ns acc = (acc ++ L, 0) := by
  intro L
  induction L with
  | nil =>
      intro _
      exact ⟨[], by simp [persist_loop], by intro acc _; simp [mission_unpersistDataNode]⟩
  | cons e rest ih =>
      obtain ⟨k, v⟩ := e
      intro h
      simp only [persistable_globals, persistable_entries, Bool.and_eq_true,
        decide_eq_true_eq, List.all_cons] at h
      obtain ⟨⟨⟨⟨hk, hv⟩, hnd⟩, hrest⟩, hmark, hmarks⟩ := h
      obtain ⟨n, hn, hval, hkey, _⟩ := roundtrip_value H false k v hk hv (by
        intro _ t ht
        subst ht
        simpa using hmark)
      obtain ⟨ns, hns, hback⟩ := ih (by simp [persistable_globals, hrest, hmarks])
      refine ⟨n :: ns, by simp [persist_loop, hn, hns], ?_⟩
      intro acc hacc
      have hkacc : k ∉ acc.map Prod.fst := hacc k (by simp)
      have hvnil : lua_settable acc k v = acc ++ [(k, v)] := by
        cases v <;> first
          | (simp [persistable_value] at hv; done)
          | simp [lua_settable, lua_rawset_append acc k _ hkacc]
      simp only [mission_unpersistDataNode, hval, hkey, hvnil]
      rw [hback]
      · simp
      · intro k' hk'
        simp only [List.map_append, List.map_cons, List.map_nil, List.mem_append,
          List.mem_singleton, not_or]
        refine ⟨hacc k' (by simp [hk']), ?_⟩
        rintro rfl
        exact hnd hk'

/-- C1, the code at the failing input. The globals `sampleLossy` are two
numbers with an exact decimal text and a string, under string keys.
`mission_persistData` writes the three elements `sampleLossyNodes`, the second
under the name `50% off` because the key text `50%% off` is handed to
`xmlw_attr` as the format; `mission_unpersistData` of them into an empty
environment returns `0` with two globals only: the empty string `note` is not
restored (read back as `NULL`, pushed as nil, so that the key stays unset), and
the number of the key `50%% off` comes back under the key `50% off`. -/
theorem persist_roundtrip_lossy :
    sampleHost.atof (sampleHost.lua_tostring 1) = 1 ∧
    sampleHost.atof (sampleHost.lua_tostring 42) = 42 ∧
    mission_persistData sampleHost sampleLossy = some sampleLossyNodes ∧
    mission_unpersistData sampleHost sampleLossyNodes [] =
      ([(.str "50% off", .number 1), (.str "count", .number 42)], 0) ∧
    lua_gettable (mission_unpersistData sampleHost sampleLossyNodes []).1 (.str "note") =
      .nil ∧
    lua_gettable (mission_unpersistData sampleHost sampleLossyNodes []).1
      (.str "50%% off") = .nil :=
  ⟨by decide, by decide, rfl, rfl, rfl, rfl⟩

/-- Round trip of the persistor on the globals `persistable_globals` admits:
numbers whose text converts back to them, booleans, strings that are not
empty, references that the catalog lookup by name resolves, and marked tables
of such values, under string or number keys that `xmlw_attr` writes as they
are.  `mission_persistData` produces a tree and `mission_unpersistData` of that
tree into an empty environment returns `0` and rebuilds exactly the original
globals. -/
theorem persist_roundtrip (H : Host) (L : LuaTable)
    (h : persistable_globals H L = true) :
    ∃ nodes, mission_persistData H L = some nodes ∧
      mission_unpersistData H nodes [] = (L, 0) := by
  obtain ⟨ns, hns, hback⟩ := roundtrip_globals H L h
  exact ⟨ns, hns, by simpa [mission_unpersistData] using hback [] (by simp)⟩

/-- The round trip at `sampleGlobals` on `sampleHost`. -/
theorem persist_roundtrip_witness :
    persistable_globals sampleHost sampleGlobals = true ∧
      ∃ nodes, mission_persistData sampleHost sampleGlobals = some nodes ∧
        mission_unpersistData sampleHost nodes [] = (sampleGlobals, 0) :=
  ⟨by decide, persist_roundtrip sampleHost sampleGlobals (by decide)⟩

theorem persist_loop_mem (H : Host) (intable : Bool) :
    ∀ (t : LuaTable) (ns : List DataNode), persist_loop H intable t = some ns →
      ∀ k v l, (k, v) ∈ t → mission_persistDataNode H intable k v = some l →
        ∀ n ∈ l, n ∈ ns := by
  intro t
  induction t with
  | nil => intro ns _ k v l hmem; simp at hmem
  | cons e rest ih =>
      obtain ⟨k0, v0⟩ := e
      intro ns hns k v l hmem hl n hn
      simp only [persist_loop] at hns
      cases h0 : mission_persistDataNode H intable k0 v0 with
      | none => simp [h0] at hns
      | some a =>
          cases hr : persist_loop H intable rest with
          | none => simp [h0, hr] at hns
          | some b =>
              simp only [h0, hr, Option.some.injEq] at hns
              subst hns
              rcases List.mem_cons.mp hmem with heq | hin
              · cases heq
                rw [h0] at hl
                cases hl
                exact List.mem_append_left _ hn
              · exact List.mem_append_right _ (ih b hr k v l hin hl n hn)

theorem strcmp_chars_eq_zero : ∀ a b : List Char, strcmp_chars a b = 0 ↔ a = b := by
  intro a
  induction a with
  | nil =>
      intro b
      cases b <;> simp [strcmp_chars]
  | cons x xs ih =>
      intro b
      cases b with
      | nil => simp [strcmp_chars]
      | cons y ys =>
          simp only [strcmp_chars]
          by_cases h1 : x.toNat < y.toNat
          · have hne : x ≠ y := by
              rintro rfl
              exact Nat.lt_irrefl _ h1
            simp [h1, hne]
          · by_cases h2 : y.toNat < x.toNat
            · have hne : x ≠ y := by
                rintro rfl
                exact Nat.lt_irrefl _ h2
              simp [h1, h2, hne]
            · have hxy : x = y := by
                apply Char.ext
                apply UInt32.ext
                exact Nat.le_antisymm (Nat.le_of_not_lt h2) (Nat.le_of_not_lt h1)
              simp [h1, h2, hxy, ih ys]

theorem strcmp_eq_zero (a b : String) : strcmp a b = 0 ↔ a = b := by
  unfold strcmp
  rw [strcmp_chars_eq_zero]
  constructor
  · intro h
    exact String.ext h
  · intro h
    rw [h]

theorem mission_matchFaction_loop_eq (faction : Int) :
    ∀ fs : List Int, (mission_matchFaction_loop fs faction = 1 ↔ faction ∈ fs) ∧
      (mission_matchFaction_loop fs faction = 0 ↔ faction ∉ fs) := by
  intro fs
  induction fs with
  | nil => simp [mission_matchFaction_loop]
  | cons f rest ih =>
      by_cases h : faction = f
      · simp [mission_matchFaction_loop, h]
      · simp [mission_matchFaction_loop, h, ih.1, ih.2]

theorem mission_matchFaction_eq_zero (misn : MissionData) (faction : Int) :
    mission_matchFaction misn faction = 0 ↔
      ¬ (misn.avail.factions = [] ∨ faction ∈ misn.avail.factions) := by
  unfold mission_matchFaction
  cases hf : misn.avail.factions with
  | nil => simp
  | cons f rest =>
      have hpos : ¬ (((f :: rest).length : Int) ≤ 0) := by
        simp only [List.length_cons]
        omega
      rw [if_neg hpos]
      simpa using (mission_matchFaction_loop_eq faction (f :: rest)).2

theorem mission_alreadyRunning_eq_zero (misn : Nat) :
    ∀ player_missions : List Mission,
      mission_alreadyRunning player_missions misn = 0 ↔
        ∀ m ∈ player_missions, m.data ≠ some misn := by
  intro pm
  induction pm with
  | nil => simp [mission_alreadyRunning]
  | cons m rest ih =>
      by_cases h : m.data = some misn
      · simp [mission_alreadyRunning, h]
      · simp [mission_alreadyRunning, h, ih]

theorem mission_meetReq_spec (H : Host) (mission_stack : List MissionData)
    (player_missions : List Mission) (mission faction : Int) (planet sysname : String) :
    (mission_meetReq H mission_stack player_missions mission faction planet sysname = 1 ↔
      ∃ misn, (0 ≤ mission ∧ mission < mission_stack.length) ∧
        mission_get mission_stack mission = some misn ∧
        (misn.avail.planet = none ∨ misn.avail.planet = some planet) ∧
        (misn.avail.system = none ∨ misn.avail.system = some sysname) ∧
        (misn.avail.factions = [] ∨ faction ∈ misn.avail.factions) ∧
        (misn.unique = false ∨
          (H.player_missionAlreadyDone mission = 0 ∧
            ∀ m ∈ player_missions, m.data ≠ some mission.toNat)) ∧
        (misn.avail.cond = none ∨
          ∃ c, misn.avail.cond = some c ∧ H.cond_check c ≠ 0) ∧
        (misn.avail.done = none ∨
          ∃ d, misn.avail.done = some d ∧
            H.player_missionAlreadyDone (mission_getID mission_stack d) ≠ 0)) ∧
    (mission_meetReq H mission_stack player_missions mission faction planet sysname = 1 ∨
      mission_meetReq H mission_stack player_missions mission faction planet sysname = 0) := by
  unfold mission_meetReq
  cases hget : mission_get mission_stack mission with
  | none => simp
  | some misn =>
      have hidx : 0 ≤ mission ∧ mission < mission_stack.length := by
        unfold mission_get at hget
        by_cases hc : mission < 0 ∨ mission ≥ (mission_stack.length : Int)
        · simp [hc] at hget
        · omega
      simp only [Option.some.injEq, exists_eq_left', hidx, true_and]
      have hp : (match misn.avail.planet with
          | some p => strcmp p planet != 0
          | none => false) = true ↔
          ¬ (misn.avail.planet = none ∨ misn.avail.planet = some planet) := by
        cases hpl : misn.avail.planet with
        | none => simp
        | some p => simp [strcmp_eq_zero]
      have hs : (match misn.avail.system with
          | some s => strcmp s sysname != 0
          | none => false) = true ↔
          ¬ (misn.avail.system = none ∨ misn.avail.system = some sysname) := by
        cases hsy : misn.avail.system with
        | none => simp
        | some p => simp [strcmp_eq_zero]
      have hu : (misn.unique &&
          (H.player_missionAlreadyDone mission != 0 ||
            mission_alreadyRunning player_missions mission.toNat != 0)) = true ↔
          ¬ (misn.unique = false ∨
            (H.player_missionAlreadyDone mission = 0 ∧
              ∀ m ∈ player_missions, m.data ≠ some mission.toNat)) := by
        rw [← mission_alreadyRunning_eq_zero]
        cases misn.unique <;> simp
        tauto
      have hc : (match misn.avail.cond with
          | some c => H.cond_check c == 0
          | none => false) = true ↔
          ¬ (misn.avail.cond = none ∨
            ∃ c, misn.avail.cond = some c ∧ H.cond_check c ≠ 0) := by
        cases hco : misn.avail.cond with
        | none => simp
        | some c => simp
      have hd : (match misn.avail.done with
          | some d => H.player_missionAlreadyDone (mission_getID mission_stack d) == 0
          | none => false) = true ↔
          ¬ (misn.avail.done = none ∨
            ∃ d, misn.avail.done = some d ∧
              H.player_missionAlreadyDone (mission_getID mission_stack d) ≠ 0) := by
        cases hdo : misn.avail.done with
        | none => simp
        | some d => simp
      have hf := mission_matchFaction_eq_zero misn faction
      simp only [hp, hs, hf, hu, hc, hd]
      constructor
      · constructor
        · intro h
          split_ifs at h <;> first | (exact absurd h (by decide)) | skip
          exact ⟨by assumption, by assumption, by assumption, by assumption, by assumption,
            by assumption⟩
        · rintro ⟨h1, h2, h3, h4, h5, h6⟩
          simp [h1, h2, h3, h4, h5, h6]
      · split_ifs <;> simp

/-- C3. The Matcher is the conjunction of its six checks: `mission_meetReq`
returns `1` exactly when the index is in the catalog, the planet filter is
unset or equal to the planet name, the system filter is unset or equal to the
system name, the faction filter is empty or contains the faction, the template
is not unique or is neither finished by the player nor pointed to by a slot of
the active table, the condition is unset or `cond_check` holds, and the
prerequisite is unset or the named template is finished; it returns `0` in
every other case. -/
theorem mission_meetReq_six_checks (H : Host) (mission_stack : List MissionData)
    (player_missions : List Mission) (mission faction : Int) (planet sysname : String) :
    (mission_meetReq H mission_stack player_missions mission faction planet sysname = 1 ↔
      ∃ misn, (0 ≤ mission ∧ mission < mission_stack.length) ∧
        mission_get mission_stack mission = some misn ∧
        (misn.avail.planet = none ∨ misn.avail.planet = some planet) ∧
        (misn.avail.system = none ∨ misn.avail.system = some sysname) ∧
        (misn.avail.factions = [] ∨ faction ∈ misn.avail.factions) ∧
        (misn.unique = false ∨
          (H.player_missionAlreadyDone mission = 0 ∧
            ∀ m ∈ player_missions, m.data ≠ some mission.toNat)) ∧
        (misn.avail.cond = none ∨
          ∃ c, misn.avail.cond = some c ∧ H.cond_check c ≠ 0) ∧
        (misn.avail.done = none ∨
          ∃ d, misn.avail.done = some d ∧
            H.player_missionAlreadyDone (mission_getID mission_stack d) ≠ 0)) ∧
    (mission_meetReq H mission_stack player_missions mission faction planet sysname = 1 ∨
      mission_meetReq H mission_stack player_missions mission faction planet sysname = 0) :=
  mission_meetReq_spec H mission_stack player_missions mission faction planet sysname

/-! ### Ids -/

theorem mission_genID_loop_congr (ids ids' : List Nat) :
    ∀ fuel c, (∀ k, 1 ≤ k → k ≤ fuel →
        ((c + k) % 2 ^ 32 ∈ ids ↔ (c + k) % 2 ^ 32 ∈ ids')) →
      mission_genID_loop ids fuel c = mission_genID_loop ids' fuel c := by
  intro fuel
  induction fuel with
  | zero => intro c _; rfl
  | succ fuel ih =>
      intro c h
      have h1 := h 1 (Nat.le_refl 1) (by omega)
      have hrec : mission_genID_loop ids fuel ((c + 1) % 2 ^ 32) =
          mission_genID_loop ids' fuel ((c + 1) % 2 ^ 32) := by
        apply ih
        intro k hk1 hk2
        have hmod : ((c + 1) % 2 ^ 32 + k) % 2 ^ 32 = (c + (k + 1)) % 2 ^ 32 := by
          rw [Nat.add_mod, Nat.mod_mod, ← Nat.add_mod]
          congr 1
          omega
        rw [hmod]
        exact h (k + 1) (by omega) (by omega)
      simp only [mission_genID_loop]
      by_cases hin : (c + 1) % 2 ^ 32 ∈ ids
      · rw [if_pos hin, if_pos (h1.mp hin), hrec]
      · rw [if_neg hin, if_neg (fun h' => hin (h1.mpr h'))]

theorem mission_genID_loop_spec :
    ∀ fuel (ids : List Nat) c, ids.length < fuel → fuel ≤ 2 ^ 32 →
      ∃ id k, mission_genID_loop ids fuel c = some (id, id) ∧ id ∉ ids ∧
        1 ≤ k ∧ k ≤ fuel ∧ id = (c + k) % 2 ^ 32 := by
  intro fuel
  induction fuel with
  | zero => intro ids c h; omega
  | succ fuel ih =>
      intro ids c hlen hfuel
      by_cases hin : (c + 1) % 2 ^ 32 ∈ ids
      · have hlt : (ids.filter (fun x => x ≠ (c + 1) % 2 ^ 32)).length < fuel := by
          have := List.length_filter_lt_length_iff_exists.mpr
            (⟨(c + 1) % 2 ^ 32, hin, by simp⟩ :
              ∃ x ∈ ids, ¬ ((fun x => decide (x ≠ (c + 1) % 2 ^ 32)) x = true))
          omega
        obtain ⟨id, k, hloop, hnot, hk1, hk2, hid⟩ :=
          ih (ids.filter (fun x => x ≠ (c + 1) % 2 ^ 32)) ((c + 1) % 2 ^ 32) hlt (by omega)
        have hne : ∀ j, 1 ≤ j → j ≤ fuel →
            ((c + 1) % 2 ^ 32 + j) % 2 ^ 32 ≠ (c + 1) % 2 ^ 32 := by
          intro j hj1 hj2
          have hp : (2 : Nat) ^ 32 = 4294967296 := by norm_num
          rw [hp] at hfuel ⊢
          omega
        have hcongr := mission_genID_loop_congr ids
          (ids.filter (fun x => x ≠ (c + 1) % 2 ^ 32)) fuel ((c + 1) % 2 ^ 32) (by
            intro j hj1 hj2
            simp only [List.mem_filter, decide_eq_true_eq]
            exact ⟨fun hm => ⟨hm, hne j hj1 hj2⟩, fun hm => hm.1⟩)
        refine ⟨id, k + 1, ?_, ?_, by omega, by omega, ?_⟩
        · simp only [mission_genID_loop]
          rw [if_pos hin, hcongr, hloop]
        · intro hmem
          apply hnot
          simp only [List.mem_filter, decide_eq_true_eq]
          exact ⟨hmem, by rw [hid]; exact hne k hk1 hk2⟩
        · rw [hid, Nat.add_mod, Nat.mod_mod, ← Nat.add_mod]
          congr 1
          omega
      · refine ⟨(c + 1) % 2 ^ 32, 1, ?_, hin, by omega, by omega, rfl⟩
        simp only [mission_genID_loop]
        rw [if_neg hin]

theorem mission_genID_spec (player_missions : List Mission) (c : Nat)
    (h : player_missions.length < 2 ^ 32) :
    ∃ id k, mission_genID player_missions c = some (id, id) ∧
      id ∉ player_missions.map (fun m => m.id) ∧
      1 ≤ k ∧ k ≤ player_missions.length + 1 ∧ id = (c + k) % 2 ^ 32 := by
  unfold mission_genID
  exact mission_genID_loop_spec (player_missions.length + 1)
    (player_missions.map (fun m => m.id)) c (by simp) (by omega)

/-! ### Initialisation and generation -/

theorem mission_init_script_data (H : Host) (mission : Mission) (misn : MissionData)
    (create : Bool) :
    0 ≤ (mission_init_script H mission misn create).1 →
      (mission_init_script H mission misn create).2.1.data = mission.data := by
  unfold mission_init_script
  cases H.nlua_newState with
  | none => intro h0; simp at h0
  | some L =>
      cases H.ndata_read misn.lua with
      | none => intro h0; simp at h0
      | some buf =>
          simp only
          split_ifs
          · intro h0; simp at h0
          · intro h0; simp at h0
          · intro _; rfl
          · intro _; rfl

theorem mission_init_script_success (H : Host) (mission : Mission) (misn : MissionData)
    (L : LuaTable) (buf : String)
    (hstate : H.nlua_newState = some L) (hread : H.ndata_read misn.lua = some buf)
    (hload : (H.luaL_dobuffer L buf).1 = 0)
    (hcreate : ∀ m : Mission, m.data = mission.data → (H.script m "create").1 = 0)
    (hid : mission.id < 2 ^ 31) :
    0 ≤ (mission_init_script H mission misn true).1 := by
  have hrun : (misn_run H { mission with L := some (H.luaL_dobuffer L buf).2 }
      "create").1 = 0 := by
    simp only [misn_run]
    exact hcreate _ rfl
  simp only [mission_init_script, hstate, hread, hload, hrun, ne_eq, not_true_eq_false,
    if_false, if_true, int_of_uint, hid]
  omega

theorem mission_init_eq (H : Host) (player_missions : List Mission) (c data : Nat)
    (misn : MissionData) (create : Bool) (id c1 : Nat)
    (hgen : mission_genID player_missions c = some (id, c1)) :
    mission_init H player_missions c data misn true create =
      some ((mission_init_script H (mission_init_head H id data) misn create).1,
        (mission_init_script H (mission_init_head H id data) misn create).2.1, c1,
        (mission_init_script H (mission_init_head H id data) misn create).2.2) := by
  simp only [mission_init, hgen, if_true]

theorem mission_init_spec (H : Host) (player_missions : List Mission) (c data : Nat)
    (misn : MissionData) (create : Bool) (h : player_missions.length < 2 ^ 32) :
    ∃ ret m c' ev k,
      mission_init H player_missions c data misn true create = some (ret, m, c', ev) ∧
      (0 ≤ ret → m.data = some data) ∧
      1 ≤ k ∧ k ≤ player_missions.length + 1 ∧ c' = (c + k) % 2 ^ 32 := by
  obtain ⟨id, k, hgen, _, hk1, hk2, hid⟩ := mission_genID_spec player_missions c h
  exact ⟨_, _, _, _, k, mission_init_eq H player_missions c data misn create id id hgen,
    mission_init_script_data H _ misn create, hk1, hk2, hid⟩

theorem mission_init_success (H : Host) (player_missions : List Mission) (c data : Nat)
    (misn : MissionData) (L : LuaTable) (buf : String)
    (hstate : H.nlua_newState = some L) (hread : H.ndata_read misn.lua = some buf)
    (hload : (H.luaL_dobuffer L buf).1 = 0)
    (hcreate : ∀ m : Mission, m.data = some data → (H.script m "create").1 = 0)
    (hc : c + player_missions.length + 1 < 2 ^ 31) :
    ∃ ret m c' ev,
      mission_init H player_missions c data misn true true = some (ret, m, c', ev) ∧
      0 ≤ ret ∧ m.data = some data ∧ c ≤ c' ∧ c' ≤ c + player_missions.length + 1 := by
  have hp : (2 : Nat) ^ 31 = 2147483648 := by norm_num
  have hq : (2 : Nat) ^ 32 = 4294967296 := by norm_num
  obtain ⟨id, k, hgen, _, hk1, hk2, hid⟩ :=
    mission_genID_spec player_missions c (by omega)
  have hidlt : id < 2 ^ 31 := by
    rw [hp] at hc ⊢
    rw [hq] at hid
    omega
  have hret := mission_init_script_success H (mission_init_head H id data) misn L buf
    hstate hread hload hcreate hidlt
  refine ⟨_, _, _, _, mission_init_eq H player_missions c data misn true id id hgen, hret,
    mission_init_script_data H _ misn true hret, ?_, ?_⟩
  · rw [hp] at hc
    rw [hq] at hid
    omega
  · rw [hp] at hc
    rw [hq] at hid
    omega

theorem genList_trial_spec (H : Host) (RNGF : Nat → ℚ) (player_missions : List Mission)
    (i : Nat) (misn : MissionData) (chance : ℚ) (hmax : player_missions.length < 2 ^ 32)
    (st : GenState) :
    ∃ st' l, genList_trial H RNGF player_missions i misn chance st = some st' ∧
      st'.nrng = st.nrng + 1 ∧ st'.tmp = st.tmp ++ l ∧ (∀ m ∈ l, m.data = some i) ∧
      (st.mission_id + (player_missions.length + 1) < 2 ^ 32 →
        st.mission_id ≤ st'.mission_id ∧
          st'.mission_id ≤ st.mission_id + (player_missions.length + 1)) := by
  unfold genList_trial
  by_cases hhit : RNGF st.nrng < chance
  · obtain ⟨ret, m, c', ev, k, hinit, hdata, hk1, hk2, hc'⟩ :=
      mission_init_spec H player_missions st.mission_id i misn true hmax
    rw [if_pos hhit, hinit]
    have hbound : st.mission_id + (player_missions.length + 1) < 2 ^ 32 →
        st.mission_id ≤ c' ∧ c' ≤ st.mission_id + (player_missions.length + 1) := by
      intro hb
      have hq : (2 : Nat) ^ 32 = 4294967296 := by norm_num
      rw [hq] at hb hc'
      omega
    by_cases hret : ret < 0
    · exact ⟨_, [], rfl, rfl, by simp [hret], by simp, hbound⟩
    · refine ⟨_, [m], rfl, rfl, by simp [hret], ?_, hbound⟩
      intro m' hm'
      rw [List.mem_singleton.mp hm']
      exact hdata (by omega)
  · rw [if_neg hhit]
    exact ⟨_, [], rfl, rfl, by simp, by simp,
      fun _ => ⟨Nat.le_refl _, Nat.le_add_right _ _⟩⟩

theorem genList_trials_spec (H : Host) (RNGF : Nat → ℚ) (player_missions : List Mission)
    (i : Nat) (misn : MissionData) (chance : ℚ) (hmax : player_missions.length < 2 ^ 32) :
    ∀ (rep : Nat) (st : GenState),
      ∃ st' l, genList_trials H RNGF player_missions i misn chance rep st = some st' ∧
        st'.nrng = st.nrng + rep ∧ st'.tmp = st.tmp ++ l ∧ (∀ m ∈ l, m.data = some i) ∧
        (st.mission_id + rep * (player_missions.length + 1) < 2 ^ 32 →
          st.mission_id ≤ st'.mission_id ∧
            st'.mission_id ≤ st.mission_id + rep * (player_missions.length + 1)) := by
  intro rep
  induction rep with
  | zero =>
      intro st
      exact ⟨st, [], rfl, rfl, by simp, by simp, fun _ => ⟨Nat.le_refl _, by omega⟩⟩
  | succ rep ih =>
      intro st
      obtain ⟨st1, l1, h1, hn1, ht1, hd1, hb1⟩ :=
        genList_trial_spec H RNGF player_missions i misn chance hmax st
      obtain ⟨st2, l2, h2, hn2, ht2, hd2, hb2⟩ := ih st1
      refine ⟨st2, l1 ++ l2, ?_, by omega, ?_, ?_, ?_⟩
      · simp only [genList_trials, h1, h2]
      · rw [ht2, ht1, List.append_assoc]
      · intro m hm
        rcases List.mem_append.mp hm with hm | hm
        · exact hd1 m hm
        · exact hd2 m hm
      · intro hb
        have hmul : (rep + 1) * (player_missions.length + 1) =
            rep * (player_missions.length + 1) + (player_missions.length + 1) := by ring
        rw [hmul] at hb ⊢
        have hs1 := hb1 (by omega)
        have hs2 := hb2 (by omega)
        omega

theorem genList_template_spec (H : Host) (RNGF : Nat → ℚ)
    (mission_stack : List MissionData) (player_missions : List Mission) (faction : Int)
    (planet sysname : String) (loc : Int) (i : Nat) (misn : MissionData)
    (hmax : player_missions.length < 2 ^ 32) (st : GenState) :
    ∃ st' l, genList_template H RNGF mission_stack player_missions faction planet sysname
        loc i misn st = some st' ∧
      st'.tmp = st.tmp ++ l ∧
      (∀ m ∈ l, m.data = some i ∧ misn.avail.loc = loc ∧
        mission_meetReq H mission_stack player_missions i faction planet sysname ≠ 0) ∧
      (st.mission_id + genList_maxTrials loc [misn] * (player_missions.length + 1) < 2 ^ 32 →
        st.mission_id ≤ st'.mission_id ∧
          st'.mission_id ≤
            st.mission_id + genList_maxTrials loc [misn] * (player_missions.length + 1)) := by
  unfold genList_template
  by_cases hloc : misn.avail.loc = loc
  · by_cases hreq :
        mission_meetReq H mission_stack player_missions i faction planet sysname = 0
    · rw [if_pos hloc, if_pos hreq]
      exact ⟨st, [], rfl, by simp, by simp, fun _ => ⟨Nat.le_refl _, by omega⟩⟩
    · rw [if_pos hloc, if_neg hreq]
      obtain ⟨st', l, h1, _, ht, hd, hb⟩ :=
        genList_trials_spec H RNGF player_missions i misn
          (mission_chance misn.avail.chance) hmax (mission_rep misn.avail.chance) st
      refine ⟨st', l, h1, ht, fun m hm => ⟨hd m hm, hloc, hreq⟩, ?_⟩
      simpa [genList_maxTrials, hloc] using hb
  · rw [if_neg hloc]
    exact ⟨st, [], rfl, by simp, by simp, fun _ => ⟨Nat.le_refl _, by omega⟩⟩

theorem genList_maxTrials_append (loc : Int) (a b : List MissionData) :
    genList_maxTrials loc (a ++ b) = genList_maxTrials loc a + genList_maxTrials loc b := by
  induction a with
  | nil => simp [genList_maxTrials]
  | cons x xs ih => simp [genList_maxTrials, ih, Nat.add_assoc]

theorem genList_loop_spec (H : Host) (RNGF : Nat → ℚ)
    (mission_stack : List MissionData) (player_missions : List Mission) (faction : Int)
    (planet sysname : String) (loc : Int) (hmax : player_missions.length < 2 ^ 32) :
    ∀ (rest : List MissionData) (i : Nat) (st : GenState),
      ∃ st' l, genList_loop H RNGF mission_stack player_missions faction planet sysname
          loc rest i st = some st' ∧
        st'.tmp = st.tmp ++ l ∧
        (∀ m ∈ l, ∃ j misn, i ≤ j ∧ rest[j - i]? = some misn ∧ m.data = some j ∧
          misn.avail.loc = loc ∧
          mission_meetReq H mission_stack player_missions j faction planet sysname ≠ 0) ∧
        (st.mission_id + genList_maxTrials loc rest * (player_missions.length + 1) < 2 ^ 32 →
          st.mission_id ≤ st'.mission_id ∧
            st'.mission_id ≤
              st.mission_id + genList_maxTrials loc rest * (player_missions.length + 1)) := by
  intro rest
  induction rest with
  | nil =>
      intro i st
      exact ⟨st, [], rfl, by simp, by simp,
        fun _ => ⟨Nat.le_refl _, by simp [genList_maxTrials]⟩⟩
  | cons misn rest ih =>
      intro i st
      obtain ⟨st1, l1, h1, ht1, hd1, hb1⟩ :=
        genList_template_spec H RNGF mission_stack player_missions faction planet sysname
          loc i misn hmax st
      obtain ⟨st2, l2, h2, ht2, hd2, hb2⟩ := ih (i + 1) st1
      refine ⟨st2, l1 ++ l2, ?_, ?_, ?_, ?_⟩
      · simp only [genList_loop, h1, h2]
      · rw [ht2, ht1, List.append_assoc]
      · intro m hm
        rcases List.mem_append.mp hm with hm | hm
        · obtain ⟨hda, hlo, hre⟩ := hd1 m hm
          exact ⟨i, misn, Nat.le_refl _, by simp, hda, hlo, hre⟩
        · obtain ⟨j, mj, hij, hget, hda, hlo, hre⟩ := hd2 m hm
          refine ⟨j, mj, by omega, ?_, hda, hlo, hre⟩
          have hji : j - i = (j - (i + 1)) + 1 := by omega
          rw [hji, List.getElem?_cons_succ]
          exact hget
      · intro hb
        have hsplit : genList_maxTrials loc (misn :: rest) =
            genList_maxTrials loc [misn] + genList_maxTrials loc rest :=
          genList_maxTrials_append loc [misn] rest
        rw [hsplit, Nat.add_mul] at hb ⊢
        have hs1 := hb1 (by omega)
        have hs2 := hb2 (by omega)
        omega

theorem genList_loop_append (H : Host) (RNGF : Nat → ℚ)
    (mission_stack : List MissionData) (player_missions : List Mission) (faction : Int)
    (planet sysname : String) (loc : Int) :
    ∀ (a b : List MissionData) (i : Nat) (st : GenState),
      genList_loop H RNGF mission_stack player_missions faction planet sysname loc
          (a ++ b) i st =
        match genList_loop H RNGF mission_stack player_missions faction planet sysname loc
            a i st with
        | none => none
        | some st1 =>
            genList_loop H RNGF mission_stack player_missions faction planet sysname loc
              b (i + a.length) st1 := by
  intro a
  induction a with
  | nil => intro b i st; simp [genList_loop]
  | cons x xs ih =>
      intro b i st
      simp only [List.cons_append, genList_loop, List.length_cons]
      cases genList_template H RNGF mission_stack player_missions faction planet sysname
          loc i x st with
      | none => rfl
      | some st1 =>
          have hl : i + (xs.length + 1) = i + 1 + xs.length := by omega
          rw [hl]
          exact ih b (i + 1) st1

theorem qsort_perm (mission_stack : List MissionData) (tmp : List Mission) :
    (qsort mission_stack tmp).Perm tmp :=
  List.perm_insertionSort _ tmp

theorem mission_get_natCast (mission_stack : List MissionData) (i : Nat) :
    mission_get mission_stack (i : Int) = mission_stack[i]? := by
  unfold mission_get
  by_cases h : i < mission_stack.length
  · have hc : ¬ ((i : Int) < 0 ∨ (i : Int) ≥ (mission_stack.length : Int)) := by omega
    rw [if_neg hc]
    simp
  · have hc : ((i : Int) < 0 ∨ (i : Int) ≥ (mission_stack.length : Int)) := by omega
    rw [if_pos hc]
    exact (List.getElem?_eq_none (by omega)).symm

theorem genList_candidates (H : Host) (RNGF : Nat → ℚ)
    (mission_stack : List MissionData) (player_missions : List Mission) (mission_id : Nat)
    (faction : Int) (planet sysname : String) (loc : Int)
    (hmax : player_missions.length < 2 ^ 32) :
    ∃ st, missions_genList H RNGF mission_stack player_missions mission_id faction planet
        sysname loc = some st ∧
      ∀ m ∈ st.tmp, ∃ j misn, mission_stack[j]? = some misn ∧ m.data = some j ∧
        misn.avail.loc = loc ∧
        mission_meetReq H mission_stack player_missions j faction planet sysname = 1 := by
  obtain ⟨st, l, hloop, htmp, hd, _⟩ :=
    genList_loop_spec H RNGF mission_stack player_missions faction planet sysname loc hmax
      mission_stack 0 { mission_id := mission_id, nrng := 0, tmp := [], events := [] }
  refine ⟨{ st with tmp := qsort mission_stack st.tmp }, ?_, ?_⟩
  · simp only [missions_genList, hloop]
  · intro m hm
    have hm' : m ∈ l := by
      have := (qsort_perm mission_stack st.tmp).mem_iff.mp hm
      simpa [htmp] using this
    obtain ⟨j, misn, _, hget, hda, hlo, hre⟩ := hd m hm'
    refine ⟨j, misn, by simpa using hget, hda, hlo, ?_⟩
    rcases (mission_meetReq_spec H mission_stack player_missions j faction planet sysname).2
      with h1 | h0
    · exact h1
    · exact absurd h0 hre

/-- C4. Uniqueness in generation: for every catalog, active table (of fewer
than `2^32` slots), id counter and sequence of draws, `missions_genList`
returns a list, and no candidate in it points to a template that is marked
unique and is pointed to by a slot of the active table or finished by the
player.  In particular, for a catalog made of one unique template, once a slot
of the active table points to it the returned list has length `0`. -/
theorem genList_unique (H : Host) (RNGF : Nat → ℚ) (mission_stack : List MissionData)
    (player_missions : List Mission) (mission_id : Nat) (faction : Int)
    (planet sysname : String) (loc : Int) (hmax : player_missions.length < 2 ^ 32) :
    (∃ st, missions_genList H RNGF mission_stack player_missions mission_id faction planet
        sysname loc = some st ∧
      ∀ m ∈ st.tmp, ∀ i misn, m.data = some i → mission_stack[i]? = some misn →
        misn.unique = true →
          (∀ p ∈ player_missions, p.data ≠ some i) ∧ H.player_missionAlreadyDone i = 0) ∧
    (∀ T : MissionData, T.unique = true → (∃ p ∈ player_missions, p.data = some 0) →
      ∃ st, missions_genList H RNGF [T] player_missions mission_id faction planet
          sysname loc = some st ∧ st.tmp.length = 0) := by
  constructor
  · obtain ⟨st, hst, hcand⟩ := genList_candidates H RNGF mission_stack player_missions
      mission_id faction planet sysname loc hmax
    refine ⟨st, hst, ?_⟩
    intro m hm i misn hdata hget huniq
    obtain ⟨j, mj, hgetj, hdj, _, hreq⟩ := hcand m hm
    have hij : i = j := by
      rw [hdata] at hdj
      exact Option.some.inj hdj
    subst hij
    obtain ⟨misn', _, hget', _, _, _, hu, _, _⟩ :=
      (mission_meetReq_spec H mission_stack player_missions i faction planet sysname).1.mp hreq
    rw [mission_get_natCast, hget] at hget'
    cases hget'
    rcases hu with hu | ⟨hdone, hrun⟩
    · rw [huniq] at hu
      exact absurd hu (by decide)
    · exact ⟨by simpa using hrun, hdone⟩
  · intro T huniq ⟨p, hp, hpd⟩
    obtain ⟨st, hst, hcand⟩ := genList_candidates H RNGF [T] player_missions
      mission_id faction planet sysname loc hmax
    refine ⟨st, hst, ?_⟩
    cases htmp : st.tmp with
    | nil => rfl
    | cons m rest =>
        exfalso
        obtain ⟨j, mj, hgetj, _, _, hreq⟩ := hcand m (by simp [htmp])
        have hj : j = 0 := by
          cases j with
          | zero => rfl
          | succ n => simp at hgetj
        subst hj
        simp only [List.getElem?_cons_zero, Option.some.injEq] at hgetj
        subst hgetj
        obtain ⟨misn', _, hget', _, _, _, hu, _, _⟩ :=
          (mission_meetReq_spec H [T] player_missions (0 : Nat) faction planet sysname).1.mp hreq
        rw [mission_get_natCast] at hget'
        simp only [List.getElem?_cons_zero, Option.some.injEq] at hget'
        subst hget'
        rcases hu with hu | ⟨_, hrun⟩
        · rw [huniq] at hu
          exact absurd hu (by decide)
        · exact hrun p hp (by simpa using hpd)

/-- Uniqueness in generation at scenario B: `scenarioT` with `scenarioActive`. -/
theorem genList_unique_witness :
    scenarioActive.length < 2 ^ 32 ∧
    (∃ st, missions_genList sampleHost sampleRNGF [scenarioT] scenarioActive 1 0
        "PlanetX" "SysY" 2 = some st ∧
      ∀ m ∈ st.tmp, ∀ i misn, m.data = some i → [scenarioT][i]? = some misn →
        misn.unique = true →
          (∀ p ∈ scenarioActive, p.data ≠ some i) ∧
            sampleHost.player_missionAlreadyDone i = 0) ∧
    (∀ T : MissionData, T.unique = true → (∃ p ∈ scenarioActive, p.data = some 0) →
      ∃ st, missions_genList sampleHost sampleRNGF [T] scenarioActive 1 0
          "PlanetX" "SysY" 2 = some st ∧ st.tmp.length = 0) :=
  ⟨by decide,
    genList_unique sampleHost sampleRNGF [scenarioT] scenarioActive 1 0 "PlanetX" "SysY" 2
      (by decide)⟩

theorem mission_chance_100 : mission_chance 100 = 1 := by decide

theorem mission_rep_100 : mission_rep 100 = 1 := by decide

/-- C7, the code at the failing input. With the id counter at `2^31 - 1`, the
template `scenarioT` of chance `100` passes the Matcher at its location, the
draw `3/5` passes the trial and `mission_init` builds the instance with the
id `2^31`, runs `create` with success and returns that id through `int`, as
`-2^31`; `missions_genList` takes the negative number for a failure and drops
the candidate: the list is empty. -/
theorem genList_chance100_dropped :
    scenarioT.avail.chance = 100 ∧ scenarioT.avail.loc = 2 ∧
    mission_meetReq sampleHost [scenarioT] emptyActive (0 : Nat) 0 "PlanetX" "SysY" = 1 ∧
    (0 ≤ sampleRNGF 0 ∧ sampleRNGF 0 < 1) ∧
    (mission_init sampleHost emptyActive 2147483647 0 scenarioT true true).map
        (fun r => (r.1, r.2.1.id, r.2.1.data, r.2.2.2)) =
      some (-2147483648, 2147483648, some 0,
        [Event.misn_run 2147483648 (some 0) "create"]) ∧
    (missions_genList sampleHost sampleRNGF [scenarioT] emptyActive 2147483647 0 "PlanetX"
        "SysY" 2).map (fun st => st.tmp.map (fun m => m.id)) = some [] := by
  decide

/-- Chance `100` below the sign bit of the id: when template `i` has chance
`100`, its location matches, it passes the Matcher, its script loads and its
`create` entry point succeeds, every draw lies in `[0,1)` and the id counter
cannot reach `2^31` during the call, the list `missions_genList` returns
contains a candidate of template `i`. -/
theorem genList_chance100 (H : Host) (RNGF : Nat → ℚ) (mission_stack : List MissionData)
    (player_missions : List Mission) (mission_id : Nat) (faction : Int)
    (planet sysname : String) (loc : Int) (i : Nat) (misn : MissionData)
    (L : LuaTable) (buf : String)
    (hi : mission_stack[i]? = some misn) (hloc : misn.avail.loc = loc)
    (hchance : misn.avail.chance = 100)
    (hreq : mission_meetReq H mission_stack player_missions i faction planet sysname = 1)
    (hrng : ∀ k, 0 ≤ RNGF k ∧ RNGF k < 1)
    (hstate : H.nlua_newState = some L) (hread : H.ndata_read misn.lua = some buf)
    (hload : (H.luaL_dobuffer L buf).1 = 0)
    (hcreate : ∀ m : Mission, m.data = some i → (H.script m "create").1 = 0)
    (hcount : mission_id +
      genList_maxTrials loc mission_stack * (player_missions.length + 1) < 2 ^ 31) :
    ∃ st, missions_genList H RNGF mission_stack player_missions mission_id faction planet
        sysname loc = some st ∧ ∃ m ∈ st.tmp, m.data = some i := by
  have hp : (2 : Nat) ^ 31 = 2147483648 := by norm_num
  have hq : (2 : Nat) ^ 32 = 4294967296 := by norm_num
  have hilt : i < mission_stack.length := by
    by_contra hge
    rw [List.getElem?_eq_none (by omega)] at hi
    exact Option.noConfusion hi
  have hsplit : mission_stack =
      mission_stack.take i ++ misn :: mission_stack.drop (i + 1) := by
    have hget : mission_stack[i] = misn := by
      rw [List.getElem?_eq_getElem hilt] at hi
      exact Option.some.inj hi
    rw [← hget, ← List.drop_eq_getElem_cons hilt, List.take_append_drop]
  have hlen : (mission_stack.take i).length = i := by
    rw [List.length_take]
    omega
  have htrials : genList_maxTrials loc mission_stack =
      genList_maxTrials loc (mission_stack.take i) + 1 +
        genList_maxTrials loc (mission_stack.drop (i + 1)) := by
    conv_lhs => rw [hsplit]
    rw [genList_maxTrials_append]
    simp only [genList_maxTrials, hloc, if_true, hchance, mission_rep_100]
    omega
  rw [htrials, Nat.add_mul, Nat.add_mul] at hcount
  have hmax : player_missions.length < 2 ^ 32 := by
    rw [hq]
    rw [hp] at hcount
    omega
  obtain ⟨st1, l1, hloop1, htmp1, _, hb1⟩ :=
    genList_loop_spec H RNGF mission_stack player_missions faction planet sysname loc hmax
      (mission_stack.take i) 0
      { mission_id := mission_id, nrng := 0, tmp := [], events := [] }
  have hc1 := hb1 (by
    simp only
    rw [hq]
    rw [hp] at hcount
    omega)
  simp only at hc1
  obtain ⟨ret, m, c', ev, hinit, hret, hdata, _, _⟩ :=
    mission_init_success H player_missions st1.mission_id i misn L buf hstate hread hload
      hcreate (by
        rw [hp]
        rw [hp] at hcount
        omega)
  have htemplate : genList_template H RNGF mission_stack player_missions faction planet
      sysname loc i misn st1 =
      some { mission_id := c', nrng := st1.nrng + 1, tmp := st1.tmp ++ [m],
             events := st1.events ++ ev } := by
    have hne : ¬ mission_meetReq H mission_stack player_missions i faction planet
        sysname = 0 := by
      rw [hreq]
      decide
    simp only [genList_template, hloc, if_true, hne, if_false, hchance, mission_chance_100,
      mission_rep_100, genList_trials, genList_trial, (hrng st1.nrng).2, hinit]
    have hnot : ¬ ret < 0 := by omega
    simp only [hnot, if_false]
  obtain ⟨st3, l3, hloop3, htmp3, _, _⟩ :=
    genList_loop_spec H RNGF mission_stack player_missions faction planet sysname loc hmax
      (mission_stack.drop (i + 1)) (i + 1)
      { mission_id := c', nrng := st1.nrng + 1, tmp := st1.tmp ++ [m],
        events := st1.events ++ ev }
  have hrest : ∀ rest : List MissionData,
      rest = mission_stack.take i ++ misn :: mission_stack.drop (i + 1) →
      genList_loop H RNGF mission_stack player_missions faction planet sysname
        loc rest 0
        { mission_id := mission_id, nrng := 0, tmp := [], events := [] } = some st3 := by
    intro rest hr
    rw [hr, genList_loop_append, hloop1]
    simp only [genList_loop, hlen, Nat.zero_add, htemplate, hloop3]
  have hwhole := hrest mission_stack hsplit
  refine ⟨{ st3 with tmp := qsort mission_stack st3.tmp }, ?_, m, ?_, hdata⟩
  · simp only [missions_genList, hwhole]
  · apply (qsort_perm mission_stack st3.tmp).mem_iff.mpr
    rw [htmp3]
    simp

/-- Scenario A: `scenarioT` of chance `100` with an empty active table. -/
theorem genList_chance100_witness :
    [scenarioT][0]? = some scenarioT ∧ scenarioT.avail.chance = 100 ∧
    mission_meetReq sampleHost [scenarioT] emptyActive (0 : Nat) 0 "PlanetX" "SysY" = 1 ∧
    (∀ k, 0 ≤ sampleRNGF k ∧ sampleRNGF k < 1) ∧
    ∃ st, missions_genList sampleHost sampleRNGF [scenarioT] emptyActive 0 0 "PlanetX"
        "SysY" 2 = some st ∧ ∃ m ∈ st.tmp, m.data = some 0 :=
  have hdraw : 0 ≤ mkRat 3 5 ∧ mkRat 3 5 < 1 := by decide
  ⟨rfl, rfl, by decide, fun _ => hdraw,
    genList_chance100 sampleHost sampleRNGF [scenarioT] emptyActive 0 0 "PlanetX" "SysY" 2
      0 scenarioT [] "" rfl rfl rfl (by decide) (fun _ => hdraw) rfl rfl rfl
      (fun _ _ => rfl) (by decide)⟩

/-! ### Direct start -/

/-- C5, counterexample. With the unique template `T` already pointed to by the
first slot of the active table, `mission_start("T")` returns `0` after running
the `create` entry point of a new instance (id `2`) of `T`. -/
theorem mission_start_unique_counterexample :
    scenarioT.unique = true ∧ (∃ p ∈ scenarioActive, p.data = some 0) ∧
    mission_start sampleHost [scenarioT] scenarioActive 1 "T" =
      some (0, 2, [Event.misn_run 2 (some 0) "create", Event.hook_rmMisnParent 2,
        Event.lua_close]) := by
  decide

theorem mission_init_script_runs_create (H : Host) (mission : Mission)
    (misn : MissionData) (L : LuaTable) (buf : String)
    (hstate : H.nlua_newState = some L) (hread : H.ndata_read misn.lua = some buf)
    (hload : (H.luaL_dobuffer L buf).1 = 0) :
    Event.misn_run mission.id mission.data "create" ∈
      (mission_init_script H mission misn true).2.2 := by
  simp only [mission_init_script, hstate, hread, hload, ne_eq, not_true_eq_false,
    if_false, if_true]
  split_ifs <;> simp [misn_run]

/-- C5, amended. `mission_start(name)` does not consult uniqueness: whenever
the name is in the catalog and the script of the template loads, it returns
`0` after running the `create` entry point of a new instance of that template,
whether or not the template is unique, active or finished; it returns `-1`
without instantiating anything exactly when the name is not in the catalog. -/
theorem mission_start_runs_create (H : Host) (mission_stack : List MissionData)
    (player_missions : List Mission) (mission_id : Nat) (name : String)
    (hmax : player_missions.length < 2 ^ 32) :
    (∀ misn L buf, mission_get mission_stack (mission_getID mission_stack name) = some misn →
      H.nlua_newState = some L → H.ndata_read misn.lua = some buf →
      (H.luaL_dobuffer L buf).1 = 0 →
      ∃ c' ev id, mission_start H mission_stack player_missions mission_id name =
          some (0, c', ev) ∧
        Event.misn_run id (some (mission_getID mission_stack name).toNat) "create" ∈ ev) ∧
    (mission_get mission_stack (mission_getID mission_stack name) = none →
      mission_start H mission_stack player_missions mission_id name =
        some (-1, mission_id, [])) := by
  constructor
  · intro misn L buf hget hstate hread hload
    obtain ⟨id, k, hgen, _, _, _, _⟩ := mission_genID_spec player_missions mission_id hmax
    have hinit := mission_init_eq H player_missions mission_id
      (mission_getID mission_stack name).toNat misn true id id hgen
    have hstart : mission_start H mission_stack player_missions mission_id name =
        some (0, id,
          (mission_init_script H
            (mission_init_head H id (mission_getID mission_stack name).toNat) misn true).2.2 ++
          (mission_cleanup H
            (mission_init_script H
              (mission_init_head H id (mission_getID mission_stack name).toNat)
              misn true).2.1).2) := by
      simp only [mission_start, hget, hinit]
    refine ⟨id, _, id, hstart, ?_⟩
    apply List.mem_append_left
    exact mission_init_script_runs_create H
      (mission_init_head H id (mission_getID mission_stack name).toNat) misn L buf
      hstate hread hload
  · intro hget
    simp only [mission_start, hget]

/-- Direct start of the active unique template `T`, and of the unknown name
`U`, with `scenarioActive`. -/
theorem mission_start_runs_create_witness :
    scenarioActive.length < 2 ^ 32 ∧
    mission_get [scenarioT] (mission_getID [scenarioT] "T") = some scenarioT ∧
    (∃ c' ev id, mission_start sampleHost [scenarioT] scenarioActive 1 "T" =
        some (0, c', ev) ∧
      Event.misn_run id (some (mission_getID [scenarioT] "T").toNat) "create" ∈ ev) ∧
    mission_get [scenarioT] (mission_getID [scenarioT] "U") = none ∧
    mission_start sampleHost [scenarioT] scenarioActive 1 "U" = some (-1, 1, []) :=
  ⟨by decide, by decide,
    (mission_start_runs_create sampleHost [scenarioT] scenarioActive 1 "T"
      (by decide)).1 scenarioT [] "" (by decide) rfl rfl rfl,
    by decide,
    (mission_start_runs_create sampleHost [scenarioT] scenarioActive 1 "U"
      (by decide)).2 (by decide)⟩

/-! ### Capacity -/

theorem land_freeSlot_full :
    ∀ player_missions : List Mission, (∀ m ∈ player_missions, m.data ≠ none) →
      land_freeSlot player_missions = player_missions.length := by
  intro pm
  induction pm with
  | nil => intro _; rfl
  | cons m rest ih =>
      intro h
      have hm : m.data ≠ none := h m (by simp)
      simp [land_freeSlot, hm, ih (fun x hx => h x (by simp [hx]))]

/-- C6. Capacity: when every slot of the active table is occupied (its
template pointer is set), an accept attempt on a candidate of the bar
(`spaceport_bar_approach` with an entry other than the news selected) or of
the mission computer (`misn_accept` with a mission selected) only raises the
alert about too many active missions: no entry point is run, and the active
table and both candidate lists are unchanged. -/
theorem accept_full (H : Host) (g : Land)
    (hfull : ∀ m ∈ g.player_missions, m.data ≠ none) :
    (∀ pos : Int, pos ≠ 0 →
      spaceport_bar_approach H g pos =
        some (g, [Event.dialogue_alert "You have too many active missions."])) ∧
    (∀ (misn_name : String) (yes : Bool) (pos : Int),
      strcmp misn_name "No Missions" ≠ 0 →
      misn_accept H g misn_name yes pos =
        some (g, [Event.dialogue_alert "You have too many active missions."])) := by
  have hslot := land_freeSlot_full g.player_missions hfull
  constructor
  · intro pos hpos
    simp [spaceport_bar_approach, hpos, hslot]
  · intro misn_name yes pos hname
    simp [misn_accept, hname, hslot]

/-- Both accept paths at `fullLand`, whose two slots are occupied. -/
theorem accept_full_witness :
    (∀ m ∈ fullLand.player_missions, m.data ≠ none) ∧
    spaceport_bar_approach sampleHost fullLand 1 =
      some (fullLand, [Event.dialogue_alert "You have too many active missions."]) ∧
    misn_accept sampleHost fullLand "Cargo run" true 0 =
      some (fullLand, [Event.dialogue_alert "You have too many active missions."]) :=
  ⟨by decide, (accept_full sampleHost fullLand (by decide)).1 1 (by decide),
    (accept_full sampleHost fullLand (by decide)).2 "Cargo run" true 0 (by decide)⟩

/-! ### Chance above 100 -/

theorem mission_chance_250 : mission_chance 250 = 1 / 2 := by
  have h : mission_chance 250 = mkRat 1 2 := by decide
  rw [h, Rat.mkRat_eq_div]
  norm_num

theorem mission_rep_250 : mission_rep 250 = 2 := by decide

/-- C8, counterexample. For the eligible template `sampleT250` of chance `250`
and two draws of `3/5`, the generator takes two draws and instantiates nothing,
whereas one trial at threshold `1` and one at threshold `1/2`, in either order,
would instantiate one candidate. -/
theorem chance250_counterexample :
    (genList_template sampleHost sampleRNGF [sampleT250] emptyActive 0 "PlanetX" "SysY" 2
        0 sampleT250 sampleStart).map (fun st => (st.nrng, st.tmp.length)) = some (2, 0) ∧
    ((genList_trial sampleHost sampleRNGF emptyActive 0 sampleT250 1 sampleStart).bind
        (genList_trial sampleHost sampleRNGF emptyActive 0 sampleT250 (mkRat 1 2))).map
      (fun st => (st.nrng, st.tmp.length)) = some (2, 1) ∧
    ((genList_trial sampleHost sampleRNGF emptyActive 0 sampleT250 (mkRat 1 2)
        sampleStart).bind
        (genList_trial sampleHost sampleRNGF emptyActive 0 sampleT250 1)).map
      (fun st => (st.nrng, st.tmp.length)) = some (2, 1) := by
  decide

/-- C8, amended. For an eligible template of chance `250`, one pass of
`missions_genList` over it runs exactly two trials, each taking one draw and
each succeeding when the draw is below `1/2`. -/
theorem chance250_trials (H : Host) (RNGF : Nat → ℚ) (mission_stack : List MissionData)
    (player_missions : List Mission) (faction : Int) (planet sysname : String) (loc : Int)
    (i : Nat) (misn : MissionData) (st : GenState)
    (hchance : misn.avail.chance = 250) (hloc : misn.avail.loc = loc)
    (hreq : mission_meetReq H mission_stack player_missions i faction planet sysname ≠ 0) :
    mission_rep misn.avail.chance = 2 ∧ mission_chance misn.avail.chance = 1 / 2 ∧
    genList_template H RNGF mission_stack player_missions faction planet sysname loc i
        misn st =
      (genList_trial H RNGF player_missions i misn (1 / 2) st).bind
        (genList_trial H RNGF player_missions i misn (1 / 2)) := by
  refine ⟨by rw [hchance]; exact mission_rep_250,
    by rw [hchance]; exact mission_chance_250, ?_⟩
  simp only [genList_template, hloc, if_true, hreq, if_false, hchance, mission_chance_250,
    mission_rep_250, genList_trials]
  cases genList_trial H RNGF player_missions i misn (1 / 2) st with
  | none => rfl
  | some st1 =>
      simp only [Option.some_bind]
      cases genList_trial H RNGF player_missions i misn (1 / 2) st1 <;> rfl

/-- The two trials of `sampleT250` from `sampleStart`. -/
theorem chance250_trials_witness :
    sampleT250.avail.chance = 250 ∧
    mission_meetReq sampleHost [sampleT250] emptyActive (0 : Nat) 0 "PlanetX" "SysY" ≠ 0 ∧
    mission_rep sampleT250.avail.chance = 2 ∧
    mission_chance sampleT250.avail.chance = 1 / 2 ∧
    genList_template sampleHost sampleRNGF [sampleT250] emptyActive 0 "PlanetX" "SysY" 2
        0 sampleT250 sampleStart =
      (genList_trial sampleHost sampleRNGF emptyActive 0 sampleT250 (1 / 2)
        sampleStart).bind
        (genList_trial sampleHost sampleRNGF emptyActive 0 sampleT250 (1 / 2)) :=
  ⟨rfl, by decide,
    chance250_trials sampleHost sampleRNGF [sampleT250] emptyActive 0 "PlanetX" "SysY" 2
      0 sampleT250 sampleStart rfl rfl (by decide)⟩

/-! ### Ordering of the generated list -/

/-- C9, the code at the failing input. With `sampleFirst` of priority `1` and
`sampleSecond` of priority `5`, `mission_compare` returns `+1` and `qsort`
places the priority `5` candidate (id `2`) before the priority `1` candidate
(id `1`). -/
theorem mission_compare_priority_reversed :
    mission_priority samplePriorities sampleFirst = 1 ∧
    mission_priority samplePriorities sampleSecond = 5 ∧
    mission_compare samplePriorities sampleFirst sampleSecond = 1 ∧
    (qsort samplePriorities [sampleFirst, sampleSecond]).map (fun m => m.id) = [2, 1] ∧
    (qsort samplePriorities [sampleSecond, sampleFirst]).map (fun m => m.id) = [2, 1] := by
  decide

/-! ### Cleanup -/

theorem mission_sysMark_loop_append (a b : List Mission) :
    mission_sysMark_loop (a ++ b) = mission_sysMark_loop a ++ mission_sysMark_loop b := by
  induction a with
  | nil => rfl
  | cons m rest ih => simp [mission_sysMark_loop, ih]

/-- C10. Cleanup zeroing: after `mission_cleanup` the instance is the all-zero
instance: id `0`, no template pointer, not accepted, no texts, portrait or
marker, empty cargo list, every timer `0` with no callback, no OSD and no Lua
state; a slot holding it contributes nothing to `mission_sysMark`, whose loop
only looks at slots with a nonzero id. -/
theorem mission_cleanup_zero (H : Host) (misn : Mission) :
    (mission_cleanup H misn).1 = Mission.zero H.MISSION_TIMER_MAX ∧
    (mission_cleanup H misn).1.id = 0 ∧
    (mission_cleanup H misn).1.data = none ∧
    (mission_cleanup H misn).1.accepted = false ∧
    (mission_cleanup H misn).1.title = none ∧
    (mission_cleanup H misn).1.desc = none ∧
    (mission_cleanup H misn).1.reward = none ∧
    (mission_cleanup H misn).1.portrait = none ∧
    (mission_cleanup H misn).1.npc = none ∧
    (mission_cleanup H misn).1.sys_marker = none ∧
    (mission_cleanup H misn).1.sys_markerType = 0 ∧
    (mission_cleanup H misn).1.cargo = [] ∧
    (mission_cleanup H misn).1.timer.length = H.MISSION_TIMER_MAX ∧
    (∀ t ∈ (mission_cleanup H misn).1.timer, t = 0) ∧
    (mission_cleanup H misn).1.tfunc.length = H.MISSION_TIMER_MAX ∧
    (∀ f ∈ (mission_cleanup H misn).1.tfunc, f = none) ∧
    (mission_cleanup H misn).1.osd = 0 ∧
    (mission_cleanup H misn).1.L = none ∧
    (∀ pre post : List Mission,
      mission_sysMark (pre ++ (mission_cleanup H misn).1 :: post) =
        mission_sysMark (pre ++ post)) := by
  refine ⟨rfl, rfl, rfl, rfl, rfl, rfl, rfl, rfl, rfl, rfl, rfl, rfl, ?_, ?_, ?_, ?_, rfl,
    rfl, ?_⟩
  · simp [mission_cleanup, Mission.zero]
  · intro t ht
    simp only [mission_cleanup, Mission.zero] at ht
    exact List.eq_of_mem_replicate ht
  · simp [mission_cleanup, Mission.zero]
  · intro f hf
    simp only [mission_cleanup, Mission.zero] at hf
    exact List.eq_of_mem_replicate hf
  · intro pre post
    simp only [mission_sysMark, mission_sysMark_loop_append]
    simp [mission_sysMark_loop, mission_cleanup, Mission.zero]

/-! ### Catalog lookup -/

theorem mission_getID_loop_spec (name : String) :
    ∀ (stack : List MissionData) (base : Int), 0 ≤ base →
      ((∀ d ∈ stack, d.name ≠ name) ∧ mission_getID_loop stack name base = -1) ∨
      (∃ i : Nat, mission_getID_loop stack name base = base + i ∧
        (∃ d, stack[i]? = some d ∧ d.name = name) ∧
        ∀ j d, j < i → stack[j]? = some d → d.name ≠ name) := by
  intro stack
  induction stack with
  | nil =>
      intro base _
      exact Or.inl ⟨by simp, rfl⟩
  | cons x rest ih =>
      intro base hbase
      by_cases hx : name = x.name
      · refine Or.inr ⟨0, ?_, ⟨x, by simp, hx.symm⟩, ?_⟩
        · simp [mission_getID_loop, (strcmp_eq_zero name x.name).mpr hx]
        · intro j d hj
          omega
      · have hne : ¬ strcmp name x.name = 0 := fun h => hx ((strcmp_eq_zero _ _).mp h)
        rcases ih (base + 1) (by omega) with ⟨hall, hloop⟩ | ⟨i, hloop, ⟨d, hd, hdn⟩, hmin⟩
        · refine Or.inl ⟨?_, by simp [mission_getID_loop, hne, hloop]⟩
          intro d hd
          rcases List.mem_cons.mp hd with rfl | hd
          · exact fun h => hx h.symm
          · exact hall d hd
        · refine Or.inr ⟨i + 1, ?_, ⟨d, by simpa using hd, hdn⟩, ?_⟩
          · simp only [mission_getID_loop, hne, if_false, hloop]
            push_cast
            omega
          · intro j d' hj hd'
            cases j with
            | zero =>
                simp only [List.getElem?_cons_zero, Option.some.injEq] at hd'
                subst hd'
                exact fun h => hx h.symm
            | succ j =>
                simp only [List.getElem?_cons_succ] at hd'
                exact hmin j d' (by omega) hd'

theorem mission_getID_spec (stack : List MissionData) (name : String) :
    ((∀ d ∈ stack, d.name ≠ name) ∧ mission_getID stack name = -1) ∨
    (∃ i : Nat, mission_getID stack name = i ∧
      (∃ d, stack[i]? = some d ∧ d.name = name) ∧
      ∀ j d, j < i → stack[j]? = some d → d.name ≠ name) := by
  have h := mission_getID_loop_spec name stack 0 (Int.le_refl 0)
  simpa [mission_getID] using h

/-- C19. Catalog lookup: `mission_getID` returns the least index whose
template has the given name, and `-1` exactly when no template has that name;
`mission_get` returns the template at an index inside `[0, n)` and nothing at
any other index; so `mission_get (mission_getID name)` is a template with that
name whenever one exists. -/
theorem catalog_lookup (mission_stack : List MissionData) (name : String) :
    (∀ i : Nat, mission_getID mission_stack name = i ↔
      (∃ d, mission_stack[i]? = some d ∧ d.name = name) ∧
        ∀ j d, j < i → mission_stack[j]? = some d → d.name ≠ name) ∧
    (mission_getID mission_stack name = -1 ↔ ∀ d ∈ mission_stack, d.name ≠ name) ∧
    (mission_getID mission_stack name = -1 ∨
      (0 ≤ mission_getID mission_stack name ∧
        mission_getID mission_stack name < mission_stack.length)) ∧
    (∀ i : Nat, i < mission_stack.length →
      ∃ d, mission_get mission_stack i = some d ∧ mission_stack[i]? = some d) ∧
    (∀ i : Int, i < 0 ∨ (mission_stack.length : Int) ≤ i →
      mission_get mission_stack i = none) ∧
    ((∃ d ∈ mission_stack, d.name = name) →
      ∃ d, mission_get mission_stack (mission_getID mission_stack name) = some d ∧
        d.name = name) := by
  have hspec := mission_getID_spec mission_stack name
  refine ⟨?_, ?_, ?_, ?_, ?_, ?_⟩
  · intro i
    constructor
    · intro h
      rcases hspec with ⟨_, hneg⟩ | ⟨k, hk, hd, hmin⟩
      · rw [hneg] at h
        omega
      · have hik : i = k := by
          rw [hk] at h
          exact_mod_cast h.symm
        subst hik
        exact ⟨hd, hmin⟩
    · rintro ⟨⟨d, hd, hdn⟩, hmin⟩
      rcases hspec with ⟨hall, _⟩ | ⟨k, hk, ⟨d', hd', hdn'⟩, hmin'⟩
      · exact absurd hdn (hall d (List.getElem?_mem hd))
      · have hik : i = k := by
          rcases Nat.lt_trichotomy i k with hlt | heq | hgt
          · exact absurd hdn (hmin' i d hlt hd)
          · exact heq
          · exact absurd hdn' (hmin k d' hgt hd')
        rw [hk, hik]
  · constructor
    · intro h
      rcases hspec with ⟨hall, _⟩ | ⟨k, hk, _, _⟩
      · exact hall
      · rw [hk] at h
        omega
    · intro hall
      rcases hspec with ⟨_, hneg⟩ | ⟨k, _, ⟨d, hd, hdn⟩, _⟩
      · exact hneg
      · exact absurd hdn (hall d (List.getElem?_mem hd))
  · rcases hspec with ⟨_, hneg⟩ | ⟨k, hk, ⟨d, hd, _⟩, _⟩
    · exact Or.inl hneg
    · right
      have hlt : k < mission_stack.length := by
        by_contra hge
        rw [List.getElem?_eq_none (by omega)] at hd
        exact Option.noConfusion hd
      rw [hk]
      omega
  · intro i hi
    refine ⟨mission_stack[i], ?_, List.getElem?_eq_getElem hi⟩
    rw [mission_get_natCast, List.getElem?_eq_getElem hi]
  · intro i hi
    unfold mission_get
    rw [if_pos (by omega)]
  · rintro ⟨d, hd, hdn⟩
    rcases hspec with ⟨hall, _⟩ | ⟨k, hk, ⟨d', hd', hdn'⟩, _⟩
    · exact absurd hdn (hall d hd)
    · exact ⟨d', by rw [hk, mission_get_natCast]; exact hd', hdn'⟩

/-! ### Id counter wrap -/

/-- C20, the code at the failing input. With both slots of the active table
holding nonzero ids (`1` and `2`) and the id counter at `2^32 - 1`,
`mission_genID` advances the counter to `0`, finds no slot with that id and
returns `0`. -/
theorem mission_genID_returns_zero :
    fullActive.map (fun m => m.id) = [1, 2] ∧
    mission_genID fullActive 4294967295 = some (0, 0) := by
  decide

/-! ### Cargo -/

/-- C11, the code at the failing input. With a player present and the cargo
list `[10, 11, 12]`, `mission_cleanup` removes the cargo ids `10` and `12` from
the player and never removes `11`: after unlinking `cargo[i]` the loop moves
on to `i + 1` in the shortened list. -/
theorem mission_cleanup_skips_cargo :
    sampleHost.player = true ∧ sampleCargoMission.cargo = [10, 11, 12] ∧
    (mission_cleanup sampleHost sampleCargoMission).2 =
      [Event.hook_rmMisnParent 7, Event.pilot_rmMissionCargo 10,
        Event.pilot_rmMissionCargo 12, Event.lua_close] ∧
    Event.pilot_rmMissionCargo 11 ∉ (mission_cleanup sampleHost sampleCargoMission).2 := by
  decide

/-- C12, counterexample. With the cargo list `[10, 11, 12]`, the second
`mission_unlinkCargo` of `10` returns `1`, the code for a cargo that is not
linked; with the cargo list `[5, 5]`, the second `mission_unlinkCargo` of `5`
returns `0` and changes the cargo list from `[5]` to `[]`. -/
theorem unlinkCargo_twice_counterexample :
    (mission_unlinkCargo sampleCargoMission 10).2 = 0 ∧
    (mission_unlinkCargo (mission_unlinkCargo sampleCargoMission 10).1 10).2 = 1 ∧
    (mission_unlinkCargo sampleTwiceLinked 5).1.cargo = [5] ∧
    (mission_unlinkCargo (mission_unlinkCargo sampleTwiceLinked 5).1 5).1.cargo = [] ∧
    (mission_unlinkCargo (mission_unlinkCargo sampleTwiceLinked 5).1 5).2 = 0 := by
  decide

/-- C12, amended. When the cargo id `c` is linked to the instance at most
once, a second `mission_unlinkCargo` of `c` after a first one leaves the
instance, and so its cargo list, unchanged, and returns `1`, the code for a
cargo that is not linked. -/
theorem unlinkCargo_twice (misn : Mission) (c : Nat) (h : misn.cargo.count c ≤ 1) :
    mission_unlinkCargo (mission_unlinkCargo misn c).1 c =
      ((mission_unlinkCargo misn c).1, 1) := by
  by_cases hc : c ∈ misn.cargo
  · have hnot : c ∉ misn.cargo.erase c := by
      intro hmem
      have hpos : 0 < (misn.cargo.erase c).count c := List.count_pos_iff.mpr hmem
      rw [List.count_erase_self] at hpos
      omega
    simp [mission_unlinkCargo, hc, hnot]
  · simp [mission_unlinkCargo, hc]

/-- The second unlink of `10` from `sampleCargoMission`. -/
theorem unlinkCargo_twice_witness :
    sampleCargoMission.cargo.count 10 ≤ 1 ∧
    mission_unlinkCargo (mission_unlinkCargo sampleCargoMission 10).1 10 =
      ((mission_unlinkCargo sampleCargoMission 10).1, 1) :=
  ⟨by decide, unlinkCargo_twice sampleCargoMission 10 (by decide)⟩

/-! ### Restoring damaged trees -/

theorem lua_gettable_rawset (t : LuaTable) (k : LuaKey) (v : LuaValue) :
    lua_gettable (lua_rawset t k v) k = v := by
  induction t with
  | nil => simp [lua_rawset, lua_gettable]
  | cons e rest ih =>
      obtain ⟨k', v'⟩ := e
      by_cases h : k' = k
      · simp [lua_rawset, lua_gettable, h]
      · simp [lua_rawset, lua_gettable, h, ih]

/-- C16, the code at the failing input. On `sampleHost`, which knows no planet
`Nowhere`, no system `Void`, no faction `Nobody` and no ship `Ghost`, the
lookups give the null pointer, the null pointer, `-1` and, for `ship_get`, the
address one past the two entries of `ship_stack`; restoring `sampleDangling`
into an empty table returns `0` and sets all five keys: the four references
are truthy values, not `nil`. -/
theorem unpersist_dangling_reference :
    sampleHost.planet_get "Nowhere" = none ∧ sampleHost.system_get "Void" = none ∧
    sampleHost.faction_get "Nobody" = -1 ∧ ship_get sampleHost.ship_stack "Ghost" = 2 ∧
    (mission_unpersistDataNode sampleHost sampleDangling []).2 = 0 ∧
    (mission_unpersistDataNode sampleHost sampleDangling []).1.map Prod.fst =
      [.str "dest", .str "sys", .str "fac", .str "shp", .str "count"] ∧
    (mission_unpersistDataNode sampleHost sampleDangling []).1.map
      (fun kv => lua_toboolean kv.2) = [true, true, true, true, true] := by
  decide

/-- No test of the lookup result: for a persisted element of type planet,
system, faction or ship, `mission_unpersistDataNode` sets the key to a
reference holding what the lookup returned, found or not (the null pointer
for an unknown planet or system, the value of `faction_get`, the address
`ship_get` returns), and restores the elements after it into the table so
extended. -/
theorem unpersist_reference_kept (H : Host) (name content : String) (keynum : Bool)
    (children rest : List DataNode) (t : LuaTable) :
    (mission_unpersistDataNode H (.mk "planet" name keynum content children :: rest) t =
      mission_unpersistDataNode H rest
        (lua_settable t (if keynum then .num (H.atof name) else .str name)
          (.planet (H.planet_get content))) ∧
     lua_gettable
        (lua_settable t (if keynum then .num (H.atof name) else .str name)
          (.planet (H.planet_get content)))
        (if keynum then .num (H.atof name) else .str name) =
      .planet (H.planet_get content)) ∧
    (mission_unpersistDataNode H (.mk "system" name keynum content children :: rest) t =
      mission_unpersistDataNode H rest
        (lua_settable t (if keynum then .num (H.atof name) else .str name)
          (.system (H.system_get content))) ∧
     lua_gettable
        (lua_settable t (if keynum then .num (H.atof name) else .str name)
          (.system (H.system_get content)))
        (if keynum then .num (H.atof name) else .str name) =
      .system (H.system_get content)) ∧
    (mission_unpersistDataNode H (.mk "faction" name keynum content children :: rest) t =
      mission_unpersistDataNode H rest
        (lua_settable t (if keynum then .num (H.atof name) else .str name)
          (.faction (H.faction_get content))) ∧
     lua_gettable
        (lua_settable t (if keynum then .num (H.atof name) else .str name)
          (.faction (H.faction_get content)))
        (if keynum then .num (H.atof name) else .str name) =
      .faction (H.faction_get content)) ∧
    (mission_unpersistDataNode H (.mk "ship" name keynum content children :: rest) t =
      mission_unpersistDataNode H rest
        (lua_settable t (if keynum then .num (H.atof name) else .str name)
          (.ship (ship_get H.ship_stack content))) ∧
     lua_gettable
        (lua_settable t (if keynum then .num (H.atof name) else .str name)
          (.ship (ship_get H.ship_stack content)))
        (if keynum then .num (H.atof name) else .str name) =
      .ship (ship_get H.ship_stack content)) := by
  refine ⟨⟨?_, ?_⟩, ⟨?_, ?_⟩, ⟨?_, ?_⟩, ⟨?_, ?_⟩⟩
  · simp [mission_unpersistDataNode, unpersist_value, DataNode.keynum, DataNode.name]
  · simp [lua_settable, lua_gettable_rawset]
  · simp [mission_unpersistDataNode, unpersist_value, DataNode.keynum, DataNode.name]
  · simp [lua_settable, lua_gettable_rawset]
  · simp [mission_unpersistDataNode, unpersist_value, DataNode.keynum, DataNode.name]
  · simp [lua_settable, lua_gettable_rawset]
  · simp [mission_unpersistDataNode, unpersist_value, DataNode.keynum, DataNode.name]
  · simp [lua_settable, lua_gettable_rawset]

theorem unpersist_value_unknown (H : Host) (n : DataNode) (h : n.type ∉ data_types) :
    unpersist_value H n = none := by
  obtain ⟨type, name, keynum, content, children⟩ := n
  simp only [data_types, DataNode.type, List.mem_cons, List.mem_singleton, not_or,
    List.mem_nil_iff, not_false_eq_true, and_true] at h
  obtain ⟨h1, h2, h3, h4, h5, h6, h7, h8⟩ := h
  simp [unpersist_value, h1, h2, h3, h4, h5, h6, h7, h8]

theorem unpersist_value_known (H : Host) (n : DataNode) (h : n.type ∈ data_types) :
    ∃ v, unpersist_value H n = some v := by
  obtain ⟨type, name, keynum, content, children⟩ := n
  simp only [data_types, DataNode.type, List.mem_cons, List.mem_singleton,
    List.mem_nil_iff, or_false] at h
  apply Option.isSome_iff_exists.mp
  rcases h with h | h | h | h | h | h | h | h <;> subst h <;> simp [unpersist_value]

theorem unpersist_stops (H : Host) (bad : DataNode) (post : List DataNode)
    (hbad : bad.type ∉ data_types) :
    ∀ (pre : List DataNode) (t : LuaTable), (∀ n ∈ pre, n.type ∈ data_types) →
      mission_unpersistDataNode H (pre ++ bad :: post) t =
        ((mission_unpersistDataNode H pre t).1, -1) ∧
      (mission_unpersistDataNode H pre t).2 = 0 := by
  intro pre
  induction pre with
  | nil =>
      intro t _
      simp [mission_unpersistDataNode, unpersist_value_unknown H bad hbad]
  | cons n rest ih =>
      intro t hpre
      obtain ⟨v, hv⟩ := unpersist_value_known H n (hpre n (by simp))
      simp only [List.cons_append, mission_unpersistDataNode, hv]
      exact ih _ (fun m hm => hpre m (by simp [hm]))

/-- C17, counterexample. Restoring the three siblings of `sampleUnknown`, the
second of which has the unknown type `colour`, returns `-1` with only the key
`a` of the first sibling set: the key `c` of the third sibling stays unset. -/
theorem unpersist_unknown_counterexample :
    (mission_unpersistDataNode sampleHost sampleUnknown []).2 = -1 ∧
    (mission_unpersistDataNode sampleHost sampleUnknown []).1.map Prod.fst = [.str "a"] ∧
    lua_toboolean
      (lua_gettable (mission_unpersistDataNode sampleHost sampleUnknown []).1 (.str "c")) =
      false := by
  decide

/-- C17, amended. An element with an unrecognised type tag ends the
restoration of its list of siblings: `mission_unpersistDataNode` restores the
siblings before it, sets neither its key nor the key of any sibling after it,
and returns `-1`.  The failure stays inside that list: when the list is the
content of a table element, the table is still set, with what was restored,
and the siblings of the table element are restored. -/
theorem unpersist_unknown_stops (H : Host) (pre post : List DataNode) (bad : DataNode)
    (t : LuaTable) (hpre : ∀ n ∈ pre, n.type ∈ data_types)
    (hbad : bad.type ∉ data_types) :
    mission_unpersistDataNode H (pre ++ bad :: post) t =
      ((mission_unpersistDataNode H pre t).1, -1) ∧
    (mission_unpersistDataNode H pre t).2 = 0 ∧
    (∀ (name content : String) (keynum : Bool) (rest : List DataNode) (outer : LuaTable),
      mission_unpersistDataNode H
          (.mk "table" name keynum content (pre ++ bad :: post) :: rest) outer =
        mission_unpersistDataNode H rest
          (lua_settable outer (if keynum then .num (H.atof name) else .str name)
            (.table (mission_unpersistDataNode H pre []).1))) := by
  refine ⟨(unpersist_stops H bad post hbad pre t hpre).1,
    (unpersist_stops H bad post hbad pre t hpre).2, ?_⟩
  intro name content keynum rest outer
  simp [mission_unpersistDataNode, unpersist_value, DataNode.keynum, DataNode.name,
    (unpersist_stops H bad post hbad pre [] hpre).1]

/-- The siblings of `sampleUnknown`: one before and one after the element of
type `colour`. -/
theorem unpersist_unknown_stops_witness :
    (∀ n ∈ [DataNode.mk "number" "a" false "1" []], n.type ∈ data_types) ∧
    (DataNode.mk "colour" "b" false "red" []).type ∉ data_types ∧
    mission_unpersistDataNode sampleHost
        ([DataNode.mk "number" "a" false "1" []] ++
          DataNode.mk "colour" "b" false "red" [] :: [DataNode.mk "number" "c" false "3" []])
        [] =
      ((mission_unpersistDataNode sampleHost [DataNode.mk "number" "a" false "1" []] []).1,
        -1) :=
  ⟨by decide, by decide,
    (unpersist_unknown_stops sampleHost [DataNode.mk "number" "a" false "1" []]
      [DataNode.mk "number" "c" false "3" []] (DataNode.mk "colour" "b" false "red" []) []
      (by decide) (by decide)).1⟩

/-! ### Abort path -/

/-- C13, counterexample. With an entry-point runner that returns `2` in the
meaning the comment of `mission_accept` documents ("mission got deleted"),
`mission_menu_abort` on the active instance with id `1` of `scenarioActive`
makes no cleanup call of its own and returns with a table in which no slot
holds the id `1`: the active table is not unchanged. -/
theorem mission_menu_abort_deleted :
    (tryRun_deleted scenarioActive 0 "abort").1 = 2 ∧
    scenarioActive.map (fun m => m.id) = [1, 0] ∧
    (mission_menu_abort sampleHost tryRun_deleted scenarioActive true 0).map
        (fun r => (r.1.map (fun m => m.id), r.2)) =
      some ([0, 0],
        [Event.misn_run 1 (some 0) "abort", Event.space_clearMarkers,
          Event.space_clearComputerMarkers, Event.mission_menu_genList]) := by
  decide

/-- C13, amended. Abort path: for an active slot `p`, `mission_menu_abort` runs
the `abort` entry point and, when that returns `2`, makes no cleanup call and
no move of its own: the active table is exactly what the call of the entry
point left (unchanged only if that call changed nothing).  For every other
return value it cleans up the instance in slot `p` of the table the call
left, moves the later slots up and clears the last slot; the table keeps its
length, and no slot holds the id of the instance when that id is not `0` and
no other slot held it. -/
theorem mission_menu_abort_paths (H : Host)
    (misn_tryRun : List Mission → Nat → String → Int × List Mission)
    (player_missions : List Mission) (p : Nat) (misn m1 : Mission)
    (hp : player_missions[p]? = some misn)
    (hp1 : (misn_tryRun player_missions p "abort").2[p]? = some m1) :
    ((misn_tryRun player_missions p "abort").1 = 2 →
      mission_menu_abort H misn_tryRun player_missions true p =
        some ((misn_tryRun player_missions p "abort").2,
          [Event.misn_run misn.id misn.data "abort"] ++
            mission_sysMark (misn_tryRun player_missions p "abort").2 ++
            [Event.mission_menu_genList])) ∧
    ((misn_tryRun player_missions p "abort").1 ≠ 2 →
      mission_menu_abort H misn_tryRun player_missions true p =
        some ((misn_tryRun player_missions p "abort").2.eraseIdx p ++
            [Mission.zero H.MISSION_TIMER_MAX],
          [Event.misn_run misn.id misn.data "abort"] ++ (mission_cleanup H m1).2 ++
            mission_sysMark
              ((misn_tryRun player_missions p "abort").2.eraseIdx p ++
                [Mission.zero H.MISSION_TIMER_MAX]) ++
            [Event.mission_menu_genList]) ∧
      ((misn_tryRun player_missions p "abort").2.eraseIdx p ++
          [Mission.zero H.MISSION_TIMER_MAX]).length =
        (misn_tryRun player_missions p "abort").2.length ∧
      (m1.id ≠ 0 →
        (∀ s ∈ (misn_tryRun player_missions p "abort").2.eraseIdx p, s.id ≠ m1.id) →
        ∀ s ∈ (misn_tryRun player_missions p "abort").2.eraseIdx p ++
            [Mission.zero H.MISSION_TIMER_MAX],
          s.id ≠ m1.id)) := by
  have hlt : p < (misn_tryRun player_missions p "abort").2.length := by
    by_contra hge
    rw [List.getElem?_eq_none (by omega)] at hp1
    exact Option.noConfusion hp1
  have hpos : ¬ ((p : Int) < 0) := by omega
  constructor
  · intro hret
    simp only [mission_menu_abort, if_true, hpos, if_false, Int.toNat_ofNat, hp, hret,
      ne_eq, not_true_eq_false]
  · intro hret
    refine ⟨?_, ?_, ?_⟩
    · simp only [mission_menu_abort, if_true, hpos, if_false, Int.toNat_ofNat, hp, hp1, hret,
        ne_eq, not_false_eq_true]
    · rw [List.length_append, List.length_eraseIdx, if_pos hlt]
      simp only [List.length_singleton]
      omega
    · intro hactive hids s hs
      rcases List.mem_append.mp hs with hs | hs
      · exact hids s hs
      · rw [List.mem_singleton.mp hs]
        exact fun h => hactive h.symm

/-- Aborting the active instance of `scenarioActive` with an `abort` entry
point that returns `0` and leaves the table as it is: the instance is cleaned
up and no slot holds its id `1`. -/
theorem mission_menu_abort_paths_witness :
    scenarioActive[0]? =
      some { Mission.zero 4 with id := 1, data := some 0, accepted := true, L := some [] } ∧
    (tryRun_keep 0 scenarioActive 0 "abort").2[0]? =
      some { Mission.zero 4 with id := 1, data := some 0, accepted := true, L := some [] } ∧
    (tryRun_keep 0 scenarioActive 0 "abort").1 ≠ 2 ∧
    (mission_menu_abort sampleHost (tryRun_keep 0) scenarioActive true 0).map
        (fun r => (r.1.map (fun m => m.id), r.2)) =
      some ([0, 0],
        [Event.misn_run 1 (some 0) "abort", Event.hook_rmMisnParent 1, Event.lua_close,
          Event.space_clearMarkers, Event.space_clearComputerMarkers,
          Event.mission_menu_genList]) ∧
    ∀ s ∈ (tryRun_keep 0 scenarioActive 0 "abort").2.eraseIdx 0 ++
        [Mission.zero sampleHost.MISSION_TIMER_MAX],
      s.id ≠ 1 :=
  ⟨rfl, rfl, by decide, by decide,
    ((mission_menu_abort_paths sampleHost (tryRun_keep 0) scenarioActive 0
      { Mission.zero 4 with id := 1, data := some 0, accepted := true, L := some [] }
      { Mission.zero 4 with id := 1, data := some 0, accepted := true, L := some [] }
      rfl rfl).2 (by decide)).2.2 (by decide) (by decide)⟩

/-! ### Catalog loading -/

theorem missions_load_loop_eq (H : Host) :
    ∀ (nodes : List CatalogNode) (mission_stack : List MissionData),
      missions_load_loop H nodes mission_stack =
        mission_stack ++ (catalog_entries nodes).map (fun e => (mission_parse H e).1) := by
  intro nodes
  induction nodes with
  | nil => intro st; simp [missions_load_loop, catalog_entries]
  | cons n rest ih =>
      intro st
      cases n with
      | mission entry => simp [missions_load_loop, catalog_entries, ih]
      | other name => simp [missions_load_loop, catalog_entries, ih]

theorem mission_parse_flags_name :
    ∀ (fl : List FlagNode) (temp : MissionData),
      (mission_parse_flags fl temp).name = temp.name := by
  intro fl
  induction fl with
  | nil => intro temp; rfl
  | cons f rest ih =>
      intro temp
      cases f with
      | unique => simp [mission_parse_flags, ih]
      | other name => simp [mission_parse_flags, ih]

theorem mission_parse_nodes_name (H : Host) :
    ∀ (nodes : List MissionNode) (temp : MissionData),
      (mission_parse_nodes H nodes temp).name = temp.name := by
  intro nodes
  induction nodes with
  | nil => intro temp; rfl
  | cons n rest ih =>
      intro temp
      cases n with
      | lua text => simp [mission_parse_nodes, ih]
      | flags children => simp [mission_parse_nodes, ih, mission_parse_flags_name]
      | avail children => simp [mission_parse_nodes, ih]
      | other name => simp [mission_parse_nodes, ih]

/-- C18, counterexample. After `missions_load` of `sampleCatalog` the catalog
holds all three templates `A`, `B`, `C` in file order, although `mission_parse`
warns that `A` lacks the script and that `B` has an invalid location and a
chance of `0`. -/
theorem missions_load_keeps_counterexample :
    (missions_load sampleHost "Missions" sampleCatalog).1 = 0 ∧
    (missions_load sampleHost "Missions" sampleCatalog).2.map (fun d => d.name) =
      ["A", "B", "C"] ∧
    (catalog_entries sampleCatalog).map (fun e => (mission_parse sampleHost e).2.1) =
      [["lua"], ["location", "chance"], []] ∧
    (missions_load sampleHost "Missions" sampleCatalog).2.map
        (fun d => (d.lua, d.avail.loc, d.avail.chance)) =
      [(none, 2, 50), (some "dat/missions/b.lua", -1, 0),
        (some "dat/missions/c.lua", 2, 100)] := by
  decide

/-- C18, amended. `missions_load` of a data file with the root `Missions` and
at least one child returns `0` with one template for every `<mission>` element
of the file, in file order, each as `mission_parse` leaves it: an element that
lacks a mandatory field is only warned about and is present in the catalog
like every other. -/
theorem missions_load_keeps_all (H : Host) (nodes : List CatalogNode)
    (hnodes : nodes ≠ []) :
    missions_load H "Missions" nodes =
      (0, (catalog_entries nodes).map (fun e => (mission_parse H e).1)) ∧
    (missions_load H "Missions" nodes).2.length = (catalog_entries nodes).length ∧
    (∀ e ∈ catalog_entries nodes,
      (mission_parse H e).1 ∈ (missions_load H "Missions" nodes).2 ∧
      (mission_parse H e).1.name = e.name ∧ (mission_parse H e).2.2 = 0) := by
  have hroot : strcmp "Missions" "Missions" = 0 := (strcmp_eq_zero _ _).mpr rfl
  have hload : missions_load H "Missions" nodes =
      (0, (catalog_entries nodes).map (fun e => (mission_parse H e).1)) := by
    cases nodes with
    | nil => exact absurd rfl hnodes
    | cons n rest =>
        simp only [missions_load, hroot, ne_eq, not_true_eq_false, if_false]
        rw [missions_load_loop_eq]
        simp
  refine ⟨hload, by rw [hload]; simp, ?_⟩
  intro e he
  refine ⟨by rw [hload]; exact List.mem_map.mpr ⟨e, he, rfl⟩, ?_, rfl⟩
  simp only [mission_parse, mission_parse_nodes_name]

/-- The data file `sampleCatalog`, two of whose three missions lack a mandatory
field. -/
theorem missions_load_keeps_all_witness :
    sampleCatalog ≠ [] ∧
    missions_load sampleHost "Missions" sampleCatalog =
      (0, (catalog_entries sampleCatalog).map (fun e => (mission_parse sampleHost e).1)) ∧
    (missions_load sampleHost "Missions" sampleCatalog).2.length =
      (catalog_entries sampleCatalog).length :=
  ⟨by decide, (missions_load_keeps_all sampleHost sampleCatalog (by decide)).1,
    (missions_load_keeps_all sampleHost sampleCatalog (by decide)).2.1⟩

/-! ### Saving and loading -/

theorem digitChar_spec (d : Nat) (h : d < 10) :
    (Nat.digitChar d).isDigit = true ∧ (Nat.digitChar d).toNat - 48 = d ∧
      Nat.digitChar d ≠ '-' ∧ Nat.digitChar d ≠ '+' ∧
      isspace (Nat.digitChar d) = false := by
  interval_cases d <;> decide

theorem atoi_digits_toDigitsCore :
    ∀ (fuel n : Nat) (ds : List Char), n < fuel →
      ∃ p, ∀ acc, atoi_digits (Nat.toDigitsCore 10 fuel n ds) acc =
        atoi_digits ds (acc * p + n) := by
  intro fuel
  induction fuel with
  | zero => intro n ds h; omega
  | succ fuel ih =>
      intro n ds h
      obtain ⟨hdig, hval, _, _, _⟩ := digitChar_spec (n % 10) (Nat.mod_lt _ (by decide))
      simp only [Nat.toDigitsCore]
      by_cases h0 : n / 10 = 0
      · rw [if_pos h0]
        refine ⟨10, ?_⟩
        intro acc
        simp only [atoi_digits, hdig, if_true, hval]
        congr 1
        omega
      · rw [if_neg h0]
        obtain ⟨p, hp⟩ := ih (n / 10) (Nat.digitChar (n % 10) :: ds) (by omega)
        refine ⟨p * 10, ?_⟩
        intro acc
        rw [hp]
        simp only [atoi_digits, hdig, if_true, hval]
        congr 1
        have := Nat.div_add_mod n 10
        linarith [Nat.mul_assoc acc p 10]

theorem toDigitsCore_head :
    ∀ (fuel n : Nat) (ds : List Char), n < fuel →
      ∃ d cs, d < 10 ∧ Nat.toDigitsCore 10 fuel n ds = Nat.digitChar d :: cs := by
  intro fuel
  induction fuel with
  | zero => intro n ds h; omega
  | succ fuel ih =>
      intro n ds h
      simp only [Nat.toDigitsCore]
      by_cases h0 : n / 10 = 0
      · rw [if_pos h0]
        exact ⟨n % 10, ds, Nat.mod_lt _ (by decide), rfl⟩
      · rw [if_neg h0]
        exact ih (n / 10) _ (by omega)

theorem strtol_value_of_head (c : Char) (cs : List Char) (h1 : c ≠ '-') (h2 : c ≠ '+')
    (h3 : isspace c = false) :
    strtol_value (String.mk (c :: cs)) = (atoi_digits (c :: cs) 0 : Int) := by
  unfold strtol_value
  simp only [skip_space, h3, Bool.false_eq_true, if_false]
  split
  · rename_i heq
    simp only [List.cons.injEq] at heq
    exact absurd heq.1 h1
  · rename_i heq
    simp only [List.cons.injEq] at heq
    exact absurd heq.1 h2
  · rfl

theorem strtol_value_repr (n : Nat) : strtol_value (Nat.repr n) = n := by
  obtain ⟨d, cs, hd, hhead⟩ := toDigitsCore_head (n + 1) n [] (Nat.lt_succ_self n)
  obtain ⟨p, hp⟩ := atoi_digits_toDigitsCore (n + 1) n [] (Nat.lt_succ_self n)
  obtain ⟨_, _, hm, hpl, hsp⟩ := digitChar_spec d hd
  have hrepr : Nat.repr n = String.mk (Nat.digitChar d :: cs) := by
    simp only [Nat.repr, Nat.toDigits, hhead, List.asString]
  rw [hrepr, strtol_value_of_head _ _ hm hpl hsp, ← hhead, hp 0]
  simp [atoi_digits]

theorem strtol_repr (n : Nat) (h : n < 2 ^ 63) : strtol (Nat.repr n) = n := by
  simp only [strtol, strtol_value_repr]
  omega

theorem atoi_repr (n : Nat) (h : n < 2 ^ 31) : atoi (Nat.repr n) = n := by
  simp only [atoi, strtol_repr n (by omega), int_of_long]
  omega

theorem atol_printf_u (n : Nat) (h : n < 2 ^ 32) : uint_of_long (atol (printf_u n)) = n := by
  simp only [uint_of_long, atol, printf_u, Nat.mod_eq_of_lt h, strtol_repr n (by omega)]
  have h2 : ((n : Int)) % 2 ^ 32 = n := Int.emod_eq_of_lt (by omega) (by exact_mod_cast h)
  rw [h2]
  rfl

theorem atoi_printf_d (j : Nat) (h : j < 2 ^ 31) : atoi (printf_d (j : Int)) = j := by
  have hneg : ¬ ((j : Int) < 0) := by omega
  simp only [printf_d, hneg, if_false, Int.toNat_ofNat, atoi_repr j h]

theorem parseActive_cargos_fields :
    ∀ (cargo : List (Option String)) (misn : Mission),
      (parseActive_cargos cargo misn).id = misn.id ∧
      (parseActive_cargos cargo misn).data = misn.data ∧
      (parseActive_cargos cargo misn).accepted = misn.accepted ∧
      (parseActive_cargos cargo misn).L = misn.L := by
  intro cargo
  induction cargo with
  | nil => intro misn; exact ⟨rfl, rfl, rfl, rfl⟩
  | cons c rest ih =>
      intro misn
      simp only [parseActive_cargos]
      obtain ⟨h1, h2, h3, h4⟩ := ih (mission_linkCargo misn (uint_of_long (xml_getLong c))).1
      exact ⟨h1, h2, h3, h4⟩

theorem parseActive_timers_some (H : Host) :
    ∀ (timer : List TimerNode) (misn : Mission),
      timer.all (loadable_timer H) = true →
      ∃ m1, parseActive_timers H timer misn = some m1 ∧ m1.id = misn.id ∧
        m1.data = misn.data ∧ m1.accepted = misn.accepted ∧ m1.L = misn.L := by
  intro timer
  induction timer with
  | nil => intro misn _; exact ⟨misn, rfl, rfl, rfl, rfl, rfl⟩
  | cons t rest ih =>
      intro misn hall
      simp only [List.all_cons, Bool.and_eq_true] at hall
      obtain ⟨ht, hrest⟩ := hall
      cases hid : t.id with
      | none => simp [loadable_timer, hid] at ht
      | some buf =>
          simp only [loadable_timer, hid, decide_eq_true_eq] at ht
          simp only [parseActive_timers, hid, ht, and_self, if_true]
          obtain ⟨m1, h0, h1, h2, h3, h4⟩ := ih
            { misn with
                timer := misn.timer.set (atoi buf).toNat (xml_getFloat H t.text)
                tfunc := misn.tfunc.set (atoi buf).toNat t.func } hrest
          exact ⟨m1, h0, h1, h2, h3, h4⟩

theorem parseActive_child_some (H : Host) (S : SaveHost) (misn : Mission)
    (c : MissionChild) (hc : loadable_child H c = true)
    (hL : misn.L.isSome = H.nlua_newState.isSome) :
    ∃ m1, parseActive_child H S misn c = some m1 ∧ m1.id = misn.id ∧
      m1.data = misn.data ∧ m1.accepted = misn.accepted ∧
      m1.L.isSome = H.nlua_newState.isSome := by
  cases c with
  | title text => exact ⟨_, rfl, rfl, rfl, rfl, hL⟩
  | desc text => exact ⟨_, rfl, rfl, rfl, rfl, hL⟩
  | reward text => exact ⟨_, rfl, rfl, rfl, rfl, hL⟩
  | marker type text => exact ⟨_, rfl, rfl, rfl, rfl, hL⟩
  | cargos cargo =>
      obtain ⟨h1, h2, h3, h4⟩ := parseActive_cargos_fields cargo misn
      exact ⟨_, rfl, h1, h2, h3, by rw [h4]; exact hL⟩
  | timers timer =>
      obtain ⟨m1, h0, h1, h2, h3, h4⟩ := parseActive_timers_some H timer misn hc
      exact ⟨m1, h0, h1, h2, h3, by rw [h4]; exact hL⟩
  | osd nitems title msg =>
      cases nitems with
      | none => exact ⟨misn, rfl, rfl, rfl, rfl, hL⟩
      | some buf =>
          simp only [loadable_child, Bool.and_eq_true, decide_eq_true_eq] at hc
          refine ⟨{ misn with
              osd := S.osd_create title (atoi buf)
                ((parseActive_msgs msg (atoi buf) 0).map Prod.snd) }, ?_, rfl, rfl, rfl, hL⟩
          simp only [parseActive_child, parseActive_osd, hc, and_self, if_true]
  | lua data =>
      simp only [loadable_child] at hc
      rw [← hL] at hc
      cases hLm : misn.L with
      | none => simp [hLm] at hc
      | some L =>
          exact ⟨{ misn with L := some (mission_unpersistData H data L).1 },
            by simp only [parseActive_child, hLm], rfl, rfl, rfl, by rw [← hL, hLm]; rfl⟩
  | other name => exact ⟨misn, rfl, rfl, rfl, rfl, hL⟩

theorem parseActive_children_some (H : Host) (S : SaveHost) :
    ∀ (children : List MissionChild) (misn : Mission),
      children.all (loadable_child H) = true →
      misn.L.isSome = H.nlua_newState.isSome →
      ∃ m1, parseActive_children H S children misn = some m1 ∧ m1.id = misn.id ∧
        m1.data = misn.data ∧ m1.accepted = misn.accepted := by
  intro children
  induction children with
  | nil => intro misn _ _; exact ⟨misn, rfl, rfl, rfl, rfl⟩
  | cons c rest ih =>
      intro misn hall hL
      simp only [List.all_cons, Bool.and_eq_true] at hall
      obtain ⟨m1, h0, h1, h2, h3, h4⟩ := parseActive_child_some H S misn c hall.1 hL
      obtain ⟨m2, g0, g1, g2, g3⟩ := ih m1 hall.2 h4
      refine ⟨m2, ?_, by rw [g1, h1], by rw [g2, h2], by rw [g3, h3]⟩
      simp only [parseActive_children, h0, g0]

theorem mission_init_script_load (H : Host) (mission : Mission) (misn : MissionData)
    (hL : mission.L = none) :
    (mission_init_script H mission misn false).2.1.id = mission.id ∧
    (mission_init_script H mission misn false).2.1.data = mission.data ∧
    (mission_init_script H mission misn false).2.1.L.isSome = H.nlua_newState.isSome := by
  unfold mission_init_script
  cases H.nlua_newState with
  | none => simp [hL]
  | some L =>
      cases H.ndata_read misn.lua with
      | none => simp
      | some buf =>
          simp only [Bool.false_eq_true, if_false]
          split_ifs <;> simp

theorem parseActive_mission_some (H : Host) (S : SaveHost) (idx : Nat)
    (data : MissionData) (e : SavedMission) (hload : loadable H e = true) :
    ∃ misn buf, (∀ (player_missions : List Mission) (mission_id : Nat),
        parseActive_mission H S player_missions mission_id idx data e = some misn) ∧
      e.id = some buf ∧ misn.id = uint_of_long (atol buf) ∧ misn.data = some idx ∧
      misn.accepted = true := by
  simp only [loadable, Bool.and_eq_true] at hload
  obtain ⟨⟨_, hid⟩, hch⟩ := hload
  cases hbuf : e.id with
  | none => simp [hbuf] at hid
  | some buf =>
      obtain ⟨h1, h2, h3⟩ := mission_init_script_load H (mission_init_head H 0 idx) data rfl
      obtain ⟨m1, g0, g1, g2, g3⟩ := parseActive_children_some H S e.children
        { (mission_init_script H (mission_init_head H 0 idx) data false).2.1 with
            accepted := true, id := uint_of_long (atol buf) } hch h3
      refine ⟨m1, buf, ?_, rfl, g1, ?_, g3⟩
      · intro pm c
        simp only [parseActive_mission, mission_init, Bool.false_eq_true, if_false, hbuf, g0]
      · rw [g2]
        exact h2

theorem list_set_append_cons {α : Type} (y x : α) (post : List α) :
    ∀ pre : List α, (pre ++ y :: post).set pre.length x = pre ++ x :: post := by
  intro pre
  induction pre with
  | nil => rfl
  | cons a rest ih => simp [ih]

theorem parseActive_entry_skip (H : Host) (S : SaveHost) (mission_stack : List MissionData)
    (e : SavedMission) (name : String) (hname : e.data = some name)
    (hget : mission_get mission_stack (mission_getID mission_stack name) = none)
    (player_missions : List Mission) (mission_id : Nat) :
    parseActive_entry H S mission_stack player_missions mission_id e = some none := by
  simp only [parseActive_entry, hname, hget]

theorem parseActive_entry_found (H : Host) (S : SaveHost) (mission_stack : List MissionData)
    (e : SavedMission) (name : String) (data : MissionData) (hname : e.data = some name)
    (hget : mission_get mission_stack (mission_getID mission_stack name) = some data)
    (hload : loadable H e = true) :
    ∃ misn,
      (∀ (player_missions : List Mission) (mission_id : Nat),
        parseActive_entry H S mission_stack player_missions mission_id e =
          some (some misn)) ∧
      misn.accepted = true ∧
      (∃ buf, e.id = some buf ∧ misn.id = uint_of_long (atol buf)) ∧
      (∃ name data, e.data = some name ∧
        mission_get mission_stack (mission_getID mission_stack name) = some data ∧
        misn.data = some (mission_getID mission_stack name).toNat) := by
  obtain ⟨misn, buf, hparse, hid, hmid, hdata, hacc⟩ :=
    parseActive_mission_some H S (mission_getID mission_stack name).toNat data e hload
  refine ⟨misn, ?_, hacc, ⟨buf, hid, hmid⟩, ⟨name, data, hname, hget, hdata⟩⟩
  intro pm c
  simp only [parseActive_entry, hname, hget, hparse pm c, Option.map_some']

theorem parseActive_loop_spec (H : Host) (S : SaveHost) (mission_stack : List MissionData)
    (mission_id : Nat) :
    ∀ (nodes : List MissionsNode) (pre post : List Mission),
      (∀ e ∈ saved_missions nodes, e.data ≠ none) →
      (∀ e ∈ saved_missions nodes, saved_found mission_stack e = true →
        loadable H e = true) →
      ((saved_missions nodes).filter (saved_found mission_stack)).length ≤ post.length →
      ∃ restored,
        parseActive_loop H S mission_stack mission_id nodes pre.length (pre ++ post) =
          some (pre ++ restored ++ post.drop restored.length) ∧
        List.Forall₂
          (fun e misn =>
            (∀ (player_missions : List Mission) (c : Nat),
              parseActive_entry H S mission_stack player_missions c e =
                some (some misn)) ∧
            misn.accepted = true ∧
            (∃ buf, e.id = some buf ∧ misn.id = uint_of_long (atol buf)) ∧
            (∃ name data, e.data = some name ∧
              mission_get mission_stack (mission_getID mission_stack name) = some data ∧
              misn.data = some (mission_getID mission_stack name).toNat))
          ((saved_missions nodes).filter (saved_found mission_stack)) restored := by
  intro nodes
  induction nodes with
  | nil =>
      intro pre post _ _ _
      exact ⟨[], by simp [parseActive_loop], by simp [saved_missions]⟩
  | cons n rest ih =>
      intro pre post hdata hload hlen
      cases n with
      | other name =>
          simp only [saved_missions] at hdata hload hlen ⊢
          simp only [parseActive_loop]
          exact ih pre post hdata hload hlen
      | mission e =>
          simp only [saved_missions, List.mem_cons, forall_eq_or_imp] at hdata hload hlen
          simp only [saved_missions]
          obtain ⟨he, hdata⟩ := hdata
          obtain ⟨hle, hload⟩ := hload
          cases hname : e.data with
          | none => exact absurd hname he
          | some name =>
              cases hget : mission_get mission_stack (mission_getID mission_stack name) with
              | none =>
                  have hnf : saved_found mission_stack e = false := by
                    simp [saved_found, hname, hget]
                  rw [List.filter_cons_of_neg (by simp [hnf])] at hlen ⊢
                  simp only [parseActive_loop,
                    parseActive_entry_skip H S mission_stack e name hname hget]
                  exact ih pre post hdata hload hlen
              | some data =>
                  have hf : saved_found mission_stack e = true := by
                    simp [saved_found, hname, hget]
                  rw [List.filter_cons_of_pos hf] at hlen ⊢
                  obtain ⟨misn, hentry, hrest⟩ :=
                    parseActive_entry_found H S mission_stack e name data hname hget (hle hf)
                  cases post with
                  | nil => simp at hlen
                  | cons y post1 =>
                      simp only [List.length_cons, Nat.add_le_add_iff_right] at hlen
                      have hlt : pre.length < (pre ++ y :: post1).length := by simp
                      simp only [parseActive_loop, hentry, hlt, if_true,
                        list_set_append_cons]
                      by_cases hfull : pre.length + 1 ≥ (pre ++ y :: post1).length
                      · have hp1 : post1 = [] := by
                          simp only [List.length_append, List.length_cons] at hfull
                          exact List.eq_nil_of_length_eq_zero (by omega)
                        subst hp1
                        have hnil : (saved_missions rest).filter (saved_found mission_stack)
                            = [] := List.eq_nil_of_length_eq_zero (by simpa using hlen)
                        rw [if_pos hfull, hnil]
                        exact ⟨[misn], by simp, List.Forall₂.cons ⟨hentry, hrest⟩ List.Forall₂.nil⟩
                      · rw [if_neg hfull]
                        obtain ⟨r, hloop, hall⟩ := ih (pre ++ [misn]) post1 hdata hload hlen
                        refine ⟨misn :: r, ?_, List.Forall₂.cons ⟨hentry, hrest⟩ hall⟩
                        have hl : (pre ++ [misn]).length = pre.length + 1 := by simp
                        rw [hl] at hloop
                        simpa using hloop

theorem saveActive_timers_loadable (H : Host) (S : SaveHost) (misn : Mission)
    (hK : H.MISSION_TIMER_MAX ≤ 2 ^ 31) :
    ∀ (n j : Nat) (ts : List TimerNode), saveActive_timers S misn n j = some ts →
      j + n ≤ H.MISSION_TIMER_MAX → ts.all (loadable_timer H) = true := by
  intro n
  induction n with
  | zero =>
      intro j ts h _
      simp only [saveActive_timers, Option.some.injEq] at h
      subst h
      rfl
  | succ n ih =>
      intro j ts h hj
      simp only [saveActive_timers] at h
      split at h
      · rename_i t f _ _
        split_ifs at h
        · cases hf : f with
          | none => simp [hf] at h
          | some func =>
              cases hrest : saveActive_timers S misn n (j + 1) with
              | none => simp [hf, hrest] at h
              | some rest =>
                  simp only [hf, hrest, Option.some.injEq] at h
                  subst h
                  have hrec := ih (j + 1) rest hrest (by omega)
                  have hlt : (j : Int) < (H.MISSION_TIMER_MAX : Int) := by omega
                  simp [loadable_timer, atoi_printf_d j (by omega), hrec, hlt]
        · exact ih (j + 1) ts h (by omega)
      · exact Option.noConfusion h

theorem saveActive_msgs_length :
    ∀ (items : List String) (msgs : List (Option String)),
      saveActive_msgs items = some msgs → msgs.length = items.length := by
  intro items
  induction items with
  | nil =>
      intro msgs h
      simp only [saveActive_msgs, Option.some.injEq] at h
      subst h
      rfl
  | cons s rest ih =>
      intro msgs h
      simp only [saveActive_msgs] at h
      split at h
      · rename_i t r _ hr
        simp only [Option.some.injEq] at h
        subst h
        simp [ih r hr]
      · exact Option.noConfusion h

theorem parseActive_msgs_full :
    ∀ (msg : List (Option String)) (nitems i : Int), i + msg.length ≤ nitems →
      (parseActive_msgs msg nitems i).length = msg.length ∧
      (parseActive_msgs msg nitems i).all (fun st => decide (st.1 < nitems)) = true := by
  intro msg
  induction msg with
  | nil => intro n i _; exact ⟨rfl, rfl⟩
  | cons m rest ih =>
      intro n i h
      simp only [List.length_cons, Nat.cast_add, Nat.cast_one] at h
      have hgt : ¬ (i > n) := by omega
      obtain ⟨h1, h2⟩ := ih n (i + 1) (by omega)
      have hlt : i < n := by omega
      simp [parseActive_msgs, hgt, h1, h2, hlt]

theorem saveActive_osd_loadable (H : Host) (S : SaveHost) (misn : Mission)
    (cs : List MissionChild) (h : saveActive_osd S misn = some cs)
    (hosd : ∀ items, S.osd_getItems misn.osd = some items → items.length < 2 ^ 31) :
    cs.all (loadable_child H) = true := by
  unfold saveActive_osd at h
  split_ifs at h
  · split at h
    · rename_i items title hitems _
      have hbound := hosd items hitems
      cases hm : saveActive_msgs items with
      | none => simp [hm] at h
      | some msgs =>
          simp only [hm, Option.map_some', Option.some.injEq] at h
          subst h
          have hlen := saveActive_msgs_length items msgs hm
          obtain ⟨h1, h2⟩ := parseActive_msgs_full msgs (items.length : Int) 0
            (by rw [hlen]; omega)
          simp [loadable_child, atoi_printf_d items.length hbound, h1, h2, hlen]
    · exact Option.noConfusion h
  · simp only [Option.some.injEq] at h
    subst h
    rfl

theorem saveActive_marker_loadable (H : Host) (misn : Mission) (cs : List MissionChild)
    (h : saveActive_marker misn = some cs) : cs.all (loadable_child H) = true := by
  unfold saveActive_marker at h
  split at h
  · simp only [Option.some.injEq] at h
    subst h
    rfl
  · rename_i sys _
    cases hf : xmlw_format (some sys) with
    | none => simp [hf] at h
    | some t =>
        simp only [hf, Option.map_some', Option.some.injEq] at h
        subst h
        rfl

theorem saveActive_mission_spec (H : Host) (S : SaveHost) (mission_stack : List MissionData)
    (misn : Mission) (e : SavedMission)
    (h : saveActive_mission H S mission_stack misn = some e)
    (hstate : H.nlua_newState.isSome = true)
    (hK : H.MISSION_TIMER_MAX ≤ 2 ^ 31)
    (hosd : ∀ items, S.osd_getItems misn.osd = some items → items.length < 2 ^ 31) :
    ∃ d data, misn.data = some d ∧ mission_stack[d]? = some data ∧
      e.data = xmlw_attr data.name ∧ e.id = some (printf_u misn.id) ∧
      loadable H e = true := by
  unfold saveActive_mission at h
  cases hd : misn.data with
  | none => simp [hd] at h
  | some d =>
      cases hs : mission_stack[d]? with
      | none => simp [hd, hs] at h
      | some data =>
          simp only [hd, hs] at h
          split at h
          · rename_i title desc reward marker timers osd L _ _ _ hmarker htimers hosd1 _
            split at h
            · rename_i name lua hattr _
              simp only [Option.some.injEq] at h
              subst h
              refine ⟨d, data, rfl, hs, hattr.symm, rfl, ?_⟩
              have h1 := saveActive_marker_loadable H misn marker hmarker
              have h2 := saveActive_timers_loadable H S misn hK _ 0 timers htimers (by omega)
              have h3 := saveActive_osd_loadable H S misn osd hosd1 hosd
              simp [loadable, loadable_child, h1, h2, h3, hstate]
            · exact Option.noConfusion h
          · exact Option.noConfusion h

theorem saveActive_loop_spec (H : Host) (S : SaveHost) (mission_stack : List MissionData) :
    ∀ (player_missions : List Mission) (ch : List MissionsNode),
      saveActive_loop H S mission_stack player_missions = some ch →
      (∀ e ∈ saved_missions ch, ∃ m ∈ player_missions, m.id ≠ 0 ∧
        saveActive_mission H S mission_stack m = some e) ∧
      (∀ m ∈ player_missions, m.id ≠ 0 →
        ∃ e ∈ saved_missions ch, saveActive_mission H S mission_stack m = some e) ∧
      (saved_missions ch).length ≤ player_missions.length := by
  intro pm
  induction pm with
  | nil =>
      intro ch h
      simp only [saveActive_loop, Option.some.injEq] at h
      subst h
      simp [saved_missions]
  | cons m rest ih =>
      intro ch h
      simp only [saveActive_loop] at h
      split_ifs at h with hid
      · split at h
        · rename_i e r he hr
          simp only [Option.some.injEq] at h
          subst h
          obtain ⟨h1, h2, h3⟩ := ih r hr
          refine ⟨?_, ?_, ?_⟩
          · intro e1 he1
            simp only [saved_missions, List.mem_cons] at he1
            rcases he1 with rfl | he1
            · exact ⟨m, by simp, hid, he⟩
            · obtain ⟨m1, hm1, hne, hs⟩ := h1 e1 he1
              exact ⟨m1, by simp [hm1], hne, hs⟩
          · intro m1 hm1 hne
            rcases List.mem_cons.mp hm1 with rfl | hm1
            · exact ⟨e, by simp [saved_missions], he⟩
            · obtain ⟨e1, he1, hs⟩ := h2 m1 hm1 hne
              exact ⟨e1, by simp [saved_missions, he1], hs⟩
          · simp only [saved_missions, List.length_cons]
            omega
        · exact Option.noConfusion h
      · obtain ⟨h1, h2, h3⟩ := ih ch h
        refine ⟨?_, ?_, ?_⟩
        · intro e1 he1
          obtain ⟨m1, hm1, hne, hs⟩ := h1 e1 he1
          exact ⟨m1, by simp [hm1], hne, hs⟩
        · intro m1 hm1 hne
          rcases List.mem_cons.mp hm1 with rfl | hm1
          · exact absurd (not_not.mp hid) hne
          · exact h2 m1 hm1 hne
        · simp only [List.length_cons]
          omega

theorem forall2_mem_left {α β : Type} {R : α → β → Prop} :
    ∀ {l1 : List α} {l2 : List β}, List.Forall₂ R l1 l2 → ∀ a ∈ l1, ∃ b ∈ l2, R a b := by
  intro l1 l2 h
  induction h with
  | nil => intro a ha; simp at ha
  | cons hab _ ih =>
      intro a ha
      rcases List.mem_cons.mp ha with rfl | ha
      · exact ⟨_, by simp, hab⟩
      · obtain ⟨b, hb, hr⟩ := ih a ha
        exact ⟨b, by simp [hb], hr⟩

theorem saved_found_iff (mission_stack : List MissionData) (e : SavedMission)
    (name : String) (hname : e.data = some name) :
    saved_found mission_stack e = true ↔ ∃ d ∈ mission_stack, d.name = name := by
  simp only [saved_found, hname]
  rcases mission_getID_spec mission_stack name with ⟨hall, hneg⟩ | ⟨i, hi, ⟨d, hd, hdn⟩, _⟩
  · have hnone : mission_get mission_stack (mission_getID mission_stack name) = none := by
      rw [hneg]
      unfold mission_get
      rw [if_pos (by omega)]
    rw [hnone]
    constructor
    · intro h
      exact absurd h (by simp)
    · rintro ⟨d, hd, hdn⟩
      exact absurd hdn (hall d hd)
  · rw [hi, mission_get_natCast, hd]
    constructor
    · intro _
      exact ⟨d, List.getElem?_mem hd, hdn⟩
    · intro _
      rfl

theorem missions_cleanup_length (H : Host) (player_missions : List Mission) :
    (missions_cleanup H player_missions).1.length = player_missions.length := by
  simp [missions_cleanup]

/-- C15. Loading skips unknown templates only: for a `missions` element whose
`mission` children all carry the `data` attribute, are at most as many as the
active table has slots and, where the template name is found in the catalog,
are loadable, `missions_parseActive` returns `0` and the table it leaves is the
instances restored from the children whose template name is found, in saved
order, in the slots from `0` on, followed by the untouched remaining slots.
Each restored instance is what its own element alone determines, with
`accepted` set, the id of the `id` attribute and the template found by the
name; each element whose template name is not found is skipped, whatever the
table is. -/
theorem parseActive_skips_unknown (H : Host) (S : SaveHost)
    (mission_stack : List MissionData) (player_missions : List Mission) (mission_id : Nat)
    (parent : List MissionsNode)
    (hdata : ∀ e ∈ saved_missions parent, e.data ≠ none)
    (hload : ∀ e ∈ saved_missions parent, saved_found mission_stack e = true →
      loadable H e = true)
    (hmax : (saved_missions parent).length ≤ player_missions.length) :
    ∃ restored,
      missions_parseActive H S mission_stack player_missions mission_id parent =
        some (0, restored ++ player_missions.drop restored.length) ∧
      List.Forall₂
        (fun e misn =>
          (∀ (pm : List Mission) (c : Nat),
            parseActive_entry H S mission_stack pm c e = some (some misn)) ∧
          misn.accepted = true ∧
          (∃ buf, e.id = some buf ∧ misn.id = uint_of_long (atol buf)) ∧
          (∃ name data, e.data = some name ∧
            mission_get mission_stack (mission_getID mission_stack name) = some data ∧
            misn.data = some (mission_getID mission_stack name).toNat))
        ((saved_missions parent).filter (saved_found mission_stack)) restored ∧
      (∀ e ∈ saved_missions parent, saved_found mission_stack e = false →
        ∀ (pm : List Mission) (c : Nat),
          parseActive_entry H S mission_stack pm c e = some none) ∧
      (∀ e ∈ saved_missions parent, ∀ name, e.data = some name →
        (saved_found mission_stack e = true ↔ ∃ d ∈ mission_stack, d.name = name)) := by
  have hlen : ((saved_missions parent).filter (saved_found mission_stack)).length ≤
      player_missions.length :=
    Nat.le_trans (List.length_filter_le _ _) hmax
  obtain ⟨restored, hloop, hall⟩ :=
    parseActive_loop_spec H S mission_stack mission_id parent [] player_missions hdata hload
      hlen
  refine ⟨restored, ?_, hall, ?_, ?_⟩
  · simp only [List.length_nil, List.nil_append] at hloop
    simp only [missions_parseActive, hloop, Option.map_some']
  · intro e he hnf pm c
    cases hname : e.data with
    | none => exact absurd hname (hdata e he)
    | some name =>
        have hget : mission_get mission_stack (mission_getID mission_stack name) = none := by
          simp only [saved_found, hname] at hnf
          cases hg : mission_get mission_stack (mission_getID mission_stack name) with
          | none => rfl
          | some d => simp [hg] at hnf
        exact parseActive_entry_skip H S mission_stack e name hname hget pm c
  · intro e _ name hname
    exact saved_found_iff mission_stack e name hname

/-- Loading `sampleSection` into `emptyActive3`: the first and the third
mission are restored into the slots `0` and `1`, the second is skipped. -/
theorem parseActive_skips_unknown_witness :
    (∀ e ∈ saved_missions sampleSection, e.data ≠ none) ∧
    (∀ e ∈ saved_missions sampleSection, saved_found scenarioCatalog e = true →
      loadable sampleHost e = true) ∧
    (saved_missions sampleSection).length ≤ emptyActive3.length ∧
    ((saved_missions sampleSection).map (fun e => saved_found scenarioCatalog e) =
      [true, false, true]) ∧
    ∃ restored,
      missions_parseActive sampleHost sampleSaveHost scenarioCatalog emptyActive3 0
          sampleSection =
        some (0, restored ++ emptyActive3.drop restored.length) ∧
      restored.length = 2 :=
  ⟨by decide, by decide, by decide, by decide,
    (parseActive_skips_unknown sampleHost sampleSaveHost scenarioCatalog emptyActive3 0
      sampleSection (by decide) (by decide) (by decide)).elim
      (fun restored h => ⟨restored, h.1, by rw [← h.2.1.length_eq]; decide⟩)⟩

theorem loadActive_one (H : Host) (S : SaveHost) (mission_stack : List MissionData)
    (player_missions table : List Mission) (mission_id : Nat) (ch : List MissionsNode)
    (h : missions_parseActive H S mission_stack (missions_cleanup H player_missions).1
      mission_id ch = some (0, table)) :
    (missions_loadActive H S mission_stack player_missions mission_id
      [SaveNode.missions ch]).map (fun r => (r.1, r.2.1)) = some (0, table) := by
  simp [missions_loadActive, loadActive_loop, h]

/-- C14, the code at the failing input. The accepted instance with id `9` of
the unique template `samplePercent`, whose name is `50%% off`:
`missions_saveActive` returns `0` and writes the `mission` element with the
`data` attribute `50% off`, the name having been handed to `xmlw_attr` as the
format; `missions_loadActive` of that element into the empty table returns
`0`, finds no template of that name and restores nothing, so that no slot has
`accepted` set or holds the id `9`, and `mission_meetReq` accepts the
template. -/
theorem save_load_percent_name :
    samplePercent.unique = true ∧
    missions_saveActive sampleHost sampleSaveHost [samplePercent] percentSaved =
      some (0, percentSection) ∧
    mission_getID [samplePercent] "50% off" = -1 ∧
    (missions_loadActive sampleHost sampleSaveHost [samplePercent] emptyActive 0
        [percentSection]).map (fun r => (r.1, r.2.1)) = some (0, emptyActive) ∧
    emptyActive.map (fun m => (m.id, m.accepted, m.data)) =
      [(0, false, none), (0, false, none)] ∧
    mission_meetReq sampleHost [samplePercent] emptyActive (0 : Nat) 0 "PlanetX" "SysY" = 1 :=
  ⟨rfl, rfl, by decide, rfl, rfl, by decide⟩

/-- Scenario C for a template name without printf directive: when
`missions_saveActive` saves an active table whose slot `i` holds an instance
with a nonzero 32-bit id of the unique template `T` (the template the catalog
returns for its name, a name that `xmlw_attr` writes unchanged), then
`missions_loadActive` of the saved element into a table of as many slots, with
a Lua state available for every restored instance, returns `0` and leaves a
table of which one slot has `accepted` set, the saved id and the template `T`;
with that table `mission_meetReq` rejects `T` for every faction, planet and
system. -/
theorem save_load_unique (H : Host) (S : SaveHost) (mission_stack : List MissionData)
    (player_missions table0 : List Mission) (mission_id : Nat) (saved : SaveNode)
    (i : Nat) (misn : Mission) (t : Nat) (T : MissionData)
    (hsave : missions_saveActive H S mission_stack player_missions = some (0, saved))
    (hstate : H.nlua_newState.isSome = true)
    (hlen : table0.length = player_missions.length)
    (hslot : player_missions[i]? = some misn) (hid : misn.id ≠ 0) (hid32 : misn.id < 2 ^ 32)
    (hdata : misn.data = some t) (hT : mission_stack[t]? = some T)
    (huniq : T.unique = true) (hname : mission_getID mission_stack T.name = t)
    (hattr : xmlw_attr T.name = some T.name)
    (hK : H.MISSION_TIMER_MAX ≤ 2 ^ 31)
    (hosd : ∀ m ∈ player_missions, ∀ items,
      S.osd_getItems m.osd = some items → items.length < 2 ^ 31) :
    ∃ table,
      (missions_loadActive H S mission_stack table0 mission_id [saved]).map
          (fun r => (r.1, r.2.1)) = some (0, table) ∧
      table.length = player_missions.length ∧
      (∃ slot ∈ table, slot.accepted = true ∧ slot.id = misn.id ∧ slot.data = some t) ∧
      ∀ (faction : Int) (planet sysname : String),
        mission_meetReq H mission_stack table t faction planet sysname = 0 := by
  unfold missions_saveActive at hsave
  cases hloop : saveActive_loop H S mission_stack player_missions with
  | none => simp [hloop] at hsave
  | some ch =>
      simp only [hloop, Option.map_some', Option.some.injEq, Prod.mk.injEq, true_and]
        at hsave
      subst hsave
      obtain ⟨h1, h2, h3⟩ := saveActive_loop_spec H S mission_stack player_missions ch hloop
      have hspec : ∀ e ∈ saved_missions ch, e.data ≠ none ∧ loadable H e = true := by
        intro e he
        obtain ⟨m, hmem, _, hm⟩ := h1 e he
        obtain ⟨d, data, _, _, _, _, hl⟩ :=
          saveActive_mission_spec H S mission_stack m e hm hstate hK (hosd m hmem)
        have hsome : e.data.isSome = true := by
          simp only [loadable, Bool.and_eq_true] at hl
          exact hl.1.1
        exact ⟨fun hnone => by rw [hnone] at hsome; exact absurd hsome (by decide), hl⟩
      have hclen := missions_cleanup_length H table0
      obtain ⟨restored, hparse, hall⟩ :=
        parseActive_loop_spec H S mission_stack mission_id ch []
          (missions_cleanup H table0).1 (fun e he => (hspec e he).1)
          (fun e he _ => (hspec e he).2)
          (by
            rw [hclen, hlen]
            exact Nat.le_trans (List.length_filter_le _ _) h3)
      simp only [List.length_nil, List.nil_append] at hparse
      have hrlen : restored.length ≤ player_missions.length := by
        rw [← hall.length_eq]
        exact Nat.le_trans (List.length_filter_le _ _) h3
      obtain ⟨e, he, hme⟩ := h2 misn (List.getElem?_mem hslot) hid
      obtain ⟨d, data, hmd, hsd, hed, heid, _⟩ :=
        saveActive_mission_spec H S mission_stack misn e hme hstate hK
          (hosd misn (List.getElem?_mem hslot))
      have hdt : d = t := by
        rw [hdata] at hmd
        exact (Option.some.inj hmd).symm
      subst hdt
      have hTd : data = T := by
        rw [hT] at hsd
        exact (Option.some.inj hsd).symm
      subst hTd
      rw [hattr] at hed
      have hgetT : mission_get mission_stack (d : Int) = some data := by
        rw [mission_get_natCast]
        exact hT
      have hfound : saved_found mission_stack e = true := by
        simp [saved_found, hed, hname, hgetT]
      obtain ⟨slot, hslotmem, _, hacc, ⟨buf, hbuf, hsid⟩, ⟨name, data1, hn, _, hsdata⟩⟩ :=
        forall2_mem_left hall e (List.mem_filter.mpr ⟨he, hfound⟩)
      have hbufeq : buf = printf_u misn.id := by
        rw [heid] at hbuf
        exact (Option.some.inj hbuf).symm
      have hneq : name = data.name := by
        rw [hed] at hn
        exact (Option.some.inj hn).symm
      subst hbufeq
      subst hneq
      rw [atol_printf_u misn.id hid32] at hsid
      rw [hname, Int.toNat_ofNat] at hsdata
      have hmem : slot ∈ restored ++ (missions_cleanup H table0).1.drop restored.length :=
        List.mem_append_left _ hslotmem
      refine ⟨restored ++ (missions_cleanup H table0).1.drop restored.length, ?_, ?_,
        ⟨slot, hmem, hacc, hsid, hsdata⟩, ?_⟩
      · apply loadActive_one
        simp only [missions_parseActive, hparse, Option.map_some']
      · rw [List.length_append, List.length_drop, hclen, hlen]
        omega
      · intro faction planet sysname
        have hreq := mission_meetReq_spec H mission_stack
          (restored ++ (missions_cleanup H table0).1.drop restored.length) (d : Int) faction
          planet sysname
        rcases hreq.2 with hone | hzero
        · obtain ⟨m1, _, hget1, _, _, _, hu, _, _⟩ := hreq.1.mp hone
          rw [hgetT] at hget1
          have hm1 : data = m1 := Option.some.inj hget1
          subst hm1
          rcases hu with hu | ⟨_, hu⟩
          · rw [huniq] at hu
            exact absurd hu (by decide)
          · exact absurd hsdata (by simpa using hu slot hmem)
        · exact hzero

/-- Scenario C on `scenarioSaved`: saving writes `scenarioSection`, and loading
it into `emptyActive` restores the instance with id `9` of the unique template
`scenarioT`. -/
theorem save_load_unique_witness :
    missions_saveActive sampleHost sampleSaveHost scenarioCatalog scenarioSaved =
      some (0, scenarioSection) ∧
    scenarioT.unique = true ∧
    ∃ table,
      (missions_loadActive sampleHost sampleSaveHost scenarioCatalog emptyActive 0
          [scenarioSection]).map (fun r => (r.1, r.2.1)) = some (0, table) ∧
      table.length = scenarioSaved.length ∧
      (∃ slot ∈ table, slot.accepted = true ∧ slot.id = 9 ∧ slot.data = some 0) ∧
      ∀ (faction : Int) (planet sysname : String),
        mission_meetReq sampleHost scenarioCatalog table 0 faction planet sysname = 0 :=
  ⟨rfl, rfl,
    save_load_unique sampleHost sampleSaveHost scenarioCatalog scenarioSaved emptyActive 0
      scenarioSection 1
      { Mission.zero 4 with id := 9, data := some 0, accepted := true, title := some "Haul", desc := some "Bring it.", reward := some "100 credits", cargo := [3], timer := [0, 5, 0, 0], tfunc := [none, some "late", none, none], L := some [(.str "count", .number 42)] }
      0 scenarioT rfl rfl rfl rfl (by decide) (by decide) rfl rfl rfl (by decide) rfl
      (by decide) (fun _ _ _ h => Option.noConfusion h)⟩

/-! ### Trial formula -/

theorem mission_rep_natCast (c : Nat) : mission_rep (c : Int) = max 1 (c / 100) := by
  have h : Int.tdiv (c : Int) 100 = ((c / 100 : Nat) : Int) := by
    rw [Int.tdiv_eq_ediv (by omega) (by decide)]
    rfl
  simp only [mission_rep, h]
  omega

theorem mission_chance_natCast (c : Nat) :
    mission_chance (c : Int) =
      if c % 100 = 0 then 1 else ((c % 100 : Nat) : ℚ) / 100 := by
  have h : Int.tmod (c : Int) 100 = ((c % 100 : Nat) : Int) := by
    rw [Int.tmod_eq_emod (by omega) (by decide)]
    rfl
  simp only [mission_chance, h, Rat.mkRat_eq_div, Int.cast_natCast, Nat.cast_ofNat]
  by_cases h0 : c % 100 = 0
  · simp [h0]
  · have hne : ((c % 100 : Nat) : ℚ) / 100 ≠ 0 := by
      apply div_ne_zero
      · exact_mod_cast h0
      · norm_num
    rw [if_neg hne, if_neg h0]

theorem genList_trials_hits (H : Host) (RNGF : Nat → ℚ) (player_missions : List Mission)
    (i : Nat) (misn : MissionData) (chance : ℚ) (hmax : player_missions.length < 2 ^ 32) :
    ∀ (rep : Nat) (st : GenState),
      ∃ st' l, genList_trials H RNGF player_missions i misn chance rep st = some st' ∧
        st'.nrng = st.nrng + rep ∧ st'.tmp = st.tmp ++ l ∧
        l.length ≤ trial_hits RNGF chance rep st.nrng ∧
        trial_hits RNGF chance rep st.nrng ≤ rep ∧
        (trial_hits RNGF chance rep st.nrng = 0 → st' = { st with nrng := st.nrng + rep }) := by
  intro rep
  induction rep with
  | zero =>
      intro st
      exact ⟨st, [], rfl, rfl, by simp, by simp [trial_hits], by simp [trial_hits],
        fun _ => rfl⟩
  | succ rep ih =>
      intro st
      by_cases hhit : RNGF st.nrng < chance
      · obtain ⟨st1, l1, h1, hn1, ht1, _, _⟩ :=
          genList_trial_spec H RNGF player_missions i misn chance hmax st
        have hl1 : l1.length ≤ 1 := by
          unfold genList_trial at h1
          rw [if_pos hhit] at h1
          obtain ⟨ret, m, c1, ev, _, hinit, _⟩ :=
            mission_init_spec H player_missions st.mission_id i misn true hmax
          rw [hinit] at h1
          simp only [Option.some.injEq] at h1
          subst h1
          simp only at ht1
          by_cases hret : ret < 0
          · rw [if_pos hret] at ht1
            have : l1 = [] := by simpa using ht1
            simp [this]
          · rw [if_neg hret] at ht1
            have : l1 = [m] := (List.append_cancel_left ht1).symm
            simp [this]
        obtain ⟨st2, l2, h2, hn2, ht2, hl2, hb2, _⟩ := ih st1
        refine ⟨st2, l1 ++ l2, ?_, by omega, ?_, ?_, ?_, ?_⟩
        · simp only [genList_trials, h1, h2]
        · rw [ht2, ht1, List.append_assoc]
        · simp only [trial_hits, hhit, if_true, List.length_append]
          rw [hn1] at hl2
          omega
        · simp only [trial_hits, hhit, if_true]
          rw [hn1] at hb2
          omega
        · intro h0
          simp only [trial_hits, hhit, if_true] at h0
          omega
      · have h1 : genList_trial H RNGF player_missions i misn chance st =
            some { st with nrng := st.nrng + 1 } := by
          simp only [genList_trial, hhit, if_false]
        obtain ⟨st2, l2, h2, hn2, ht2, hl2, hb2, hz2⟩ := ih { st with nrng := st.nrng + 1 }
        refine ⟨st2, l2, ?_, ?_, ht2, ?_, ?_, ?_⟩
        · simp only [genList_trials, h1, h2]
        · rw [hn2]
          simp only
          omega
        · simpa [trial_hits, hhit] using hl2
        · have : trial_hits RNGF chance rep (st.nrng + 1) ≤ rep := hb2
          simp only [trial_hits, hhit, if_false]
          omega
        · intro h0
          simp only [trial_hits, hhit, if_false, Nat.zero_add] at h0
          rw [hz2 h0]
          simp only [GenState.mk.injEq, true_and, and_true]
          omega

/-- C21. Trial formula: for a template of chance `c >= 0` whose location
matches and which the Matcher accepts, one pass of `missions_genList` over it
runs `max(1, c / 100)` trials with the threshold `(c mod 100) / 100`, or `1`
when that is `0`: it takes that many draws; a trial whose draw is not below the
threshold changes nothing but the draw count, a trial whose draw is below it
calls `mission_init` and keeps the candidate unless the return code is
negative; the candidates added are at most as many as the draws below the
threshold, which are at most `max(1, c / 100)`. -/
theorem genList_trial_formula (H : Host) (RNGF : Nat → ℚ)
    (mission_stack : List MissionData) (player_missions : List Mission) (faction : Int)
    (planet sysname : String) (loc : Int) (i : Nat) (misn : MissionData) (c : Nat)
    (st : GenState) (hchance : misn.avail.chance = (c : Int)) (hloc : misn.avail.loc = loc)
    (hreq : mission_meetReq H mission_stack player_missions i faction planet sysname ≠ 0)
    (hmax : player_missions.length < 2 ^ 32) :
    mission_rep misn.avail.chance = max 1 (c / 100) ∧
    mission_chance misn.avail.chance =
      (if c % 100 = 0 then 1 else ((c % 100 : Nat) : ℚ) / 100) ∧
    genList_template H RNGF mission_stack player_missions faction planet sysname loc i
        misn st =
      genList_trials H RNGF player_missions i misn (mission_chance misn.avail.chance)
        (max 1 (c / 100)) st ∧
    (∀ (chance : ℚ) (st1 : GenState), ¬ RNGF st1.nrng < chance →
      genList_trial H RNGF player_missions i misn chance st1 =
        some { st1 with nrng := st1.nrng + 1 }) ∧
    (∀ (chance : ℚ) (st1 : GenState), RNGF st1.nrng < chance →
      genList_trial H RNGF player_missions i misn chance st1 =
        (mission_init H player_missions st1.mission_id i misn true true).map
          (fun r =>
            { mission_id := r.2.2.1, nrng := st1.nrng + 1,
              tmp := if r.1 < 0 then st1.tmp else st1.tmp ++ [r.2.1],
              events := st1.events ++ r.2.2.2 })) ∧
    ∃ st' l,
      genList_template H RNGF mission_stack player_missions faction planet sysname loc i
          misn st = some st' ∧
      st'.nrng = st.nrng + max 1 (c / 100) ∧ st'.tmp = st.tmp ++ l ∧
      l.length ≤
        trial_hits RNGF (mission_chance misn.avail.chance) (max 1 (c / 100)) st.nrng ∧
      trial_hits RNGF (mission_chance misn.avail.chance) (max 1 (c / 100)) st.nrng ≤
        max 1 (c / 100) := by
  have hrep : mission_rep misn.avail.chance = max 1 (c / 100) := by
    rw [hchance]
    exact mission_rep_natCast c
  have htemplate : genList_template H RNGF mission_stack player_missions faction planet
      sysname loc i misn st =
      genList_trials H RNGF player_missions i misn (mission_chance misn.avail.chance)
        (max 1 (c / 100)) st := by
    simp only [genList_template, hloc, if_true, hreq, if_false, hrep]
  refine ⟨hrep, by rw [hchance]; exact mission_chance_natCast c, htemplate, ?_, ?_, ?_⟩
  · intro chance st1 hmiss
    simp only [genList_trial, hmiss, if_false]
  · intro chance st1 hhit
    simp only [genList_trial, hhit, if_true]
    cases mission_init H player_missions st1.mission_id i misn true true with
    | none => rfl
    | some r => rfl
  · obtain ⟨st', l, h, hn, ht, hl, hb, _⟩ :=
      genList_trials_hits H RNGF player_missions i misn (mission_chance misn.avail.chance)
        hmax (max 1 (c / 100)) st
    exact ⟨st', l, by rw [htemplate]; exact h, hn, ht, hl, hb⟩

/-- The template `sampleT250` of chance `250` at the bar: two trials at the
threshold `1/2`. -/
theorem genList_trial_formula_witness :
    sampleT250.avail.chance = ((250 : Nat) : Int) ∧
    mission_meetReq sampleHost [sampleT250] emptyActive (0 : Nat) 0 "PlanetX" "SysY" ≠ 0 ∧
    emptyActive.length < 2 ^ 32 ∧
    mission_rep sampleT250.avail.chance = max 1 (250 / 100) ∧
    mission_chance sampleT250.avail.chance =
      (if 250 % 100 = 0 then 1 else ((250 % 100 : Nat) : ℚ) / 100) :=
  ⟨rfl, by decide, by decide,
    (genList_trial_formula sampleHost sampleRNGF [sampleT250] emptyActive 0 "PlanetX" "SysY"
      2 0 sampleT250 250 sampleStart rfl rfl (by decide) (by decide)).1,
    (genList_trial_formula sampleHost sampleRNGF [sampleT250] emptyActive 0 "PlanetX" "SysY"
      2 0 sampleT250 250 sampleStart rfl rfl (by decide) (by decide)).2.1⟩

/-! ### One-shot missions -/

theorem run_template_trial (H : Host) (RNGF : Nat → ℚ) (mission_stack : List MissionData)
    (player_missions : List Mission) (faction : Int) (planet sysname : String) (loc : Int)
    (i : Nat) (misn : MissionData) (st : RunState) (gst : GenState)
    (hid : st.mission_id = gst.mission_id) (hrng : st.nrng = gst.nrng)
    (hloc : misn.avail.loc = loc)
    (hreq : mission_meetReq H mission_stack player_missions i faction planet sysname ≠ 0) :
    (run_template H RNGF mission_stack player_missions faction planet sysname loc i misn
        st).map (fun s => (s.mission_id, s.nrng)) =
      (genList_trial H RNGF player_missions i misn (mission_chance misn.avail.chance)
        gst).map (fun s => (s.mission_id, s.nrng)) := by
  simp only [run_template, hloc, if_true, hreq, if_false, genList_trial, hid, hrng]
  by_cases hhit : RNGF gst.nrng < mission_chance misn.avail.chance
  · rw [if_pos hhit, if_pos hhit]
    cases mission_init H player_missions gst.mission_id i misn true true with
    | none => rfl
    | some r => rfl
  · rw [if_neg hhit, if_neg hhit]
    simp [hid]

theorem run_template_skip (H : Host) (RNGF : Nat → ℚ) (mission_stack : List MissionData)
    (player_missions : List Mission) (faction : Int) (planet sysname : String) (loc : Int)
    (i : Nat) (misn : MissionData) (st : RunState) (gst : GenState)
    (hskip : misn.avail.loc ≠ loc ∨
      mission_meetReq H mission_stack player_missions i faction planet sysname = 0) :
    run_template H RNGF mission_stack player_missions faction planet sysname loc i misn st =
      some st ∧
    genList_template H RNGF mission_stack player_missions faction planet sysname loc i misn
      gst = some gst := by
  rcases hskip with hloc | hreq
  · simp only [run_template, genList_template, hloc, if_false, and_self]
  · by_cases hloc : misn.avail.loc = loc
    · simp only [run_template, genList_template, hloc, hreq, if_true, and_self]
    · simp only [run_template, genList_template, hloc, if_false, and_self]

theorem run_loop_genList (H : Host) (RNGF : Nat → ℚ) (mission_stack : List MissionData)
    (player_missions : List Mission) (faction : Int) (planet sysname : String)
    (loc : Int) :
    ∀ (rest : List MissionData) (i : Nat) (st : RunState) (gst : GenState),
      st.mission_id = gst.mission_id → st.nrng = gst.nrng →
      (∀ misn ∈ rest, misn.avail.loc = loc → mission_rep misn.avail.chance = 1) →
      (run_loop H RNGF mission_stack player_missions faction planet sysname loc rest i
          st).map (fun s => (s.mission_id, s.nrng)) =
        (genList_loop H RNGF mission_stack player_missions faction planet sysname loc rest
          i gst).map (fun s => (s.mission_id, s.nrng)) := by
  intro rest
  induction rest with
  | nil =>
      intro i st gst hid hrng _
      simp [run_loop, genList_loop, hid, hrng]
  | cons misn rest ih =>
      intro i st gst hid hrng hrep
      simp only [run_loop, genList_loop]
      by_cases hel : misn.avail.loc = loc ∧
          mission_meetReq H mission_stack player_missions i faction planet sysname ≠ 0
      · have htrial := run_template_trial H RNGF mission_stack player_missions faction
          planet sysname loc i misn st gst hid hrng hel.1 hel.2
        have hgen : genList_template H RNGF mission_stack player_missions faction planet
            sysname loc i misn gst =
            genList_trial H RNGF player_missions i misn (mission_chance misn.avail.chance)
              gst := by
          simp only [genList_template, hel.1, if_true, hel.2, if_false,
            hrep misn (by simp) hel.1, genList_trials]
          cases genList_trial H RNGF player_missions i misn
            (mission_chance misn.avail.chance) gst <;> rfl
        rw [hgen]
        cases hr : run_template H RNGF mission_stack player_missions faction planet sysname
            loc i misn st with
        | none =>
            rw [hr] at htrial
            cases hg : genList_trial H RNGF player_missions i misn
                (mission_chance misn.avail.chance) gst with
            | none => rfl
            | some g1 => rw [hg] at htrial; simp at htrial
        | some s1 =>
            rw [hr] at htrial
            cases hg : genList_trial H RNGF player_missions i misn
                (mission_chance misn.avail.chance) gst with
            | none => rw [hg] at htrial; simp at htrial
            | some g1 =>
                rw [hg] at htrial
                simp only [Option.map_some', Option.some.injEq, Prod.mk.injEq] at htrial
                exact ih (i + 1) s1 g1 htrial.1 htrial.2
                  (fun m hm => hrep m (by simp [hm]))
      · have hskip : misn.avail.loc ≠ loc ∨
            mission_meetReq H mission_stack player_missions i faction planet sysname = 0 := by
          by_cases hloc : misn.avail.loc = loc
          · exact Or.inr (by_contra (fun h => hel ⟨hloc, h⟩))
          · exact Or.inl hloc
        obtain ⟨h1, h2⟩ := run_template_skip H RNGF mission_stack player_missions faction
          planet sysname loc i misn st gst hskip
        rw [h1, h2]
        exact ih (i + 1) st gst hid hrng (fun m hm => hrep m (by simp [hm]))

/-- C22, counterexample. For the catalog of the one template `sampleT250` of
chance `250`, which the Matcher accepts at the bar, and draws of `3/5`,
`missions_genList` takes two draws and `missions_run` takes one. -/
theorem missions_run_counterexample :
    mission_meetReq sampleHost [sampleT250] emptyActive (0 : Nat) 0 "PlanetX" "SysY" = 1 ∧
    (missions_genList sampleHost sampleRNGF [sampleT250] emptyActive 0 0 "PlanetX" "SysY"
        2).map (fun s => s.nrng) = some 2 ∧
    (missions_run sampleHost sampleRNGF [sampleT250] emptyActive 0 2 0 "PlanetX"
        "SysY").map (fun s => s.nrng) = some 1 := by
  decide

/-- C22, amended. `missions_run` looks at the same templates as
`missions_genList` (those of the location that the Matcher accepts) and uses
the same success threshold, but runs one trial for each of them where
`missions_genList` runs `max(1, chance / 100)`: a template that one of them
skips is skipped by the other, an accepted template gets in `missions_run`
what one trial of `missions_genList` does to the id counter and the draws, and
when every template of the location has one trial in `missions_genList`, the
two calls take the same number of draws and leave the same id counter. -/
theorem missions_run_one_trial (H : Host) (RNGF : Nat → ℚ)
    (mission_stack : List MissionData) (player_missions : List Mission) (mission_id : Nat)
    (faction : Int) (planet sysname : String) (loc : Int) :
    (∀ (i : Nat) (misn : MissionData) (st : RunState) (gst : GenState),
      (misn.avail.loc ≠ loc ∨
        mission_meetReq H mission_stack player_missions i faction planet sysname = 0) →
      run_template H RNGF mission_stack player_missions faction planet sysname loc i misn
          st = some st ∧
        genList_template H RNGF mission_stack player_missions faction planet sysname loc i
          misn gst = some gst) ∧
    (∀ (i : Nat) (misn : MissionData) (st : RunState) (gst : GenState),
      st.mission_id = gst.mission_id → st.nrng = gst.nrng → misn.avail.loc = loc →
      mission_meetReq H mission_stack player_missions i faction planet sysname ≠ 0 →
      (run_template H RNGF mission_stack player_missions faction planet sysname loc i misn
          st).map (fun s => (s.mission_id, s.nrng)) =
        (genList_trial H RNGF player_missions i misn (mission_chance misn.avail.chance)
          gst).map (fun s => (s.mission_id, s.nrng)) ∧
      genList_template H RNGF mission_stack player_missions faction planet sysname loc i
          misn gst =
        genList_trials H RNGF player_missions i misn (mission_chance misn.avail.chance)
          (mission_rep misn.avail.chance) gst) ∧
    ((∀ misn ∈ mission_stack, misn.avail.loc = loc → mission_rep misn.avail.chance = 1) →
      (missions_run H RNGF mission_stack player_missions mission_id loc faction planet
          sysname).map (fun s => (s.mission_id, s.nrng)) =
        (missions_genList H RNGF mission_stack player_missions mission_id faction planet
          sysname loc).map (fun s => (s.mission_id, s.nrng))) := by
  refine ⟨?_, ?_, ?_⟩
  · intro i misn st gst hskip
    exact run_template_skip H RNGF mission_stack player_missions faction planet sysname loc
      i misn st gst hskip
  · intro i misn st gst hid hrng hloc hreq
    refine ⟨run_template_trial H RNGF mission_stack player_missions faction planet sysname
      loc i misn st gst hid hrng hloc hreq, ?_⟩
    simp only [genList_template, hloc, if_true, hreq, if_false]
  · intro hrep
    have hloop := run_loop_genList H RNGF mission_stack player_missions faction planet
      sysname loc mission_stack 0
      { mission_id := mission_id, nrng := 0, events := [] }
      { mission_id := mission_id, nrng := 0, tmp := [], events := [] } rfl rfl hrep
    simp only [missions_run, missions_genList]
    rw [hloop]
    cases genList_loop H RNGF mission_stack player_missions faction planet sysname loc
        mission_stack 0 { mission_id := mission_id, nrng := 0, tmp := [], events := [] } with
    | none => rfl
    | some s => rfl

/-- The catalog of the one template `scenarioT` of chance `100`: both calls
take one draw. -/
theorem missions_run_one_trial_witness :
    (∀ misn ∈ [scenarioT], misn.avail.loc = 2 → mission_rep misn.avail.chance = 1) ∧
    (missions_run sampleHost sampleRNGF [scenarioT] emptyActive 0 2 0 "PlanetX"
        "SysY").map (fun s => (s.mission_id, s.nrng)) =
      (missions_genList sampleHost sampleRNGF [scenarioT] emptyActive 0 0 "PlanetX" "SysY"
        2).map (fun s => (s.mission_id, s.nrng)) :=
  ⟨by decide,
    (missions_run_one_trial sampleHost sampleRNGF [scenarioT] emptyActive 0 0 "PlanetX"
      "SysY" 2).2.2 (by decide)⟩

/-! ### Candidates without NPC name or title -/

/-- C23, the code at the failing input. Among candidates of the same template,
`sampleNpcB` (NPC name, no title) and `sampleBare` (neither) compare as tied
in both directions, where the order "nulls last" needs a negative result for
the first against the second; and `sampleNpcTitled` (NPC name, title `Zeta`)
compares as greater than `sampleTitled` (no NPC name, title `Alpha`), a
positive result, so that `qsort` puts the candidate without NPC name in
front. -/
theorem mission_compare_null_first :
    mission_priority [scenarioT] sampleNpcB = mission_priority [scenarioT] sampleBare ∧
    mission_priority [scenarioT] sampleNpcTitled =
      mission_priority [scenarioT] sampleTitled ∧
    ¬ mission_compare [scenarioT] sampleNpcB sampleBare < 0 ∧
    mission_compare [scenarioT] sampleNpcB sampleBare = 0 ∧
    mission_compare [scenarioT] sampleBare sampleNpcB = 0 ∧
    0 < mission_compare [scenarioT] sampleNpcTitled sampleTitled ∧
    (qsort [scenarioT] [sampleNpcTitled, sampleTitled]).map (fun m => m.id) = [5, 4] := by
  decide

/-- The branches of `mission_compare` at equal priority: the NPC names are
compared only when both candidates have one; when one of them has none, the
result is the comparison of the titles when both have a title, and `0` when
one of them has none. -/
theorem mission_compare_null (mission_stack : List MissionData) (a b : Mission)
    (hprio : mission_priority mission_stack a = mission_priority mission_stack b) :
    (∀ n1 n2, a.npc = some n1 → b.npc = some n2 →
      mission_compare mission_stack a b = strcmp n1 n2) ∧
    ((a.npc = none ∨ b.npc = none) →
      (∀ t1 t2, a.title = some t1 → b.title = some t2 →
        mission_compare mission_stack a b = strcmp t1 t2) ∧
      ((a.title = none ∨ b.title = none) → mission_compare mission_stack a b = 0)) := by
  have hlt : ¬ mission_priority mission_stack a < mission_priority mission_stack b := by
    omega
  have hgt : ¬ mission_priority mission_stack a > mission_priority mission_stack b := by
    omega
  refine ⟨?_, ?_⟩
  · intro n1 n2 h1 h2
    simp only [mission_compare, hlt, hgt, if_false, h1, h2]
  · intro hnone
    refine ⟨?_, ?_⟩
    · intro t1 t2 h1 h2
      rcases hnone with h | h
      · simp only [mission_compare, hlt, hgt, if_false, h, h1, h2]
      · cases hn : a.npc <;> simp only [mission_compare, hlt, hgt, if_false, h, hn, h1, h2]
    · intro htitle
      rcases hnone with h | h
      · rcases htitle with ht | ht
        · simp only [mission_compare, hlt, hgt, if_false, h, ht]
        · cases hta : a.title <;>
            simp only [mission_compare, hlt, hgt, if_false, h, ht, hta]
      · rcases htitle with ht | ht
        · cases hn : a.npc <;> simp only [mission_compare, hlt, hgt, if_false, h, hn, ht]
        · cases hn : a.npc <;> cases hta : a.title <;>
            simp only [mission_compare, hlt, hgt, if_false, h, hn, ht, hta]

/-- The candidates `sampleNpcB` and `sampleBare`, of which only the first has
an NPC name. -/
theorem mission_compare_null_witness :
    mission_priority [scenarioT] sampleNpcB = mission_priority [scenarioT] sampleBare ∧
    (sampleNpcB.npc = none ∨ sampleBare.npc = none) ∧
    (sampleNpcB.title = none ∨ sampleBare.title = none) ∧
    mission_compare [scenarioT] sampleNpcB sampleBare = 0 :=
  ⟨rfl, Or.inr rfl, Or.inl rfl,
    ((mission_compare_null [scenarioT] sampleNpcB sampleBare rfl).2 (Or.inr rfl)).2
      (Or.inl rfl)⟩

/-- C27, the code at the failing input. For the three candidates `sampleNpcB`
(NPC name `Bob`), `sampleBare` (no NPC name) and `sampleNpcA` (NPC name `Al`)
of the same template, none with a title, `mission_compare` ties the first with
the second and the second with the third, and puts the first after the
third. -/
theorem mission_compare_not_transitive :
    mission_compare [scenarioT] sampleNpcB sampleBare = 0 ∧
    mission_compare [scenarioT] sampleBare sampleNpcA = 0 ∧
    mission_compare [scenarioT] sampleNpcB sampleNpcA = 1 ∧
    (qsort [scenarioT] [sampleNpcB, sampleBare, sampleNpcA]).map (fun m => m.id) =
      [1, 2, 3] ∧
    (qsort [scenarioT] [sampleNpcB, sampleNpcA, sampleBare]).map (fun m => m.id) =
      [3, 1, 2] := by
  decide

/-! ### Table opt-in -/

/-- C24, counterexample. A table bound to a key that is neither a string nor
a number (a boolean key, say) is written as nothing: inside a persisted table,
where `persist_loop` of the table holding it gives no element, and at the top
level although its `__save` field is truthy. -/
theorem persist_table_other_key :
    persist_loop sampleHost true [(.other 1, .table [(.str "x", .number 1)])] = some [] ∧
    lua_toboolean (lua_getfield [(.str "__save", .boolean true)] "__save") = true ∧
    mission_persistDataNode sampleHost false (.other 1)
      (.table [(.str "__save", .boolean true)]) = some [] :=
  ⟨rfl, rfl, rfl⟩

/-- C24, amended. Table opt-in policy: for a table bound to a string or number
key, whose text `xmlw_attr` takes as the format of the `name` attribute,
`mission_persistDataNode` at the top level (`intable = 0`) writes nothing at
all when the `__save` field of the table is not truthy, and writes the `table`
element with the persisted entries of the table when it is truthy; inside a
persisted table (`intable = 1`) it writes the `table` element whatever the
`__save` field is.  The entries of a written table are persisted with
`intable = 1`, so that every table bound in it to a string or number key has
its element among the children; and the entries of a table of persistable
entries are always written.  A table bound to a key of any other type is
written as nothing, at the top level and inside a persisted table, whatever
its `__save` field is. -/
theorem persist_table_optin (H : Host) (k : LuaKey) (name : String) (keynum : Bool)
    (t : LuaTable) (hk : persist_key H k = some (name, keynum)) :
    (lua_toboolean (lua_getfield t "__save") = false →
      mission_persistDataNode H false k (.table t) = some []) ∧
    (lua_toboolean (lua_getfield t "__save") = true →
      mission_persistDataNode H false k (.table t) =
        (xmlw_attr name).bind (fun n =>
          (persist_loop H true t).map (fun ch => [DataNode.mk "table" n keynum "" ch]))) ∧
    mission_persistDataNode H true k (.table t) =
      (xmlw_attr name).bind (fun n =>
        (persist_loop H true t).map (fun ch => [DataNode.mk "table" n keynum "" ch])) ∧
    (∀ (ch : List DataNode) (k2 : LuaKey) (t2 : LuaTable) (name2 : String)
        (keynum2 : Bool),
      persist_loop H true t = some ch → (k2, LuaValue.table t2) ∈ t →
      persist_key H k2 = some (name2, keynum2) →
      ∃ n2 ch2, xmlw_attr name2 = some n2 ∧ persist_loop H true t2 = some ch2 ∧
        DataNode.mk "table" n2 keynum2 "" ch2 ∈ ch) ∧
    (persistable_entries H t = true → ∃ ch, persist_loop H true t = some ch) ∧
    (∀ (k0 : LuaKey) (intable : Bool), persist_key H k0 = none →
      mission_persistDataNode H intable k0 (.table t) = some []) := by
  refine ⟨?_, ?_, ?_, ?_, ?_, ?_⟩
  · intro hmark
    simp [mission_persistDataNode, hk, hmark]
  · intro hmark
    simp only [mission_persistDataNode, hk, hmark, Bool.not_false, Bool.not_true,
      Bool.and_false, Bool.false_eq_true, if_false]
    cases xmlw_attr name <;> cases persist_loop H true t <;> rfl
  · simp only [mission_persistDataNode, hk, Bool.not_true, Bool.false_and,
      Bool.false_eq_true, if_false]
    cases xmlw_attr name <;> cases persist_loop H true t <;> rfl
  · intro ch k2 t2 name2 keynum2 hloop hmem hk2
    have hsome : ∃ l, mission_persistDataNode H true k2 (.table t2) = some l := by
      clear hk
      induction t generalizing ch with
      | nil => simp at hmem
      | cons e rest ih =>
          obtain ⟨k1, v1⟩ := e
          simp only [persist_loop] at hloop
          cases h1 : mission_persistDataNode H true k1 v1 with
          | none => rw [h1] at hloop; exact Option.noConfusion hloop
          | some a =>
              rw [h1] at hloop
              rcases List.mem_cons.mp hmem with heq | hmem
              · simp only [Prod.mk.injEq] at heq
                rw [heq.1, heq.2]
                exact ⟨a, h1⟩
              · cases h2 : persist_loop H true rest with
                | none => rw [h2] at hloop; exact Option.noConfusion hloop
                | some b => exact ih b h2 hmem
    obtain ⟨l, hl⟩ := hsome
    cases hn2 : xmlw_attr name2 with
    | none => simp [mission_persistDataNode, hk2, hn2] at hl
    | some n2 =>
        cases hl2 : persist_loop H true t2 with
        | none => simp [mission_persistDataNode, hk2, hn2, hl2] at hl
        | some ch2 =>
            refine ⟨n2, ch2, rfl, rfl, ?_⟩
            have hnode : mission_persistDataNode H true k2 (.table t2) =
                some [DataNode.mk "table" n2 keynum2 "" ch2] := by
              simp [mission_persistDataNode, hk2, hn2, hl2]
            exact persist_loop_mem H true t ch hloop k2 (.table t2) _ hmem hnode _ (by simp)
  · intro hp
    obtain ⟨ns, hns, _⟩ := roundtrip_entries H t hp
    exact ⟨ns, hns⟩
  · intro k0 intable hk0
    simp [mission_persistDataNode, hk0]

/-- The table bound to `mem` in `sampleGlobals`, which carries a truthy
`__save`, at the top level and inside a table: the `table` element named
`mem` is written. -/
theorem persist_table_optin_witness :
    persist_key sampleHost (.str "mem") = some ("mem", false) ∧
    lua_toboolean (lua_getfield sampleMem "__save") = true ∧
    xmlw_attr "mem" = some "mem" ∧
    mission_persistDataNode sampleHost false (.str "mem") (.table sampleMem) =
      (xmlw_attr "mem").bind (fun n =>
        (persist_loop sampleHost true sampleMem).map
          (fun ch => [DataNode.mk "table" n false "" ch])) ∧
    mission_persistDataNode sampleHost true (.str "mem") (.table sampleMem) =
      (xmlw_attr "mem").bind (fun n =>
        (persist_loop sampleHost true sampleMem).map
          (fun ch => [DataNode.mk "table" n false "" ch])) :=
  ⟨rfl, by decide, by decide,
    (persist_table_optin sampleHost (.str "mem") "mem" false sampleMem rfl).2.1 (by decide),
    (persist_table_optin sampleHost (.str "mem") "mem" false sampleMem rfl).2.2.1⟩

/-! ### Timers -/

/-- C26, the code at the failing input. A tick of `5` on `sampleTimers`, whose
active instance has the armed slots `7` (`soon`), `5` (`late`) and `2` (`now`):
the only call made is the callback `now`; the slot of `late` is left with the
remaining time `0` and its callback, which no later tick will ever call, since
a slot is looked at only while its time is positive. -/
theorem missions_update_loses_timer :
    sampleTimers.map (fun m => (m.id, m.timer, m.tfunc)) =
      [(0, [3, 0, 0, 0], [some "never", none, none, none]),
        (9, [7, 5, 0, 2], [some "soon", some "late", none, some "now"])] ∧
    (missions_update sampleHost false 5 sampleTimers).map
        (fun r => (r.1.map (fun m => (m.id, m.timer, m.tfunc)), r.2)) =
      some ([(0, [3, 0, 0, 0], [some "never", none, none, none]),
          (9, [2, 0, 0, 0], [some "soon", some "late", none, none])],
        [Event.misn_run 9 (some 0) "now"]) ∧
    (∀ dt : ℚ,
      (update_timer sampleHost dt 1
          { Mission.zero 4 with id := 9, data := some 0, timer := [2, 0, 0, 0], tfunc := [some "soon", some "late", none, none] }).map
        (fun r => (r.1.timer, r.1.tfunc, r.2)) =
      some ([2, 0, 0, 0], [some "soon", some "late", none, none], [])) := by
  refine ⟨by decide, ?_, ?_⟩
  · simp [missions_update, update_loop, update_timers, update_timer, timer_fire, misn_run,
      sampleTimers, sampleHost, Mission.zero]
    norm_num
  · intro dt
    simp [update_timer, Mission.zero]

/-! ### Failed accept at the mission computer -/

/-- C28, the code at the failing input. With `sampleFirst` (id `1`) at the bar
and `sampleSecond` (id `2`) at the mission computer, when the `accept` entry
point of the selected computer candidate returns `-1`, `misn_accept` cleans up
the bar candidate at the same position: the bar list then holds a zeroed
instance, the hooks of id `1` are removed, and the computer candidate is
dropped from its list without any cleanup call for id `2`. -/
theorem misn_accept_cleans_bar :
    (mission_accept sampleHostFailing sampleSecond).1 = -1 ∧
    sampleLand.mission_bar.map (fun m => m.id) = [1] ∧
    sampleLand.mission_computer.map (fun m => m.id) = [2] ∧
    (misn_accept sampleHostFailing sampleLand "Cargo run" true 0).map
        (fun r =>
          (r.1.mission_bar.map (fun m => (m.id, m.data)),
            r.1.mission_computer.map (fun m => m.id), r.2)) =
      some ([(0, none)], [],
        [Event.misn_run 2 (some 1) "accept", Event.hook_rmMisnParent 1,
          Event.computer_genList, Event.space_clearMarkers,
          Event.space_clearComputerMarkers]) ∧
    (misn_accept sampleHostFailing { sampleLand with mission_bar := [] } "Cargo run" true
        0).isNone = true := by
  decide

/-! ### Restoring a display -/

/-- C29, the code at the failing input. For an `osd` element that declares
`nitems = 1` and has three `msg` children, the loop of `missions_parseActive`
stores two messages, the second at index `1` of the item array of one entry;
with `nitems = 0` and one `msg` child it stores that message at index `0` of an
array of no entries.  In the embedding both restorations are undefined. -/
theorem parseActive_osd_overflow :
    atoi "1" = 1 ∧
    parseActive_msgs [some "a", some "b", some "c"] 1 0 = [(0, some "a"), (1, some "b")] ∧
    parseActive_msgs [some "a"] 0 0 = [(0, some "a")] ∧
    (parseActive_osd sampleSaveHost (some "1") (some "Goals") [some "a", some "b", some "c"]
      (Mission.zero 4)).isNone = true ∧
    (missions_parseActive sampleHost sampleSaveHost scenarioCatalog emptyActive 0
      [.mission { data := some "T", id := some "6", children := [.osd (some "1") (some "Goals") [some "a", some "b"]] }]).isNone =
      true ∧
    (missions_parseActive sampleHost sampleSaveHost scenarioCatalog emptyActive 0
      [.mission { data := some "T", id := some "6", children := [.osd (some "1") (some "Goals") [some "a"]] }]).isSome =
      true := by
  decide

/-! ### Termination of the id generator -/

theorem mission_genID_loop_steps (ids : List Nat) :
    ∀ (fuel c id c1 : Nat), mission_genID_loop ids fuel c = some (id, c1) →
      ∃ k, 1 ≤ k ∧ k ≤ fuel ∧ id = (c + k) % 2 ^ 32 ∧ c1 = id ∧
        (∀ j, 1 ≤ j → j < k → (c + j) % 2 ^ 32 ∈ ids) ∧ id ∉ ids := by
  intro fuel
  induction fuel with
  | zero =>
      intro c id c1 h
      simp [mission_genID_loop] at h
  | succ fuel ih =>
      intro c id c1 h
      simp only [mission_genID_loop] at h
      by_cases hin : (c + 1) % 2 ^ 32 ∈ ids
      · rw [if_pos hin] at h
        obtain ⟨k, hk1, hk2, hid, hc1, hcol, hfree⟩ := ih ((c + 1) % 2 ^ 32) id c1 h
        have hmod : ∀ j, ((c + 1) % 2 ^ 32 + j) % 2 ^ 32 = (c + (j + 1)) % 2 ^ 32 := by
          intro j
          rw [Nat.add_mod, Nat.mod_mod, ← Nat.add_mod]
          congr 1
          omega
        refine ⟨k + 1, by omega, by omega, by rw [hid, hmod], hc1, ?_, hfree⟩
        intro j hj1 hj2
        by_cases hj : j = 1
        · rw [hj]
          exact hin
        · have := hcol (j - 1) (by omega) (by omega)
          rw [hmod] at this
          have hjj : j - 1 + 1 = j := by omega
          rw [hjj] at this
          exact this
      · rw [if_neg hin] at h
        simp only [Option.some.injEq, Prod.mk.injEq] at h
        refine ⟨1, Nat.le_refl 1, by omega, h.1.symm, by rw [← h.1, ← h.2], ?_, ?_⟩
        · intro j hj1 hj2
          omega
        · rw [← h.1]
          exact hin

/-- C30. Id generation terminates: for every value of the id counter and every
active table of fewer than `2^32` slots, `mission_genID` returns after
advancing the counter `k` times with `1 <= k <= MISSION_MAX + 1`: each of the
first `k - 1` values of the counter is the id of a slot, which makes the
function call itself again, and the `k`-th is the id of no slot and is
returned. -/
theorem mission_genID_terminates (player_missions : List Mission) (mission_id : Nat)
    (hmax : player_missions.length < 2 ^ 32) :
    ∃ id k, mission_genID player_missions mission_id = some (id, id) ∧
      1 ≤ k ∧ k ≤ player_missions.length + 1 ∧ id = (mission_id + k) % 2 ^ 32 ∧
      (∀ j, 1 ≤ j → j < k →
        (mission_id + j) % 2 ^ 32 ∈ player_missions.map (fun m => m.id)) ∧
      id ∉ player_missions.map (fun m => m.id) := by
  obtain ⟨id, _, hgen, _⟩ := mission_genID_spec player_missions mission_id hmax
  obtain ⟨k, hk1, hk2, hid, _, hcol, hfree⟩ :=
    mission_genID_loop_steps (player_missions.map (fun m => m.id))
      (player_missions.length + 1) mission_id id id hgen
  exact ⟨id, k, hgen, hk1, hk2, hid, hcol, hfree⟩

/-- The full table `fullActive` with the ids `1` and `2` and the counter at
`0`: the third value of the counter is returned. -/
theorem mission_genID_terminates_witness :
    fullActive.length < 2 ^ 32 ∧
    mission_genID fullActive 0 = some (3, 3) ∧
    ∃ id k, mission_genID fullActive 0 = some (id, id) ∧
      1 ≤ k ∧ k ≤ fullActive.length + 1 ∧ id = (0 + k) % 2 ^ 32 :=
  ⟨by decide, by decide,
    (mission_genID_terminates fullActive 0 (by decide)).imp
      (fun _ h => h.imp (fun _ h1 => ⟨h1.1, h1.2.1, h1.2.2.1, h1.2.2.2.1⟩))⟩

end Naev
